import Mathlib

/-!
# Gamification CRUD modules: pagination, partial update and HTTP status mapping

A shallow embedding of the `achievements` module (model, service, controller) and of the
parts of the `user_achievements` module that differ from it, together with the properties
of the list / get / create / update / delete handlers.

Conventions of the embedding

* Go `int` is a 64-bit two's-complement integer: values are `Int`, and every arithmetic
  result is reduced with `wrapInt64`.
* Go `uint` ids are `Nat`.
* A Go `error` is represented by its message (`err.Error()`), a `String`;
  `fmt.Errorf("ctx: %w", err)` is `"ctx: " ++ err`.
* A nil-able pointer is an `Option`.
* The database, the event emitter, the logger and the file storage are explicit state
  (`World`).  Every call to the database or to the storage is recorded in `World.calls`, and
  may fail: `World.faults` scripts the outcome of the successive calls.
-/

namespace Gamification

deriving instance DecidableEq for Except

/-! ## Go numeric semantics -/

/-- Smallest value of a 64-bit `int`. -/
def minInt64 : Int := -(2 ^ 63)

/-- Largest value of a 64-bit `int`. -/
def maxInt64 : Int := 2 ^ 63 - 1

/-- Two's-complement wrap-around of a mathematical integer into the 64-bit `int` range. -/
def wrapInt64 (x : Int) : Int := (x + 2 ^ 63) % 2 ^ 64 - 2 ^ 63

/-- Nearest integer to `n / d`, ties to the even neighbour (IEEE-754 round-to-nearest-even). -/
def roundHalfEven (n d : Nat) : Nat :=
  let q := n / d
  let r := n % d
  if 2 * r < d then q
  else if d < 2 * r then q + 1
  else if q % 2 = 0 then q else q + 1

/-- Halving loop behind `log2Floor`; the first argument bounds the number of halvings. -/
def log2FloorAux : Nat → Nat → Nat
  | 0, _ => 0
  | fuel + 1, n => if n < 2 then 0 else log2FloorAux fuel (n / 2) + 1

/-- Position of the highest set bit of a 64-bit magnitude (`bits.Len64(n) - 1`), `0` for `0`. -/
def log2Floor (n : Nat) : Nat := log2FloorAux 64 n

/-- Magnitude of `float64(n)` for an integer of magnitude `n`: integers below `2^53` are exact,
larger ones are rounded to 53 significant bits. The result is again an integer. -/
def float64OfNat (n : Nat) : Nat :=
  if n < 2 ^ 53 then n
  else
    let e := log2Floor n - 52
    roundHalfEven n (2 ^ e) * 2 ^ e

/-- Binary exponent of the quotient `a / b` of two positive integers:
the `e` with `2^e ≤ a / b < 2^(e+1)`. -/
def quotExp (a b : Nat) : Int :=
  if b * 2 ^ log2Floor a ≤ a * 2 ^ log2Floor b then (log2Floor a : Int) - log2Floor b
  else (log2Floor a : Int) - log2Floor b - 1

/-- The double nearest to `a / b` (both positive), as a 53-bit significand `m` and a scale `s`:
its value is `m / 2^s` when `0 ≤ s` and `m * 2^(-s)` otherwise. -/
def float64Quot (a b : Nat) : Nat × Int :=
  let s := 52 - quotExp a b
  if 0 ≤ s then (roundHalfEven (a * 2 ^ s.toNat) b, s)
  else (roundHalfEven a (b * 2 ^ (-s).toNat), s)

/-- Ceiling of the scaled value `m / 2^s` (or `m * 2^(-s)`): `math.Ceil` on a positive double. -/
def ceilScaled (m : Nat) (s : Int) : Nat :=
  if 0 ≤ s then (m + 2 ^ s.toNat - 1) / 2 ^ s.toNat else m * 2 ^ (-s).toNat

/-- Floor of the scaled value: `-math.Ceil(-x)` for a positive double `x`. -/
def floorScaled (m : Nat) (s : Int) : Nat :=
  if 0 ≤ s then m / 2 ^ s.toNat else m * 2 ^ (-s).toNat

/-- Conversion `int(f)` of an integral double to `int`: exact when it fits, and the amd64
"integer indefinite" value `-2^63` when it does not. -/
def float64ToInt (x : Int) : Int :=
  if minInt64 ≤ x ∧ x ≤ maxInt64 then x else minInt64

/-- The Go expression `int(math.Ceil(float64(total) / float64(limit)))`. -/
def ceilDivFloat64 (total limit : Int) : Int :=
  let a := float64OfNat total.natAbs
  let b := float64OfNat limit.natAbs
  if b = 0 then minInt64
  else if a = 0 then 0
  else
    let ms := float64Quot a b
    if decide (total < 0) = decide (limit < 0) then float64ToInt (ceilScaled ms.1 ms.2)
    else float64ToInt (-(floorScaled ms.1 ms.2 : Int))

/-! ## `strconv` -/

/-- The two error kinds of `strconv.NumError`. -/
inductive NumError where
  | ErrSyntax
  | ErrRange
  deriving DecidableEq, Repr

/-- Value of an ASCII decimal digit. -/
def digitVal (c : Char) : Nat := c.toNat - 48

/-- The digit loop of `strconv.ParseUint` for base 10: `n` is the value read so far, `maxVal`
the largest value of the requested bit size. -/
def parseUintLoop (maxVal : Nat) : List Char → Nat → Except NumError Nat
  | [], n => .ok n
  | c :: cs, n =>
    if c.isDigit then
      -- cutoff: the smallest number whose tenfold exceeds the largest uint64
      if n ≥ (2 ^ 64 - 1) / 10 + 1 then .error .ErrRange
      else
        let n1 := n * 10 + digitVal c
        if n1 ≥ 2 ^ 64 ∨ n1 > maxVal then .error .ErrRange
        else parseUintLoop maxVal cs n1
    else .error .ErrSyntax

/-- The call `strconv.ParseUint(s, 10, bitSize)` for `1 ≤ bitSize ≤ 64`. -/
def ParseUint (s : String) (bitSize : Nat) : Except NumError Nat :=
  if s.data = [] then .error .ErrSyntax
  else parseUintLoop (2 ^ bitSize - 1) s.data 0

/-- The call `strconv.ParseInt(s, 10, 64)`: an optional sign, then `ParseUint` and the range
check against the signed range. -/
def ParseInt (s : String) : Except NumError Int :=
  match s.data with
  | [] => .error .ErrSyntax
  | c :: cs =>
    let neg := decide (c = '-')
    let rest := if c = '+' ∨ c = '-' then cs else c :: cs
    if rest = [] then .error .ErrSyntax
    else
      match parseUintLoop (2 ^ 64 - 1) rest 0 with
      | .error .ErrSyntax => .error .ErrSyntax
      | .error .ErrRange => .error .ErrRange
      | .ok un =>
        if ¬ neg ∧ un ≥ 2 ^ 63 then .error .ErrRange
        else if neg ∧ un > 2 ^ 63 then .error .ErrRange
        else .ok (if neg then -(un : Int) else un)

/-- The call `strconv.Atoi(s)` on a 64-bit platform (it agrees with `ParseInt(s, 10, 0)`). -/
def Atoi (s : String) : Except NumError Int := ParseInt s

/-! ## Models (`models/achievement.go`, `models/user_achievement.go`) -/

/-- The type `storage.Attachment`: a stored file and the model field it belongs to. -/
structure Attachment where
  Id : Nat
  ModelType : String
  ModelId : Nat
  Field : String
  Filename : String
  deriving DecidableEq, Repr

/-- The type `multipart.FileHeader`: an uploaded file. -/
structure FileHeader where
  Filename : String
  Size : Nat
  deriving DecidableEq, Repr

/-- The struct `models.Achievement`. Times are clock readings; `DeletedAt` is the soft-delete
mark (`gorm.DeletedAt`), `Icon` the polymorphic attachment relation. -/
structure Achievement where
  Id : Nat := 0
  CreatedAt : Nat := 0
  UpdatedAt : Nat := 0
  DeletedAt : Option Nat := none
  Name : String := ""
  Description : String := ""
  Icon : Option Attachment := none
  Category : String := ""
  DifficultyLevel : Int := 0
  IsHidden : Bool := false
  IsActive : Bool := false
  deriving DecidableEq, Repr

/-- The struct `models.AchievementListResponse`. -/
structure AchievementListResponse where
  Id : Nat
  CreatedAt : Nat
  UpdatedAt : Nat
  Name : String
  Description : String
  Icon : Option Attachment
  Category : String
  DifficultyLevel : Int
  IsHidden : Bool
  IsActive : Bool
  deriving DecidableEq, Repr

/-- The struct `models.AchievementResponse`. -/
structure AchievementResponse where
  Id : Nat
  CreatedAt : Nat
  UpdatedAt : Nat
  DeletedAt : Option Nat
  Name : String
  Description : String
  Icon : Option Attachment
  Category : String
  DifficultyLevel : Int
  IsHidden : Bool
  IsActive : Bool
  deriving DecidableEq, Repr

/-- The struct `models.CreateAchievementRequest`. -/
structure CreateAchievementRequest where
  Name : String
  Description : String
  Icon : Option Attachment := none
  Category : String
  DifficultyLevel : Int
  IsHidden : Bool
  IsActive : Bool
  deriving DecidableEq, Repr

/-- The struct `models.UpdateAchievementRequest`: every scalar field travels as text. -/
structure UpdateAchievementRequest where
  Name : String := ""
  Description : String := ""
  Icon : Option Attachment := none
  Category : String := ""
  DifficultyLevel : String := ""
  IsHidden : String := ""
  IsActive : String := ""
  deriving DecidableEq, Repr

/-- The method `(*Achievement).ToListResponse`. -/
def Achievement.ToListResponse : Option Achievement → Option AchievementListResponse
  | none => none
  | some item => some {
      Id := item.Id
      CreatedAt := item.CreatedAt
      UpdatedAt := item.UpdatedAt
      Name := item.Name
      Description := item.Description
      Icon := item.Icon
      Category := item.Category
      DifficultyLevel := item.DifficultyLevel
      IsHidden := item.IsHidden
      IsActive := item.IsActive }

/-- The method `(*Achievement).ToResponse`. -/
def Achievement.ToResponse : Option Achievement → Option AchievementResponse
  | none => none
  | some item => some {
      Id := item.Id
      CreatedAt := item.CreatedAt
      UpdatedAt := item.UpdatedAt
      DeletedAt := item.DeletedAt
      Name := item.Name
      Description := item.Description
      Icon := item.Icon
      Category := item.Category
      DifficultyLevel := item.DifficultyLevel
      IsHidden := item.IsHidden
      IsActive := item.IsActive }

/-- The type `users.User`, of which only the key is of interest here. -/
structure User where
  Id : Nat
  deriving DecidableEq, Repr

/-- The struct `models.UserAchievement`. -/
structure UserAchievement where
  Id : Nat := 0
  CreatedAt : Nat := 0
  UpdatedAt : Nat := 0
  DeletedAt : Option Nat := none
  UserId : Nat := 0
  User : Option User := none
  AchievementId : Nat := 0
  Achievement : Option Achievement := none
  Progress : Int := 0
  CompletedAt : Nat := 0
  deriving DecidableEq, Repr

/-- The struct `models.UserAchievementListResponse`. -/
structure UserAchievementListResponse where
  Id : Nat
  CreatedAt : Nat
  UpdatedAt : Nat
  UserId : Nat
  AchievementId : Nat
  Progress : Int
  CompletedAt : Nat
  deriving DecidableEq, Repr

/-- The struct `models.UpdateUserAchievementRequest`. -/
structure UpdateUserAchievementRequest where
  UserId : Nat := 0
  AchievementId : Nat := 0
  Progress : String := ""
  CompletedAt : String := ""
  deriving DecidableEq, Repr

/-- The method `(*UserAchievement).ToListResponse`. -/
def UserAchievement.ToListResponse : Option UserAchievement → Option UserAchievementListResponse
  | none => none
  | some item => some {
      Id := item.Id
      CreatedAt := item.CreatedAt
      UpdatedAt := item.UpdatedAt
      UserId := item.UserId
      AchievementId := item.AchievementId
      Progress := item.Progress
      CompletedAt := item.CompletedAt }

/-! ## The ORM: queries, update maps and the table -/

/-- A value of an update map (`map[string]interface{}`): the code stores strings and uints. -/
inductive Value where
  | str (s : String)
  | uint (n : Nat)
  deriving DecidableEq, Repr

/-- An update map, as the list of its entries; keys are unique. -/
abbrev Updates := List (String × Value)

/-- The assignment `updates[k] = v`. -/
def Updates.set (m : Updates) (k : String) (v : Value) : Updates :=
  m.filter (fun kv => kv.1 ≠ k) ++ [(k, v)]

/-- The parts of a `*gorm.DB` query chain this code builds: eager-load requests, row offset and
row limit. -/
structure Query where
  preloads : List String := []
  offset : Int := 0
  limit : Option Int := none
  deriving DecidableEq, Repr

/-- The chain method `Preload(name)`. -/
def Query.Preload (q : Query) (name : String) : Query :=
  { q with preloads := q.preloads ++ [name] }

/-- The chain method `Offset(n)`. -/
def Query.Offset (q : Query) (n : Int) : Query := { q with offset := n }

/-- The chain method `Limit(n)`. -/
def Query.Limit (q : Query) (n : Int) : Query := { q with limit := some n }

/-- The method `(*Achievement).Preload`: it returns the query it is given. -/
def Achievement.Preload (db : Query) : Query :=
  let query := db
  query

/-- The method `(*UserAchievement).Preload`. -/
def UserAchievement.Preload (db : Query) : Query :=
  let query := db
  let query := query.Preload "User"
  let query := query.Preload "Achievement"
  query

/-- What the ORM needs to know of a model type `α`. -/
structure Model (α : Type) where
  /-- table name -/
  table : String
  /-- primary key -/
  getId : α → Nat
  /-- soft-delete mark -/
  deletedAt : α → Option Nat
  /-- the row written by an insert at time `now` under the fresh key `id` -/
  inserted : α → (id now : Nat) → α
  /-- the row after an update map is applied at time `now`; the database rejects text it cannot
  store in the column -/
  updated : α → Updates → (now : Nat) → Except String α
  /-- the row with its soft-delete mark set -/
  deleted : α → (now : Nat) → α
  /-- the row as a query returns it: relations are filled in only when eager-loaded -/
  loaded : List String → α → α

/-- A call on the database handle or on the file storage. -/
inductive Call where
  | dbCreate (table : String)
  | dbFirst (table : String) (q : Query) (id : Nat)
  | dbUpdates (table : String) (id : Nat) (updates : Updates)
  | dbDelete (table : String) (id : Nat)
  | dbCount (table : String)
  | dbFind (table : String) (q : Query)
  | dbAssociationReplace (table : String) (id : Nat) (assoc : String) (a : Attachment)
  | dbAssociationClear (table : String) (id : Nat) (assoc : String)
  | storageDelete (a : Option Attachment)
  | storageAttach (model : String) (id : Nat) (field : String) (file : FileHeader)
  deriving DecidableEq, Repr

/-- Everything outside the service: the table, the storage, the emitter and the logger. -/
structure World (α : Type) where
  /-- the table, in the order a query without `ORDER BY` returns its rows -/
  rows : List α := []
  /-- next primary key -/
  nextId : Nat := 1
  /-- clock reading -/
  clock : Nat := 0
  /-- outcome of the successive database and storage calls: `some e` makes the call fail with
  error `e`, `none` (or an exhausted script) lets it run -/
  faults : List (Option String) := []
  /-- the database and storage calls made so far -/
  calls : List Call := []
  /-- the events emitted so far, with their payload -/
  events : List (String × α) := []
  /-- the messages logged at error level so far -/
  logs : List String := []
  /-- the stored files -/
  files : List Attachment := []
  /-- next attachment key -/
  nextFileId : Nat := 1

/-- The rows a query sees: those not soft-deleted. -/
def World.visible {α : Type} (m : Model α) (w : World α) : List α :=
  w.rows.filter (fun r => (m.deletedAt r).isNone)

/-- Start of a database or storage call: the call is recorded and its scripted outcome taken. -/
def World.enter {α : Type} (w : World α) (c : Call) : Option String × World α :=
  match w.faults with
  | [] => (none, { w with calls := w.calls ++ [c] })
  | f :: fs => (f, { w with calls := w.calls ++ [c], faults := fs })

/-- The call `Logger.Error(msg, ...)`. -/
def World.logError {α : Type} (w : World α) (msg : String) : World α :=
  { w with logs := w.logs ++ [msg] }

/-- The call `Emitter.Emit(name, item)`. -/
def World.emit {α : Type} (w : World α) (name : String) (item : α) : World α :=
  { w with events := w.events ++ [(name, item)] }

/-- The text of `gorm.ErrRecordNotFound`. -/
def ErrRecordNotFound : String := "record not found"

/-- The call `db.Create(item)`: the row is appended under a fresh key; the result is the item
with key and timestamps filled in. -/
def dbCreate {α : Type} (m : Model α) (w : World α) (item : α) : World α × Except String α :=
  match w.enter (.dbCreate m.table) with
  | (some e, w1) => (w1, .error e)
  | (none, w1) =>
    let row := m.inserted item w1.nextId w1.clock
    ({ w1 with rows := w1.rows ++ [row], nextId := w1.nextId + 1 }, .ok row)

/-- The call `query.First(item, id)`: the visible row with that key, or `ErrRecordNotFound`. -/
def dbFirst {α : Type} (m : Model α) (w : World α) (q : Query) (id : Nat) :
    World α × Except String α :=
  match w.enter (.dbFirst m.table q id) with
  | (some e, w1) => (w1, .error e)
  | (none, w1) =>
    match (w1.visible m).find? (fun r => m.getId r = id) with
    | none => (w1, .error ErrRecordNotFound)
    | some r => (w1, .ok (m.loaded q.preloads r))

/-- The call `db.Model(item).Updates(updates)`: the update map is applied to the visible row
with the key of `item`. -/
def dbUpdates {α : Type} (m : Model α) (w : World α) (id : Nat) (updates : Updates) :
    World α × Except String Unit :=
  match w.enter (.dbUpdates m.table id updates) with
  | (some e, w1) => (w1, .error e)
  | (none, w1) =>
    match (w1.visible m).find? (fun r => m.getId r = id) with
    | none => (w1, .ok ())
    | some r =>
      match m.updated r updates w1.clock with
      | .error e => (w1, .error e)
      | .ok r1 =>
        ({ w1 with rows := w1.rows.map (fun x =>
            if m.getId x = id ∧ (m.deletedAt x).isNone then r1 else x) }, .ok ())

/-- The call `db.Delete(item)`: the visible row with the key of `item` is soft-deleted. -/
def dbDelete {α : Type} (m : Model α) (w : World α) (id : Nat) : World α × Except String Unit :=
  match w.enter (.dbDelete m.table id) with
  | (some e, w1) => (w1, .error e)
  | (none, w1) =>
    ({ w1 with rows := w1.rows.map (fun x =>
        if m.getId x = id ∧ (m.deletedAt x).isNone then m.deleted x w1.clock else x) }, .ok ())

/-- The call `query.Count(&total)`. -/
def dbCount {α : Type} (m : Model α) (w : World α) : World α × Except String Int :=
  match w.enter (.dbCount m.table) with
  | (some e, w1) => (w1, .error e)
  | (none, w1) => (w1, .ok ((w1.visible m).length : Int))

/-- The rows selected by the `LIMIT` / `OFFSET` clause the ORM builds: `OFFSET` is emitted only
for a positive offset, `LIMIT` only for a limit that is set and not negative. -/
def applyLimit {α : Type} (q : Query) (rows : List α) : List α :=
  let skipped := if 0 < q.offset then rows.drop q.offset.toNat else rows
  match q.limit with
  | none => skipped
  | some l => if 0 ≤ l then skipped.take l.toNat else skipped

/-- The call `query.Find(&items)`. -/
def dbFind {α : Type} (m : Model α) (w : World α) (q : Query) : World α × Except String (List α) :=
  match w.enter (.dbFind m.table q) with
  | (some e, w1) => (w1, .error e)
  | (none, w1) => (w1, .ok ((applyLimit q (w1.visible m)).map (m.loaded q.preloads)))

/-- The response type `types.PaginatedResponse` with its `types.Pagination` block. -/
structure Pagination where
  Total : Int
  Page : Int
  PageSize : Int
  TotalPages : Int
  deriving DecidableEq, Repr

/-- The response type `types.PaginatedResponse`, over the list-response type `β`. -/
structure PaginatedResponse (β : Type) where
  Data : List (Option β)
  Pagination : Pagination
  deriving DecidableEq, Repr

/-! ## The `achievements` table -/

/-- Text the database accepts for a boolean column. -/
def parseBoolText (s : String) : Option Bool :=
  if s = "true" ∨ s = "t" ∨ s = "1" then some true
  else if s = "false" ∨ s = "f" ∨ s = "0" then some false
  else none

/-- One entry of an update map applied to an `achievements` row. Text sent to a numeric or
boolean column is converted by the database, which rejects text it cannot convert. -/
def Achievement.assign (r : Achievement) (kv : String × Value) : Except String Achievement :=
  match kv with
  | ("name", .str s) => .ok { r with Name := s }
  | ("description", .str s) => .ok { r with Description := s }
  | ("category", .str s) => .ok { r with Category := s }
  | ("difficulty_level", .str s) =>
    match s.toInt? with
    | some n => .ok { r with DifficultyLevel := n }
    | none => .error ("invalid input for column difficulty_level: " ++ s)
  | ("is_hidden", .str s) =>
    match parseBoolText s with
    | some b => .ok { r with IsHidden := b }
    | none => .error ("invalid input for column is_hidden: " ++ s)
  | ("is_active", .str s) =>
    match parseBoolText s with
    | some b => .ok { r with IsActive := b }
    | none => .error ("invalid input for column is_active: " ++ s)
  | (k, _) => .error ("invalid input for column " ++ k)

/-- The `achievements` table as the ORM sees it. The `Icon` relation is filled in by a query
only when it is eager-loaded; an update also refreshes `UpdatedAt`. -/
def achievementModel : Model Achievement where
  table := "achievements"
  getId := fun r => r.Id
  deletedAt := fun r => r.DeletedAt
  inserted := fun r id now => { r with Id := id, CreatedAt := now, UpdatedAt := now }
  updated := fun r updates now =>
    (updates.foldlM Achievement.assign r).map (fun r1 => { r1 with UpdatedAt := now })
  deleted := fun r now => { r with DeletedAt := some now }
  loaded := fun preloads r => if "Icon" ∈ preloads then r else { r with Icon := none }

/-- The call `db.Model(item).Association("Icon").Replace(attachment)`. -/
def dbAssociationReplace (w : World Achievement) (id : Nat) (a : Attachment) :
    World Achievement × Except String Unit :=
  match w.enter (.dbAssociationReplace "achievements" id "Icon" a) with
  | (some e, w1) => (w1, .error e)
  | (none, w1) =>
    ({ w1 with rows := w1.rows.map (fun x =>
        if x.Id = id ∧ x.DeletedAt.isNone then { x with Icon := some a } else x) }, .ok ())

/-- The call `db.Model(item).Association("Icon").Clear()`. -/
def dbAssociationClear (w : World Achievement) (id : Nat) :
    World Achievement × Except String Unit :=
  match w.enter (.dbAssociationClear "achievements" id "Icon") with
  | (some e, w1) => (w1, .error e)
  | (none, w1) =>
    ({ w1 with rows := w1.rows.map (fun x =>
        if x.Id = id ∧ x.DeletedAt.isNone then { x with Icon := none } else x) }, .ok ())

/-- The call `Storage.Delete(attachment)`: the stored file is removed. -/
def storageDelete {α : Type} (w : World α) (a : Option Attachment) : World α × Except String Unit :=
  match w.enter (.storageDelete a) with
  | (some e, w1) => (w1, .error e)
  | (none, w1) =>
    match a with
    | none => (w1, .ok ())
    | some att => ({ w1 with files := w1.files.filter (fun f => f ≠ att) }, .ok ())

/-- The call `Storage.Attach(item, field, file)`: the file is stored and its attachment record
returned. -/
def storageAttach {α : Type} (w : World α) (model : String) (id : Nat) (field : String)
    (file : FileHeader) : World α × Except String Attachment :=
  match w.enter (.storageAttach model id field file) with
  | (some e, w1) => (w1, .error e)
  | (none, w1) =>
    let att : Attachment :=
      { Id := w1.nextFileId, ModelType := model, ModelId := id, Field := field,
        Filename := file.Filename }
    ({ w1 with files := w1.files ++ [att], nextFileId := w1.nextFileId + 1 }, .ok att)

/-! ## `achievements/service.go` -/

namespace AchievementService

/-- Event name `CreateAchievementEvent`. -/
def CreateAchievementEvent : String := "achievements.create"

/-- Event name `UpdateAchievementEvent`. -/
def UpdateAchievementEvent : String := "achievements.update"

/-- Event name `DeleteAchievementEvent`. -/
def DeleteAchievementEvent : String := "achievements.delete"

/-- The method `AchievementService.GetById`. -/
def GetById (w : World Achievement) (id : Nat) : World Achievement × Except String Achievement :=
  let query := Achievement.Preload {}
  match dbFirst achievementModel w query id with
  | (w1, .error err) =>
    (w1.logError "failed to get achievement", .error ("failed to get achievement: " ++ err))
  | (w1, .ok item) => (w1, .ok item)

/-- The method `AchievementService.Create`. -/
def Create (w : World Achievement) (req : CreateAchievementRequest) :
    World Achievement × Except String Achievement :=
  let item : Achievement :=
    { Name := req.Name
      Description := req.Description
      Category := req.Category
      DifficultyLevel := req.DifficultyLevel
      IsHidden := req.IsHidden
      IsActive := req.IsActive }
  match dbCreate achievementModel w item with
  | (w1, .error err) =>
    (w1.logError "failed to create achievement", .error ("failed to create achievement: " ++ err))
  | (w1, .ok item1) =>
    let w2 := w1.emit CreateAchievementEvent item1
    GetById w2 item1.Id

/-- The update map built by `AchievementService.Update` (the block "Build updates map"). -/
def buildUpdates (req : UpdateAchievementRequest) : Updates :=
  let updates : Updates := []
  let updates := if req.Name ≠ "" then updates.set "name" (.str req.Name) else updates
  let updates :=
    if req.Description ≠ "" then updates.set "description" (.str req.Description) else updates
  let updates := if req.Category ≠ "" then updates.set "category" (.str req.Category) else updates
  let updates :=
    if req.DifficultyLevel ≠ "" then updates.set "difficulty_level" (.str req.DifficultyLevel)
    else updates
  let updates := if req.IsHidden ≠ "" then updates.set "is_hidden" (.str req.IsHidden) else updates
  let updates := if req.IsActive ≠ "" then updates.set "is_active" (.str req.IsActive) else updates
  updates

/-- The method `AchievementService.Update`. -/
def Update (w : World Achievement) (id : Nat) (req : UpdateAchievementRequest) :
    World Achievement × Except String Achievement :=
  match dbFirst achievementModel w {} id with
  | (w1, .error err) =>
    (w1.logError "failed to find achievement for update",
      .error ("failed to find achievement: " ++ err))
  | (w1, .ok item) =>
    let updates := buildUpdates req
    match dbUpdates achievementModel w1 item.Id updates with
    | (w2, .error err) =>
      (w2.logError "failed to update achievement", .error ("failed to update achievement: " ++ err))
    | (w2, .ok _) =>
      match GetById w2 item.Id with
      | (w3, .error err) =>
        (w3.logError "failed to get updated achievement",
          .error ("failed to get updated achievement: " ++ err))
      | (w3, .ok result) =>
        let w4 := w3.emit UpdateAchievementEvent result
        (w4, .ok result)

/-- The method `AchievementService.Delete`. -/
def Delete (w : World Achievement) (id : Nat) : World Achievement × Except String Unit :=
  match dbFirst achievementModel w {} id with
  | (w1, .error err) =>
    (w1.logError "failed to find achievement for deletion",
      .error ("failed to find achievement: " ++ err))
  | (w1, .ok item) =>
    -- Delete file attachments if any
    let afterIcon : World Achievement × Except String Unit :=
      match item.Icon with
      | some icon =>
        match storageDelete w1 (some icon) with
        | (w2, .error err) =>
          (w2.logError "failed to delete icon", .error ("failed to delete icon: " ++ err))
        | (w2, .ok _) => (w2, .ok ())
      | none => (w1, .ok ())
    match afterIcon with
    | (w2, .error err) => (w2, .error err)
    | (w2, .ok _) =>
      match dbDelete achievementModel w2 item.Id with
      | (w3, .error err) =>
        (w3.logError "failed to delete achievement",
          .error ("failed to delete achievement: " ++ err))
      | (w3, .ok _) =>
        let w4 := w3.emit DeleteAchievementEvent item
        (w4, .ok ())

/-- The method `AchievementService.GetAll`. -/
def GetAll (w : World Achievement) (page limit : Option Int) :
    World Achievement × Except String (PaginatedResponse AchievementListResponse) :=
  let query : Query := {}
  -- Set default values if nil
  let defaultPage : Int := 1
  let defaultLimit : Int := 10
  let page := match page with
    | none => defaultPage
    | some p => p
  let limit := match limit with
    | none => defaultLimit
    | some l => l
  -- Get total count
  match dbCount achievementModel w with
  | (w1, .error err) =>
    (w1.logError "failed to count achievements",
      .error ("failed to count achievements: " ++ err))
  | (w1, .ok total) =>
    -- Apply pagination: after the defaults neither pointer is nil
    let offset := wrapInt64 ((page - 1) * limit)
    let query := (query.Offset offset).Limit limit
    -- Preload relationships
    let query := Achievement.Preload query
    -- Execute query
    match dbFind achievementModel w1 query with
    | (w2, .error err) =>
      (w2.logError "failed to get achievements", .error ("failed to get achievements: " ++ err))
    | (w2, .ok items) =>
      -- Convert to response type
      let responses := items.map (fun item => Achievement.ToListResponse (some item))
      -- Calculate total pages
      let totalPages := ceilDivFloat64 total limit
      let totalPages := if totalPages = 0 then 1 else totalPages
      (w2, .ok
        { Data := responses
          Pagination :=
            { Total := total
              Page := page
              PageSize := limit
              TotalPages := totalPages } })

/-- The method `AchievementService.UploadIcon`. -/
def UploadIcon (w : World Achievement) (id : Nat) (file : FileHeader) :
    World Achievement × Except String Achievement :=
  match dbFirst achievementModel w {} id with
  | (w1, .error err) =>
    (w1.logError "failed to find achievement", .error ("failed to find achievement: " ++ err))
  | (w1, .ok item) =>
    -- Delete existing file if any
    let afterIcon : World Achievement × Except String Unit :=
      match item.Icon with
      | some icon =>
        match storageDelete w1 (some icon) with
        | (w2, .error err) =>
          (w2.logError "failed to delete existing icon",
            .error ("failed to delete existing icon: " ++ err))
        | (w2, .ok _) => (w2, .ok ())
      | none => (w1, .ok ())
    match afterIcon with
    | (w2, .error err) => (w2, .error err)
    | (w2, .ok _) =>
      -- Attach new file
      match storageAttach w2 "achievement" item.Id "icon" file with
      | (w3, .error err) =>
        (w3.logError "failed to attach icon", .error ("failed to attach icon: " ++ err))
      | (w3, .ok attachment) =>
        -- Update the model with the new attachment
        match dbAssociationReplace w3 item.Id attachment with
        | (w4, .error err) =>
          (w4.logError "failed to associate icon", .error ("failed to associate icon: " ++ err))
        | (w4, .ok _) => GetById w4 id

/-- The method `AchievementService.RemoveIcon`. -/
def RemoveIcon (w : World Achievement) (id : Nat) :
    World Achievement × Except String Achievement :=
  match dbFirst achievementModel w {} id with
  | (w1, .error err) =>
    (w1.logError "failed to find achievement", .error ("failed to find achievement: " ++ err))
  | (w1, .ok item) =>
    match item.Icon with
    | none => (w1, .ok item)
    | some icon =>
      match storageDelete w1 (some icon) with
      | (w2, .error err) =>
        (w2.logError "failed to delete icon", .error ("failed to delete icon: " ++ err))
      | (w2, .ok _) =>
        -- Clear the association
        match dbAssociationClear w2 item.Id with
        | (w3, .error err) =>
          (w3.logError "failed to clear icon association",
            .error ("failed to clear icon association: " ++ err))
        | (w3, .ok _) => GetById w3 id

end AchievementService

/-! ## `achievements/controller.go` -/

/-- Status code `http.StatusOK`. -/
def StatusOK : Nat := 200

/-- Status code `http.StatusCreated`. -/
def StatusCreated : Nat := 201

/-- Status code `http.StatusBadRequest`. -/
def StatusBadRequest : Nat := 400

/-- Status code `http.StatusNotFound`. -/
def StatusNotFound : Nat := 404

/-- Status code `http.StatusInternalServerError`. -/
def StatusInternalServerError : Nat := 500

/-- The value handed to `ctx.JSON`: `ErrorResponse` (JSON object with the one key `error`),
`SuccessResponse` (JSON object with the one key `message`), a detailed item or a page. -/
inductive Body where
  | ErrorResponse (Error : String)
  | SuccessResponse (Message : String)
  | item (r : Option AchievementResponse)
  | page (p : PaginatedResponse AchievementListResponse)
  deriving DecidableEq, Repr

/-- The effect of `ctx.JSON(status, body)`. -/
structure Response where
  status : Nat
  body : Body
  deriving DecidableEq, Repr

namespace AchievementController

/-- The handler `AchievementController.Create`; `body` is the outcome of `ShouldBindJSON`. -/
def Create (w : World Achievement) (body : Except String CreateAchievementRequest) :
    World Achievement × Response :=
  match body with
  | .error err => (w, ⟨StatusBadRequest, .ErrorResponse err⟩)
  | .ok req =>
    match AchievementService.Create w req with
    | (w1, .error err) =>
      (w1, ⟨StatusInternalServerError, .ErrorResponse ("Failed to create item: " ++ err)⟩)
    | (w1, .ok item) => (w1, ⟨StatusCreated, .item (Achievement.ToResponse (some item))⟩)

/-- The handler `AchievementController.Get`; `idParam` is `ctx.Param("id")`. -/
def Get (w : World Achievement) (idParam : String) : World Achievement × Response :=
  match ParseUint idParam 32 with
  | .error _ => (w, ⟨StatusBadRequest, .ErrorResponse "Invalid id format"⟩)
  | .ok id =>
    match AchievementService.GetById w id with
    | (w1, .error _) => (w1, ⟨StatusNotFound, .ErrorResponse "Item not found"⟩)
    | (w1, .ok item) => (w1, ⟨StatusOK, .item (Achievement.ToResponse (some item))⟩)

/-- The handler `AchievementController.List`; `pageStr` and `limitStr` are `ctx.Query("page")`
and `ctx.Query("limit")`, empty when the parameter is absent. -/
def List (w : World Achievement) (pageStr limitStr : String) : World Achievement × Response :=
  let page : Except Unit (Option Int) :=
    if pageStr ≠ "" then
      match Atoi pageStr with
      | .ok pageNum => if pageNum > 0 then .ok (some pageNum) else .error ()
      | .error _ => .error ()
    else .ok none
  match page with
  | .error _ => (w, ⟨StatusBadRequest, .ErrorResponse "Invalid page number"⟩)
  | .ok page =>
    let limit : Except Unit (Option Int) :=
      if limitStr ≠ "" then
        match Atoi limitStr with
        | .ok limitNum => if limitNum > 0 then .ok (some limitNum) else .error ()
        | .error _ => .error ()
      else .ok none
    match limit with
    | .error _ => (w, ⟨StatusBadRequest, .ErrorResponse "Invalid limit number"⟩)
    | .ok limit =>
      match AchievementService.GetAll w page limit with
      | (w1, .error err) =>
        (w1, ⟨StatusInternalServerError, .ErrorResponse ("Failed to fetch items: " ++ err)⟩)
      | (w1, .ok paginatedResponse) => (w1, ⟨StatusOK, .page paginatedResponse⟩)

/-- The handler `AchievementController.ListAll`. -/
def ListAll (w : World Achievement) : World Achievement × Response :=
  match AchievementService.GetAll w none none with
  | (w1, .error err) =>
    (w1, ⟨StatusInternalServerError, .ErrorResponse ("Failed to fetch all items: " ++ err)⟩)
  | (w1, .ok paginatedResponse) => (w1, ⟨StatusOK, .page paginatedResponse⟩)

/-- The handler `AchievementController.Update`; `body` is the outcome of `ShouldBindJSON`. -/
def Update (w : World Achievement) (idParam : String)
    (body : Except String UpdateAchievementRequest) : World Achievement × Response :=
  match ParseUint idParam 32 with
  | .error _ => (w, ⟨StatusBadRequest, .ErrorResponse "Invalid id format"⟩)
  | .ok id =>
    match body with
    | .error err => (w, ⟨StatusBadRequest, .ErrorResponse err⟩)
    | .ok req =>
      match AchievementService.Update w id req with
      | (w1, .error err) =>
        (w1, ⟨StatusInternalServerError, .ErrorResponse ("Failed to update item: " ++ err)⟩)
      | (w1, .ok item) => (w1, ⟨StatusOK, .item (Achievement.ToResponse (some item))⟩)

/-- The handler `AchievementController.Delete`. -/
def Delete (w : World Achievement) (idParam : String) : World Achievement × Response :=
  match ParseUint idParam 32 with
  | .error _ => (w, ⟨StatusBadRequest, .ErrorResponse "Invalid id format"⟩)
  | .ok id =>
    match AchievementService.Delete w id with
    | (w1, .error err) =>
      (w1, ⟨StatusInternalServerError, .ErrorResponse ("Failed to delete item: " ++ err)⟩)
    | (w1, .ok _) => (w1, ⟨StatusOK, .SuccessResponse "Item deleted successfully"⟩)

/-- The handler `AchievementController.UploadIcon`; `file` is the outcome of
`ctx.FormFile("file")`, `none` when it fails. -/
def UploadIcon (w : World Achievement) (idParam : String) (file : Option FileHeader) :
    World Achievement × Response :=
  match ParseUint idParam 32 with
  | .error _ => (w, ⟨StatusBadRequest, .ErrorResponse "Invalid id format"⟩)
  | .ok id =>
    match file with
    | none => (w, ⟨StatusBadRequest, .ErrorResponse "No file uploaded"⟩)
    | some file =>
      -- Get the item first
      match AchievementService.GetById w id with
      | (w1, .error _) => (w1, ⟨StatusNotFound, .ErrorResponse "Item not found"⟩)
      | (w1, .ok item) =>
        -- Upload the file using storage service
        match storageAttach w1 "achievement" item.Id "icon" file with
        | (w2, .error err) =>
          (w2, ⟨StatusInternalServerError, .ErrorResponse ("Failed to upload file: " ++ err)⟩)
        | (w2, .ok _) =>
          -- Update the item with the new attachment
          match AchievementService.UploadIcon w2 id file with
          | (w3, .error err) =>
            (w3, ⟨StatusInternalServerError, .ErrorResponse ("Failed to update item: " ++ err)⟩)
          | (w3, .ok updatedItem) =>
            (w3, ⟨StatusOK, .item (Achievement.ToResponse (some updatedItem))⟩)

/-- The handler `AchievementController.DeleteIcon`. -/
def DeleteIcon (w : World Achievement) (idParam : String) : World Achievement × Response :=
  match ParseUint idParam 32 with
  | .error _ => (w, ⟨StatusBadRequest, .ErrorResponse "Invalid id format"⟩)
  | .ok id =>
    -- Get the item first
    match AchievementService.GetById w id with
    | (w1, .error _) => (w1, ⟨StatusNotFound, .ErrorResponse "Item not found"⟩)
    | (w1, .ok item) =>
      -- Delete the file using storage service
      match storageDelete w1 item.Icon with
      | (w2, .error err) =>
        (w2, ⟨StatusInternalServerError, .ErrorResponse ("Failed to delete file: " ++ err)⟩)
      | (w2, .ok _) =>
        -- Update the item to remove the attachment reference
        let updateReq : UpdateAchievementRequest := { Icon := none }
        match AchievementService.Update w2 id updateReq with
        | (w3, .error err) =>
          (w3, ⟨StatusInternalServerError, .ErrorResponse ("Failed to update item: " ++ err)⟩)
        | (w3, .ok _) => (w3, ⟨StatusOK, .SuccessResponse "File deleted successfully"⟩)

end AchievementController

/-! ## `user_achievements/service.go` -/

/-- One entry of an update map applied to a `userachievements` row. -/
def UserAchievement.assign (r : UserAchievement) (kv : String × Value) :
    Except String UserAchievement :=
  match kv with
  | ("user_id", .uint n) => .ok { r with UserId := n }
  | ("achievement_id", .uint n) => .ok { r with AchievementId := n }
  | ("progress", .str s) =>
    match s.toInt? with
    | some n => .ok { r with Progress := n }
    | none => .error ("invalid input for column progress: " ++ s)
  | ("completed_at", .str s) =>
    match s.toNat? with
    | some n => .ok { r with CompletedAt := n }
    | none => .error ("invalid input for column completed_at: " ++ s)
  | (k, _) => .error ("invalid input for column " ++ k)

/-- The `userachievements` table as the ORM sees it; the relations `User` and `Achievement` are
filled in by a query only when eager-loaded. -/
def userAchievementModel : Model UserAchievement where
  table := "userachievements"
  getId := fun r => r.Id
  deletedAt := fun r => r.DeletedAt
  inserted := fun r id now => { r with Id := id, CreatedAt := now, UpdatedAt := now }
  updated := fun r updates now =>
    (updates.foldlM UserAchievement.assign r).map (fun r1 => { r1 with UpdatedAt := now })
  deleted := fun r now => { r with DeletedAt := some now }
  loaded := fun preloads r =>
    { r with
      User := if "User" ∈ preloads then r.User else none
      Achievement := if "Achievement" ∈ preloads then r.Achievement else none }

namespace UserAchievementService

/-- Event name `UpdateUserAchievementEvent`. -/
def UpdateUserAchievementEvent : String := "userachievements.update"

/-- The method `UserAchievementService.GetById`. -/
def GetById (w : World UserAchievement) (id : Nat) :
    World UserAchievement × Except String UserAchievement :=
  let query := UserAchievement.Preload {}
  match dbFirst userAchievementModel w query id with
  | (w1, .error err) =>
    (w1.logError "failed to get userachievement",
      .error ("failed to get userachievement: " ++ err))
  | (w1, .ok item) => (w1, .ok item)

/-- The update map built by `UserAchievementService.Update`. -/
def buildUpdates (req : UpdateUserAchievementRequest) : Updates :=
  let updates : Updates := []
  let updates := if req.UserId ≠ 0 then updates.set "user_id" (.uint req.UserId) else updates
  let updates :=
    if req.AchievementId ≠ 0 then updates.set "achievement_id" (.uint req.AchievementId)
    else updates
  let updates := if req.Progress ≠ "" then updates.set "progress" (.str req.Progress) else updates
  let updates :=
    if req.CompletedAt ≠ "" then updates.set "completed_at" (.str req.CompletedAt) else updates
  updates

/-- The method `UserAchievementService.Update`. -/
def Update (w : World UserAchievement) (id : Nat) (req : UpdateUserAchievementRequest) :
    World UserAchievement × Except String UserAchievement :=
  match dbFirst userAchievementModel w {} id with
  | (w1, .error err) =>
    (w1.logError "failed to find userachievement for update",
      .error ("failed to find userachievement: " ++ err))
  | (w1, .ok item) =>
    let updates := buildUpdates req
    match dbUpdates userAchievementModel w1 item.Id updates with
    | (w2, .error err) =>
      (w2.logError "failed to update userachievement",
        .error ("failed to update userachievement: " ++ err))
    | (w2, .ok _) =>
      match GetById w2 item.Id with
      | (w3, .error err) =>
        (w3.logError "failed to get updated userachievement",
          .error ("failed to get updated userachievement: " ++ err))
      | (w3, .ok result) =>
        let w4 := w3.emit UpdateUserAchievementEvent result
        (w4, .ok result)

/-- The method `UserAchievementService.GetAll`. -/
def GetAll (w : World UserAchievement) (page limit : Option Int) :
    World UserAchievement × Except String (PaginatedResponse UserAchievementListResponse) :=
  let query : Query := {}
  -- Set default values if nil
  let defaultPage : Int := 1
  let defaultLimit : Int := 10
  let page := match page with
    | none => defaultPage
    | some p => p
  let limit := match limit with
    | none => defaultLimit
    | some l => l
  -- Get total count
  match dbCount userAchievementModel w with
  | (w1, .error err) =>
    (w1.logError "failed to count userachievements",
      .error ("failed to count userachievements: " ++ err))
  | (w1, .ok total) =>
    -- Apply pagination: after the defaults neither pointer is nil
    let offset := wrapInt64 ((page - 1) * limit)
    let query := (query.Offset offset).Limit limit
    -- Preload relationships
    let query := UserAchievement.Preload query
    -- Execute query
    match dbFind userAchievementModel w1 query with
    | (w2, .error err) =>
      (w2.logError "failed to get userachievements",
        .error ("failed to get userachievements: " ++ err))
    | (w2, .ok items) =>
      -- Convert to response type
      let responses := items.map (fun item => UserAchievement.ToListResponse (some item))
      -- Calculate total pages
      let totalPages := ceilDivFloat64 total limit
      let totalPages := if totalPages = 0 then 1 else totalPages
      (w2, .ok
        { Data := responses
          Pagination :=
            { Total := total
              Page := page
              PageSize := limit
              TotalPages := totalPages } })

end UserAchievementService

/-! ## Vocabulary of the properties -/

/-- The rows of the `achievements` table in the order a query returns them. -/
def AchievementService.table (w : World Achievement) : List Achievement :=
  (w.visible achievementModel).map (achievementModel.loaded [])

/-- The rows at positions `(p-1)*l` up to but not including `p*l` of a table. -/
def pageSlice {α : Type} (rows : List α) (p l : Int) : List α :=
  (rows.drop ((p - 1) * l).toNat).take l.toNat

/-- Value of a string of decimal digits, most significant digit first. -/
def decimalValue (cs : List Char) : Nat :=
  cs.foldl (fun n c => n * 10 + digitVal c) 0

/-- A base-10 unsigned integer representable in 32 bits: a non-empty string of ASCII digits
whose value is below `2^32`. -/
def IsUint32Decimal (s : String) : Prop :=
  s.data ≠ [] ∧ (∀ c ∈ s.data, c.isDigit = true) ∧ decimalValue s.data < 2 ^ 32

/-- The digits of a decimal integer literal, with the sign stripped. -/
def signedDigits (s : String) : List Char :=
  match s.data with
  | [] => []
  | c :: cs => if c = '+' ∨ c = '-' then cs else c :: cs

/-- A decimal integer: an optional sign followed by one or more ASCII digits. -/
def IsDecimalInteger (s : String) : Prop :=
  signedDigits s ≠ [] ∧ ∀ c ∈ signedDigits s, c.isDigit = true

/-- The integer a decimal integer literal denotes. -/
def decimalIntValue (s : String) : Int :=
  if s.data.head? = some '-' then -(decimalValue (signedDigits s) : Int)
  else decimalValue (signedDigits s)

/-- A row used in the examples. -/
def sampleRow (id : Nat) : Achievement :=
  { Id := id, Name := "First steps", Description := "Log in once", Category := "onboarding",
    DifficultyLevel := 1, IsActive := true }

/-- A table of `n` rows with the keys `1 .. n`, and nothing else. -/
def sampleWorld (n : Nat) : World Achievement :=
  { rows := (List.range n).map (fun i => sampleRow (i + 1)), nextId := n + 1 }

/-- A script whose next outcome is the error `e`, over a table of `n` rows. -/
def faultyWorld (n : Nat) (e : String) : World Achievement :=
  { sampleWorld n with faults := [some e] }

/-- A create request used in the examples. -/
def sampleCreate : CreateAchievementRequest :=
  { Name := "Marathon", Description := "Run 42 km", Category := "sport", DifficultyLevel := 3,
    IsHidden := false, IsActive := true }

/-- The scripted outcome of the next database or storage call. -/
def World.nextFault {α : Type} (w : World α) : Option String :=
  match w.faults with
  | [] => none
  | f :: _ => f

instance (s : String) : Decidable (IsUint32Decimal s) := by
  unfold IsUint32Decimal
  infer_instance

instance (s : String) : Decidable (IsDecimalInteger s) := by
  unfold IsDecimalInteger
  infer_instance

/-- A decimal integer greater than zero. -/
def IsPositiveDecimal (s : String) : Prop :=
  IsDecimalInteger s ∧ 0 < decimalIntValue s

/-- A decimal integer greater than zero that a 64-bit `int` can hold. -/
def IsPositiveInt64Decimal (s : String) : Prop :=
  IsDecimalInteger s ∧ 0 < decimalIntValue s ∧ decimalIntValue s ≤ maxInt64

instance (s : String) : Decidable (IsPositiveDecimal s) := by
  unfold IsPositiveDecimal
  infer_instance

instance (s : String) : Decidable (IsPositiveInt64Decimal s) := by
  unfold IsPositiveInt64Decimal
  infer_instance

/-- The page used by `GetAll`: the requested page, or `defaultPage` when it is absent. -/
def pageUsed (page : Option Int) : Int := page.getD 1

/-- The limit used by `GetAll`: the requested limit, or `defaultLimit` when it is absent. -/
def limitUsed (limit : Option Int) : Int := limit.getD 10

/-- An attachment used in the examples: the icon of record 1. -/
def sampleIcon : Attachment :=
  { Id := 1, ModelType := "achievement", ModelId := 1, Field := "icon", Filename := "medal.png" }

/-- A table whose single record, key 1, has an icon, the file of which is in storage. -/
def iconWorld : World Achievement :=
  { rows := [{ sampleRow 1 with Icon := some sampleIcon }], nextId := 2, files := [sampleIcon],
    nextFileId := 2 }

/-- For each `service.go` of the repository: the package, the table name of its model
(`TableName`) and its three event-name constants. -/
def serviceEvents : List (String × String × String × String × String) :=
  [("achievement_criteria", "achievementcriteria", "achievementcriteria.create", "achievementcriteria.update", "achievementcriteria.delete"),
    ("achievements", "achievements", "achievements.create", "achievements.update", "achievements.delete"),
    ("activity_types", "activitytypes", "activitytypes.create", "activitytypes.update", "activitytypes.delete"),
    ("challenges", "challenges", "challenges.create", "challenges.update", "challenges.delete"),
    ("leaderboard_entries", "leaderboardentries", "leaderboardentries.create", "leaderboardentries.update", "leaderboardentries.delete"),
    ("leaderboards", "leaderboards", "leaderboards.create", "leaderboards.update", "leaderboards.delete"),
    ("levels", "levels", "levels.create", "levels.update", "levels.delete"),
    ("point_types", "pointtypes", "pointtypes.create", "pointtypes.update", "pointtypes.delete"),
    ("user_achievements", "userachievements", "userachievements.create", "userachievements.update", "userachievements.delete"),
    ("user_activities", "useractivities", "useractivities.create", "useractivities.update", "useractivities.delete"),
    ("user_challenges", "userchallenges", "userchallenges.create", "userchallenges.update", "userchallenges.delete"),
    ("user_points", "userpoints", "userpoints.create", "userpoints.update", "userpoints.delete")]

/-- A table with record 1 in which the first two database calls run and the third fails. -/
def readBackFailsWorld : World Achievement :=
  { sampleWorld 1 with faults := [none, none, some "connection lost"] }

/-! ## The model declarations

Each file of `models/` declares the model struct, its two response structs, the projections
`ToListResponse` and `ToResponse` (a nil check, then a struct literal with one entry
`Field: item.Field` for every field of the response struct) and `Preload` (a chain of
`query.Preload("Relation")`). The declarations below transcribe them: the fields of the model with
their Go types, the entries of the two struct literals as (response field, item field), and the
arguments of the `Preload` chain, in order. -/

/-- Go type of a struct field: a pointer to a storage attachment, a pointer to another model
(named without its package), or anything else under its Go spelling. -/
inductive FieldType
  | scalar (goType : String)
  | attachment
  | relation (model : String)
  deriving DecidableEq

/-- Field of a Go struct. -/
structure StructField where
  name : String
  type : FieldType
  deriving DecidableEq

/-- What a file of `models/` declares. -/
structure ModelDecl where
  name : String
  table : String
  fields : List StructField
  toListResponse : List (String × String)
  toResponse : List (String × String)
  preload : List String
  deriving DecidableEq

/-- Declarations of `models/achievement.go`. -/
def achievementDecl : ModelDecl :=
  { name := "Achievement"
    table := "achievements"
    fields :=
      [⟨"Id", .scalar "uint"⟩, ⟨"CreatedAt", .scalar "time.Time"⟩,
       ⟨"UpdatedAt", .scalar "time.Time"⟩, ⟨"DeletedAt", .scalar "gorm.DeletedAt"⟩,
       ⟨"Name", .scalar "string"⟩, ⟨"Description", .scalar "string"⟩, ⟨"Icon", .attachment⟩,
       ⟨"Category", .scalar "string"⟩, ⟨"DifficultyLevel", .scalar "int"⟩,
       ⟨"IsHidden", .scalar "bool"⟩, ⟨"IsActive", .scalar "bool"⟩]
    toListResponse :=
      [("Id", "Id"), ("CreatedAt", "CreatedAt"), ("UpdatedAt", "UpdatedAt"), ("Name", "Name"),
       ("Description", "Description"), ("Icon", "Icon"), ("Category", "Category"),
       ("DifficultyLevel", "DifficultyLevel"), ("IsHidden", "IsHidden"), ("IsActive", "IsActive")]
    toResponse :=
      [("Id", "Id"), ("CreatedAt", "CreatedAt"), ("UpdatedAt", "UpdatedAt"),
       ("DeletedAt", "DeletedAt"), ("Name", "Name"), ("Description", "Description"),
       ("Icon", "Icon"), ("Category", "Category"), ("DifficultyLevel", "DifficultyLevel"),
       ("IsHidden", "IsHidden"), ("IsActive", "IsActive")]
    preload := [] }

/-- Declarations of `models/achievement_criteria.go`. -/
def achievementCriteriaDecl : ModelDecl :=
  { name := "AchievementCriteria"
    table := "achievementcriteria"
    fields :=
      [⟨"Id", .scalar "uint"⟩, ⟨"CreatedAt", .scalar "time.Time"⟩,
       ⟨"UpdatedAt", .scalar "time.Time"⟩, ⟨"DeletedAt", .scalar "gorm.DeletedAt"⟩,
       ⟨"AchievementId", .scalar "uint"⟩, ⟨"Achievement", .relation "Achievement"⟩,
       ⟨"ActivityTypeId", .scalar "uint"⟩, ⟨"ActivityType", .relation "ActivityType"⟩,
       ⟨"RequiredCount", .scalar "int"⟩, ⟨"TimeFrame", .scalar "int"⟩]
    toListResponse :=
      [("Id", "Id"), ("CreatedAt", "CreatedAt"), ("UpdatedAt", "UpdatedAt"),
       ("AchievementId", "AchievementId"), ("ActivityTypeId", "ActivityTypeId"),
       ("RequiredCount", "RequiredCount"), ("TimeFrame", "TimeFrame")]
    toResponse :=
      [("Id", "Id"), ("CreatedAt", "CreatedAt"), ("UpdatedAt", "UpdatedAt"),
       ("DeletedAt", "DeletedAt"), ("AchievementId", "AchievementId"),
       ("Achievement", "Achievement"), ("ActivityTypeId", "ActivityTypeId"),
       ("ActivityType", "ActivityType"), ("RequiredCount", "RequiredCount"),
       ("TimeFrame", "TimeFrame")]
    preload := ["Achievement", "ActivityType"] }

/-- Declarations of `models/activity_type.go`. -/
def activityTypeDecl : ModelDecl :=
  { name := "ActivityType"
    table := "activitytypes"
    fields :=
      [⟨"Id", .scalar "uint"⟩, ⟨"CreatedAt", .scalar "time.Time"⟩,
       ⟨"UpdatedAt", .scalar "time.Time"⟩, ⟨"DeletedAt", .scalar "gorm.DeletedAt"⟩,
       ⟨"Name", .scalar "string"⟩, ⟨"Description", .scalar "string"⟩,
       ⟨"Category", .scalar "string"⟩, ⟨"PointsValue", .scalar "int"⟩,
       ⟨"CooldownPeriod", .scalar "int"⟩, ⟨"IsActive", .scalar "bool"⟩]
    toListResponse :=
      [("Id", "Id"), ("CreatedAt", "CreatedAt"), ("UpdatedAt", "UpdatedAt"), ("Name", "Name"),
       ("Description", "Description"), ("Category", "Category"), ("PointsValue", "PointsValue"),
       ("CooldownPeriod", "CooldownPeriod"), ("IsActive", "IsActive")]
    toResponse :=
      [("Id", "Id"), ("CreatedAt", "CreatedAt"), ("UpdatedAt", "UpdatedAt"),
       ("DeletedAt", "DeletedAt"), ("Name", "Name"), ("Description", "Description"),
       ("Category", "Category"), ("PointsValue", "PointsValue"),
       ("CooldownPeriod", "CooldownPeriod"), ("IsActive", "IsActive")]
    preload := [] }

/-- Declarations of `models/challenge.go`. -/
def challengeDecl : ModelDecl :=
  { name := "Challenge"
    table := "challenges"
    fields :=
      [⟨"Id", .scalar "uint"⟩, ⟨"CreatedAt", .scalar "time.Time"⟩,
       ⟨"UpdatedAt", .scalar "time.Time"⟩, ⟨"DeletedAt", .scalar "gorm.DeletedAt"⟩,
       ⟨"Name", .scalar "string"⟩, ⟨"Description", .scalar "string"⟩,
       ⟨"StartDate", .scalar "types.DateTime"⟩, ⟨"EndDate", .scalar "types.DateTime"⟩,
       ⟨"RewardType", .scalar "string"⟩, ⟨"RewardValue", .scalar "string"⟩,
       ⟨"IsActive", .scalar "bool"⟩]
    toListResponse :=
      [("Id", "Id"), ("CreatedAt", "CreatedAt"), ("UpdatedAt", "UpdatedAt"), ("Name", "Name"),
       ("Description", "Description"), ("StartDate", "StartDate"), ("EndDate", "EndDate"),
       ("RewardType", "RewardType"), ("RewardValue", "RewardValue"), ("IsActive", "IsActive")]
    toResponse :=
      [("Id", "Id"), ("CreatedAt", "CreatedAt"), ("UpdatedAt", "UpdatedAt"),
       ("DeletedAt", "DeletedAt"), ("Name", "Name"), ("Description", "Description"),
       ("StartDate", "StartDate"), ("EndDate", "EndDate"), ("RewardType", "RewardType"),
       ("RewardValue", "RewardValue"), ("IsActive", "IsActive")]
    preload := [] }

/-- Declarations of `models/leaderboard.go`. -/
def leaderboardDecl : ModelDecl :=
  { name := "Leaderboard"
    table := "leaderboards"
    fields :=
      [⟨"Id", .scalar "uint"⟩, ⟨"CreatedAt", .scalar "time.Time"⟩,
       ⟨"UpdatedAt", .scalar "time.Time"⟩, ⟨"DeletedAt", .scalar "gorm.DeletedAt"⟩,
       ⟨"Name", .scalar "string"⟩, ⟨"Type", .scalar "string"⟩, ⟨"Period", .scalar "string"⟩,
       ⟨"ResetFrequency", .scalar "string"⟩, ⟨"IsActive", .scalar "bool"⟩]
    toListResponse :=
      [("Id", "Id"), ("CreatedAt", "CreatedAt"), ("UpdatedAt", "UpdatedAt"), ("Name", "Name"),
       ("Type", "Type"), ("Period", "Period"), ("ResetFrequency", "ResetFrequency"),
       ("IsActive", "IsActive")]
    toResponse :=
      [("Id", "Id"), ("CreatedAt", "CreatedAt"), ("UpdatedAt", "UpdatedAt"),
       ("DeletedAt", "DeletedAt"), ("Name", "Name"), ("Type", "Type"), ("Period", "Period"),
       ("ResetFrequency", "ResetFrequency"), ("IsActive", "IsActive")]
    preload := [] }

/-- Declarations of `models/leaderboard_entry.go`. -/
def leaderboardEntryDecl : ModelDecl :=
  { name := "LeaderboardEntry"
    table := "leaderboardentries"
    fields :=
      [⟨"Id", .scalar "uint"⟩, ⟨"CreatedAt", .scalar "time.Time"⟩,
       ⟨"UpdatedAt", .scalar "time.Time"⟩, ⟨"DeletedAt", .scalar "gorm.DeletedAt"⟩,
       ⟨"LeaderboardId", .scalar "uint"⟩, ⟨"Leaderboard", .relation "Leaderboard"⟩,
       ⟨"UserId", .scalar "uint"⟩, ⟨"User", .relation "User"⟩, ⟨"Score", .scalar "int"⟩,
       ⟨"Rank", .scalar "int"⟩, ⟨"PeriodStart", .scalar "types.DateTime"⟩,
       ⟨"PeriodEnd", .scalar "types.DateTime"⟩]
    toListResponse :=
      [("Id", "Id"), ("CreatedAt", "CreatedAt"), ("UpdatedAt", "UpdatedAt"),
       ("LeaderboardId", "LeaderboardId"), ("UserId", "UserId"), ("Score", "Score"),
       ("Rank", "Rank"), ("PeriodStart", "PeriodStart"), ("PeriodEnd", "PeriodEnd")]
    toResponse :=
      [("Id", "Id"), ("CreatedAt", "CreatedAt"), ("UpdatedAt", "UpdatedAt"),
       ("DeletedAt", "DeletedAt"), ("LeaderboardId", "LeaderboardId"),
       ("Leaderboard", "Leaderboard"), ("UserId", "UserId"), ("User", "User"), ("Score", "Score"),
       ("Rank", "Rank"), ("PeriodStart", "PeriodStart"), ("PeriodEnd", "PeriodEnd")]
    preload := ["Leaderboard", "User"] }

/-- Declarations of `models/level.go`. -/
def levelDecl : ModelDecl :=
  { name := "Level"
    table := "levels"
    fields :=
      [⟨"Id", .scalar "uint"⟩, ⟨"CreatedAt", .scalar "time.Time"⟩,
       ⟨"UpdatedAt", .scalar "time.Time"⟩, ⟨"DeletedAt", .scalar "gorm.DeletedAt"⟩,
       ⟨"LevelNumber", .scalar "int"⟩, ⟨"XpRequired", .scalar "int"⟩, ⟨"Title", .scalar "string"⟩,
       ⟨"Rewards", .scalar "string"⟩, ⟨"Icon", .attachment⟩]
    toListResponse :=
      [("Id", "Id"), ("CreatedAt", "CreatedAt"), ("UpdatedAt", "UpdatedAt"),
       ("LevelNumber", "LevelNumber"), ("XpRequired", "XpRequired"), ("Title", "Title"),
       ("Rewards", "Rewards"), ("Icon", "Icon")]
    toResponse :=
      [("Id", "Id"), ("CreatedAt", "CreatedAt"), ("UpdatedAt", "UpdatedAt"),
       ("DeletedAt", "DeletedAt"), ("LevelNumber", "LevelNumber"), ("XpRequired", "XpRequired"),
       ("Title", "Title"), ("Rewards", "Rewards"), ("Icon", "Icon")]
    preload := [] }

/-- Declarations of `models/point_type.go`. -/
def pointTypeDecl : ModelDecl :=
  { name := "PointType"
    table := "pointtypes"
    fields :=
      [⟨"Id", .scalar "uint"⟩, ⟨"CreatedAt", .scalar "time.Time"⟩,
       ⟨"UpdatedAt", .scalar "time.Time"⟩, ⟨"DeletedAt", .scalar "gorm.DeletedAt"⟩,
       ⟨"Name", .scalar "string"⟩, ⟨"Description", .scalar "string"⟩, ⟨"Icon", .scalar "string"⟩]
    toListResponse :=
      [("Id", "Id"), ("CreatedAt", "CreatedAt"), ("UpdatedAt", "UpdatedAt"), ("Name", "Name"),
       ("Description", "Description"), ("Icon", "Icon")]
    toResponse :=
      [("Id", "Id"), ("CreatedAt", "CreatedAt"), ("UpdatedAt", "UpdatedAt"),
       ("DeletedAt", "DeletedAt"), ("Name", "Name"), ("Description", "Description"),
       ("Icon", "Icon")]
    preload := [] }

/-- Declarations of `models/user_achievement.go`. -/
def userAchievementDecl : ModelDecl :=
  { name := "UserAchievement"
    table := "userachievements"
    fields :=
      [⟨"Id", .scalar "uint"⟩, ⟨"CreatedAt", .scalar "time.Time"⟩,
       ⟨"UpdatedAt", .scalar "time.Time"⟩, ⟨"DeletedAt", .scalar "gorm.DeletedAt"⟩,
       ⟨"UserId", .scalar "uint"⟩, ⟨"User", .relation "User"⟩, ⟨"AchievementId", .scalar "uint"⟩,
       ⟨"Achievement", .relation "Achievement"⟩, ⟨"Progress", .scalar "int"⟩,
       ⟨"CompletedAt", .scalar "types.DateTime"⟩]
    toListResponse :=
      [("Id", "Id"), ("CreatedAt", "CreatedAt"), ("UpdatedAt", "UpdatedAt"), ("UserId", "UserId"),
       ("AchievementId", "AchievementId"), ("Progress", "Progress"), ("CompletedAt", "CompletedAt")]
    toResponse :=
      [("Id", "Id"), ("CreatedAt", "CreatedAt"), ("UpdatedAt", "UpdatedAt"),
       ("DeletedAt", "DeletedAt"), ("UserId", "UserId"), ("User", "User"),
       ("AchievementId", "AchievementId"), ("Achievement", "Achievement"),
       ("Progress", "Progress"), ("CompletedAt", "CompletedAt")]
    preload := ["User", "Achievement"] }

/-- Declarations of `models/user_activity.go`. -/
def userActivityDecl : ModelDecl :=
  { name := "UserActivity"
    table := "useractivities"
    fields :=
      [⟨"Id", .scalar "uint"⟩, ⟨"CreatedAt", .scalar "time.Time"⟩,
       ⟨"UpdatedAt", .scalar "time.Time"⟩, ⟨"DeletedAt", .scalar "gorm.DeletedAt"⟩,
       ⟨"UserId", .scalar "uint"⟩, ⟨"User", .relation "User"⟩, ⟨"ActivityTypeId", .scalar "uint"⟩,
       ⟨"ActivityType", .relation "ActivityType"⟩, ⟨"PointsEarned", .scalar "int"⟩,
       ⟨"Metadata", .scalar "string"⟩, ⟨"CompletedAt", .scalar "types.DateTime"⟩]
    toListResponse :=
      [("Id", "Id"), ("CreatedAt", "CreatedAt"), ("UpdatedAt", "UpdatedAt"), ("UserId", "UserId"),
       ("ActivityTypeId", "ActivityTypeId"), ("PointsEarned", "PointsEarned"),
       ("Metadata", "Metadata"), ("CompletedAt", "CompletedAt")]
    toResponse :=
      [("Id", "Id"), ("CreatedAt", "CreatedAt"), ("UpdatedAt", "UpdatedAt"),
       ("DeletedAt", "DeletedAt"), ("UserId", "UserId"), ("User", "User"),
       ("ActivityTypeId", "ActivityTypeId"), ("ActivityType", "ActivityType"),
       ("PointsEarned", "PointsEarned"), ("Metadata", "Metadata"), ("CompletedAt", "CompletedAt")]
    preload := ["User", "ActivityType"] }

/-- Declarations of `models/user_challenge.go`. -/
def userChallengeDecl : ModelDecl :=
  { name := "UserChallenge"
    table := "userchallenges"
    fields :=
      [⟨"Id", .scalar "uint"⟩, ⟨"CreatedAt", .scalar "time.Time"⟩,
       ⟨"UpdatedAt", .scalar "time.Time"⟩, ⟨"DeletedAt", .scalar "gorm.DeletedAt"⟩,
       ⟨"UserId", .scalar "uint"⟩, ⟨"User", .relation "User"⟩, ⟨"ChallengeId", .scalar "uint"⟩,
       ⟨"Challenge", .relation "Challenge"⟩, ⟨"Progress", .scalar "int"⟩,
       ⟨"CompletedAt", .scalar "types.DateTime"⟩, ⟨"RewardClaimed", .scalar "bool"⟩]
    toListResponse :=
      [("Id", "Id"), ("CreatedAt", "CreatedAt"), ("UpdatedAt", "UpdatedAt"), ("UserId", "UserId"),
       ("ChallengeId", "ChallengeId"), ("Progress", "Progress"), ("CompletedAt", "CompletedAt"),
       ("RewardClaimed", "RewardClaimed")]
    toResponse :=
      [("Id", "Id"), ("CreatedAt", "CreatedAt"), ("UpdatedAt", "UpdatedAt"),
       ("DeletedAt", "DeletedAt"), ("UserId", "UserId"), ("User", "User"),
       ("ChallengeId", "ChallengeId"), ("Challenge", "Challenge"), ("Progress", "Progress"),
       ("CompletedAt", "CompletedAt"), ("RewardClaimed", "RewardClaimed")]
    preload := ["User", "Challenge"] }

/-- Declarations of `models/user_level.go`. -/
def userLevelDecl : ModelDecl :=
  { name := "UserLevel"
    table := "userlevels"
    fields :=
      [⟨"Id", .scalar "uint"⟩, ⟨"CreatedAt", .scalar "time.Time"⟩,
       ⟨"UpdatedAt", .scalar "time.Time"⟩, ⟨"DeletedAt", .scalar "gorm.DeletedAt"⟩,
       ⟨"UserId", .scalar "uint"⟩, ⟨"User", .relation "User"⟩, ⟨"CurrentLevelId", .scalar "uint"⟩,
       ⟨"CurrentLevel", .relation "Level"⟩, ⟨"CurrentXp", .scalar "int"⟩,
       ⟨"LastLeveledUp", .scalar "types.DateTime"⟩]
    toListResponse :=
      [("Id", "Id"), ("CreatedAt", "CreatedAt"), ("UpdatedAt", "UpdatedAt"), ("UserId", "UserId"),
       ("CurrentLevelId", "CurrentLevelId"), ("CurrentXp", "CurrentXp"),
       ("LastLeveledUp", "LastLeveledUp")]
    toResponse :=
      [("Id", "Id"), ("CreatedAt", "CreatedAt"), ("UpdatedAt", "UpdatedAt"),
       ("DeletedAt", "DeletedAt"), ("UserId", "UserId"), ("User", "User"),
       ("CurrentLevelId", "CurrentLevelId"), ("CurrentLevel", "CurrentLevel"),
       ("CurrentXp", "CurrentXp"), ("LastLeveledUp", "LastLeveledUp")]
    preload := ["User", "CurrentLevel"] }

/-- Declarations of `models/user_point.go`. -/
def userPointDecl : ModelDecl :=
  { name := "UserPoint"
    table := "userpoints"
    fields :=
      [⟨"Id", .scalar "uint"⟩, ⟨"CreatedAt", .scalar "time.Time"⟩,
       ⟨"UpdatedAt", .scalar "time.Time"⟩, ⟨"DeletedAt", .scalar "gorm.DeletedAt"⟩,
       ⟨"UserId", .scalar "uint"⟩, ⟨"User", .relation "User"⟩, ⟨"PointTypeId", .scalar "uint"⟩,
       ⟨"PointType", .relation "PointType"⟩, ⟨"CurrentBalance", .scalar "int"⟩,
       ⟨"LifetimeEarned", .scalar "int"⟩]
    toListResponse :=
      [("Id", "Id"), ("CreatedAt", "CreatedAt"), ("UpdatedAt", "UpdatedAt"), ("UserId", "UserId"),
       ("PointTypeId", "PointTypeId"), ("CurrentBalance", "CurrentBalance"),
       ("LifetimeEarned", "LifetimeEarned")]
    toResponse :=
      [("Id", "Id"), ("CreatedAt", "CreatedAt"), ("UpdatedAt", "UpdatedAt"),
       ("DeletedAt", "DeletedAt"), ("UserId", "UserId"), ("User", "User"),
       ("PointTypeId", "PointTypeId"), ("PointType", "PointType"),
       ("CurrentBalance", "CurrentBalance"), ("LifetimeEarned", "LifetimeEarned")]
    preload := ["User", "PointType"] }

/-- The thirteen models of the package. -/
def modelDecls : List ModelDecl :=
  [achievementDecl, achievementCriteriaDecl, activityTypeDecl, challengeDecl, leaderboardDecl,
   leaderboardEntryDecl, levelDecl, pointTypeDecl, userAchievementDecl, userActivityDecl,
   userChallengeDecl, userLevelDecl, userPointDecl]

/-! ## The routes of the controllers -/

/-- HTTP method of a route. -/
inductive Method
  | GET | POST | PUT | DELETE
  deriving DecidableEq

/-- One registration `router.METHOD(path, c.Handler)`. -/
structure Route where
  method : Method
  path : String
  handler : String
  deriving DecidableEq

/-- What a `Routes` method registers on the router group, in order. -/
abbrev RouteTable := List Route

/-- Routes registered by `achievement_criteria/controller.go`. -/
def AchievementCriteriaController.Routes : RouteTable :=
  [⟨.GET, "/achievement-criteria", "List"⟩,
    ⟨.GET, "/achievement-criteria/all", "ListAll"⟩,
    ⟨.GET, "/achievement-criteria/:id", "Get"⟩,
    ⟨.POST, "/achievement-criteria", "Create"⟩,
    ⟨.PUT, "/achievement-criteria/:id", "Update"⟩,
    ⟨.DELETE, "/achievement-criteria/:id", "Delete"⟩]

/-- Routes registered by `achievements/controller.go`. -/
def AchievementController.Routes : RouteTable :=
  [⟨.GET, "/achievements", "List"⟩,
    ⟨.GET, "/achievements/all", "ListAll"⟩,
    ⟨.GET, "/achievements/:id", "Get"⟩,
    ⟨.POST, "/achievements", "Create"⟩,
    ⟨.PUT, "/achievements/:id", "Update"⟩,
    ⟨.DELETE, "/achievements/:id", "Delete"⟩,
    ⟨.PUT, "/achievements/:id/icon", "UploadIcon"⟩,
    ⟨.DELETE, "/achievements/:id/icon", "DeleteIcon"⟩]

/-- Routes registered by `activity_types/controller.go`. -/
def ActivityTypeController.Routes : RouteTable :=
  [⟨.GET, "/activity-types", "List"⟩,
    ⟨.GET, "/activity-types/all", "ListAll"⟩,
    ⟨.GET, "/activity-types/:id", "Get"⟩,
    ⟨.POST, "/activity-types", "Create"⟩,
    ⟨.PUT, "/activity-types/:id", "Update"⟩,
    ⟨.DELETE, "/activity-types/:id", "Delete"⟩]

/-- Routes registered by `challenges/controller.go`. -/
def ChallengeController.Routes : RouteTable :=
  [⟨.GET, "/challenges", "List"⟩,
    ⟨.GET, "/challenges/all", "ListAll"⟩,
    ⟨.GET, "/challenges/:id", "Get"⟩,
    ⟨.POST, "/challenges", "Create"⟩,
    ⟨.PUT, "/challenges/:id", "Update"⟩,
    ⟨.DELETE, "/challenges/:id", "Delete"⟩]

/-- Routes registered by `leaderboard_entries/controller.go`. -/
def LeaderboardEntryController.Routes : RouteTable :=
  [⟨.GET, "/leaderboard-entries", "List"⟩,
    ⟨.GET, "/leaderboard-entries/all", "ListAll"⟩,
    ⟨.GET, "/leaderboard-entries/:id", "Get"⟩,
    ⟨.POST, "/leaderboard-entries", "Create"⟩,
    ⟨.PUT, "/leaderboard-entries/:id", "Update"⟩,
    ⟨.DELETE, "/leaderboard-entries/:id", "Delete"⟩]

/-- Routes registered by `leaderboards/controller.go`. -/
def LeaderboardController.Routes : RouteTable :=
  [⟨.GET, "/leaderboards", "List"⟩,
    ⟨.GET, "/leaderboards/all", "ListAll"⟩,
    ⟨.GET, "/leaderboards/:id", "Get"⟩,
    ⟨.POST, "/leaderboards", "Create"⟩,
    ⟨.PUT, "/leaderboards/:id", "Update"⟩,
    ⟨.DELETE, "/leaderboards/:id", "Delete"⟩]

/-- Routes registered by `levels/controller.go`. -/
def LevelController.Routes : RouteTable :=
  [⟨.GET, "/levels", "List"⟩,
    ⟨.GET, "/levels/all", "ListAll"⟩,
    ⟨.GET, "/levels/:id", "Get"⟩,
    ⟨.POST, "/levels", "Create"⟩,
    ⟨.PUT, "/levels/:id", "Update"⟩,
    ⟨.DELETE, "/levels/:id", "Delete"⟩,
    ⟨.PUT, "/levels/:id/icon", "UploadIcon"⟩,
    ⟨.DELETE, "/levels/:id/icon", "DeleteIcon"⟩]

/-- Routes registered by `point_types/controller.go`. -/
def PointTypeController.Routes : RouteTable :=
  [⟨.GET, "/point-types", "List"⟩,
    ⟨.GET, "/point-types/all", "ListAll"⟩,
    ⟨.GET, "/point-types/:id", "Get"⟩,
    ⟨.POST, "/point-types", "Create"⟩,
    ⟨.PUT, "/point-types/:id", "Update"⟩,
    ⟨.DELETE, "/point-types/:id", "Delete"⟩]

/-- Routes registered by `user_achievements/controller.go`. -/
def UserAchievementController.Routes : RouteTable :=
  [⟨.GET, "/user-achievements", "List"⟩,
    ⟨.GET, "/user-achievements/all", "ListAll"⟩,
    ⟨.GET, "/user-achievements/:id", "Get"⟩,
    ⟨.POST, "/user-achievements", "Create"⟩,
    ⟨.PUT, "/user-achievements/:id", "Update"⟩,
    ⟨.DELETE, "/user-achievements/:id", "Delete"⟩]

/-- Routes registered by `user_activities/controller.go`. -/
def UserActivityController.Routes : RouteTable :=
  [⟨.GET, "/user-activities", "List"⟩,
    ⟨.GET, "/user-activities/all", "ListAll"⟩,
    ⟨.GET, "/user-activities/:id", "Get"⟩,
    ⟨.POST, "/user-activities", "Create"⟩,
    ⟨.PUT, "/user-activities/:id", "Update"⟩,
    ⟨.DELETE, "/user-activities/:id", "Delete"⟩]

/-- Routes registered by `user_challenges/controller.go`. -/
def UserChallengeController.Routes : RouteTable :=
  [⟨.GET, "/user-challenges", "List"⟩,
    ⟨.GET, "/user-challenges/all", "ListAll"⟩,
    ⟨.GET, "/user-challenges/:id", "Get"⟩,
    ⟨.POST, "/user-challenges", "Create"⟩,
    ⟨.PUT, "/user-challenges/:id", "Update"⟩,
    ⟨.DELETE, "/user-challenges/:id", "Delete"⟩]

/-- Routes registered by `user_levels/controller.go`. -/
def UserLevelController.Routes : RouteTable :=
  [⟨.GET, "/user-levels", "List"⟩,
    ⟨.GET, "/user-levels/all", "ListAll"⟩,
    ⟨.GET, "/user-levels/:id", "Get"⟩,
    ⟨.POST, "/user-levels", "Create"⟩,
    ⟨.PUT, "/user-levels/:id", "Update"⟩,
    ⟨.DELETE, "/user-levels/:id", "Delete"⟩]

/-- Routes registered by `user_points/controller.go`. -/
def UserPointController.Routes : RouteTable :=
  [⟨.GET, "/user-points", "List"⟩,
    ⟨.GET, "/user-points/all", "ListAll"⟩,
    ⟨.GET, "/user-points/:id", "Get"⟩,
    ⟨.POST, "/user-points", "Create"⟩,
    ⟨.PUT, "/user-points/:id", "Update"⟩,
    ⟨.DELETE, "/user-points/:id", "Delete"⟩]

/-- What the package has for one entity: the directory of its module, the model the controller
serves and the routes the controller registers. -/
structure ControllerDecl where
  package : String
  model : ModelDecl
  routes : List Route
  deriving DecidableEq

/-- The thirteen controllers of the package. -/
def controllerDecls : List ControllerDecl :=
  [⟨"achievement_criteria", achievementCriteriaDecl, AchievementCriteriaController.Routes⟩,
    ⟨"achievements", achievementDecl, AchievementController.Routes⟩,
    ⟨"activity_types", activityTypeDecl, ActivityTypeController.Routes⟩,
    ⟨"challenges", challengeDecl, ChallengeController.Routes⟩,
    ⟨"leaderboard_entries", leaderboardEntryDecl, LeaderboardEntryController.Routes⟩,
    ⟨"leaderboards", leaderboardDecl, LeaderboardController.Routes⟩,
    ⟨"levels", levelDecl, LevelController.Routes⟩,
    ⟨"point_types", pointTypeDecl, PointTypeController.Routes⟩,
    ⟨"user_achievements", userAchievementDecl, UserAchievementController.Routes⟩,
    ⟨"user_activities", userActivityDecl, UserActivityController.Routes⟩,
    ⟨"user_challenges", userChallengeDecl, UserChallengeController.Routes⟩,
    ⟨"user_levels", userLevelDecl, UserLevelController.Routes⟩,
    ⟨"user_points", userPointDecl, UserPointController.Routes⟩]

/-- The struct `models.UserAchievementResponse`. -/
structure UserAchievementResponse where
  Id : Nat
  CreatedAt : Nat
  UpdatedAt : Nat
  DeletedAt : Option Nat
  UserId : Nat
  User : Option User
  AchievementId : Nat
  Achievement : Option Achievement
  Progress : Int
  CompletedAt : Nat
  deriving DecidableEq, Repr

/-- The method `(*UserAchievement).ToResponse`. -/
def UserAchievement.ToResponse : Option UserAchievement → Option UserAchievementResponse
  | none => none
  | some item => some {
      Id := item.Id
      CreatedAt := item.CreatedAt
      UpdatedAt := item.UpdatedAt
      DeletedAt := item.DeletedAt
      UserId := item.UserId
      User := item.User
      AchievementId := item.AchievementId
      Achievement := item.Achievement
      Progress := item.Progress
      CompletedAt := item.CompletedAt }

/-- A projection method run from its declaration: nil for a nil item, otherwise the response
struct, whose field `e.1` holds the value of the field `e.2` of the item for each entry `e` of
the struct literal. An item is given by the value of each of its fields. -/
def project {V : Type} (entries : List (String × String)) :
    Option (String → V) → Option (List (String × V))
  | none => none
  | some item => some (entries.map fun e => (e.1, item e.2))

/-- The method `ToListResponse` of a declared model. -/
def ModelDecl.ToListResponse {V : Type} (m : ModelDecl) :
    Option (String → V) → Option (List (String × V)) :=
  project m.toListResponse

/-- The method `ToResponse` of a declared model. -/
def ModelDecl.ToResponse {V : Type} (m : ModelDecl) :
    Option (String → V) → Option (List (String × V)) :=
  project m.toResponse

/-- The method `Preload` of a declared model: `query := db`, then one `query.Preload` per
argument of the chain. -/
def ModelDecl.Preload (m : ModelDecl) (db : Query) : Query :=
  m.preload.foldl Query.Preload db

/-- A field that points to another model. -/
def StructField.isModelRelation (f : StructField) : Bool :=
  match f.type with
  | .relation _ => true
  | _ => false

/-- A field that points to a storage attachment. -/
def StructField.isAttachment (f : StructField) : Bool :=
  match f.type with
  | .attachment => true
  | _ => false

/-- A relation field: one that holds another record, a model or an attachment. -/
def StructField.isRelation (f : StructField) : Bool :=
  f.isModelRelation || f.isAttachment

/-- The fields a list response leaves out: `DeletedAt` and the fields that point to another
model. -/
def StructField.omittedFromList (f : StructField) : Bool :=
  f.name == "DeletedAt" || f.isModelRelation

/-- An entity has an image attachment field. -/
def ModelDecl.hasAttachment (m : ModelDecl) : Bool :=
  m.fields.any StructField.isAttachment

/-- The plural under which an entity is routed: the name of its directory, with a hyphen for
each underscore. -/
def plural (dir : String) : String :=
  ⟨dir.data.map fun c => if c = '_' then '-' else c⟩

/-- The six CRUD routes of the plural `p`. -/
def crudRoutes (p : String) : List Route :=
  [⟨.GET, "/" ++ p, "List"⟩,
    ⟨.GET, "/" ++ p ++ "/all", "ListAll"⟩,
    ⟨.GET, "/" ++ p ++ "/:id", "Get"⟩,
    ⟨.POST, "/" ++ p, "Create"⟩,
    ⟨.PUT, "/" ++ p ++ "/:id", "Update"⟩,
    ⟨.DELETE, "/" ++ p ++ "/:id", "Delete"⟩]

/-- The two icon routes of the plural `p`. -/
def iconRoutes (p : String) : List Route :=
  [⟨.PUT, "/" ++ p ++ "/:id/icon", "UploadIcon"⟩,
    ⟨.DELETE, "/" ++ p ++ "/:id/icon", "DeleteIcon"⟩]

/-! ## Module initialisation (`init.go`) -/

/-- A module as `InitializeModules` meets it: its name in the module map, the error (if any)
that `module.RegisterModule`, `Init` and `Migrate` return for it, and whether it has a method
`Routes(*gin.RouterGroup)`. -/
structure Module where
  name : String
  registerError : Option String := none
  initError : Option String := none
  migrateError : Option String := none
  hasRoutes : Bool := true
  deriving DecidableEq, Repr

/-- The calls `InitializeModules` makes on the modules. -/
inductive ModuleCall
  | RegisterModule (name : String)
  | Init (name : String)
  | Migrate (name : String)
  | Routes (name : String)
  deriving DecidableEq, Repr

/-- What `InitializeModules` has done so far: the slice `modules`, the calls made on the
modules, and the error log entries (message, module, error). -/
structure InitState where
  modules : List Module := []
  calls : List ModuleCall := []
  logs : List (String × String × String) := []
  deriving DecidableEq, Repr

/-- One round of the loop of `InitializeModules`, for the module `mod`. -/
def initializeModule (st : InitState) (mod : Module) : InitState :=
  let st := { st with calls := st.calls ++ [ModuleCall.RegisterModule mod.name] }
  match mod.registerError with
  | some err =>
    { st with logs := st.logs ++ [("Failed to register module", mod.name, err)] }
  | none =>
    let st := { st with calls := st.calls ++ [ModuleCall.Init mod.name] }
    match mod.initError with
    | some err =>
      { st with logs := st.logs ++ [("Failed to initialize module", mod.name, err)] }
    | none =>
      let st := { st with calls := st.calls ++ [ModuleCall.Migrate mod.name] }
      match mod.migrateError with
      | some err =>
        { st with logs := st.logs ++ [("Failed to migrate module", mod.name, err)] }
      | none =>
        let st :=
          if mod.hasRoutes then { st with calls := st.calls ++ [ModuleCall.Routes mod.name] } else st
        { st with modules := st.modules ++ [mod] }

/-- The method `InitializeModules`, over the module map in the order the loop visits it. -/
def InitializeModules (moduleMap : List Module) : InitState :=
  moduleMap.foldl initializeModule {}

/-- Registration, `Init` and `Migrate` all succeeded for the module. -/
def Module.succeeded (m : Module) : Bool :=
  m.registerError.isNone && m.initError.isNone && m.migrateError.isNone

/-- The modules whose routes have been mounted, in order. -/
def InitState.mounted (st : InitState) : List String :=
  st.calls.filterMap fun c =>
    match c with
    | .Routes n => some n
    | _ => none

/-- The calls one round makes for the module `m`. -/
def moduleCalls (m : Module) : List ModuleCall :=
  [.RegisterModule m.name] ++
    (if m.registerError.isNone then
      [.Init m.name] ++
        (if m.initError.isNone then
          [.Migrate m.name] ++
            (if m.migrateError.isNone && m.hasRoutes then [.Routes m.name] else [])
        else [])
    else [])

/-- Three modules: the first fails to migrate, the second fails to register, the third is
sound. -/
def sampleModules : List Module :=
  [{ name := "levels", migrateError := some "no such table" },
    { name := "achievements", registerError := some "already registered" },
    { name := "challenges" }]

/-- A table with record 1 in which the first database call runs and the second fails. -/
def insertThenFailWorld : World Achievement :=
  { sampleWorld 1 with faults := [none, some "connection lost"] }

/-- An uploaded file used in the examples. -/
def sampleFile : FileHeader := { Filename := "medal.png", Size := 2048 }

/-- The `Storage.Attach` calls among the calls made so far. -/
def World.attachCalls {α : Type} (w : World α) : List Call :=
  w.calls.filter fun c =>
    match c with
    | .storageAttach _ _ _ _ => true
    | _ => false

/-- The map literal `moduleInitializers` of `getModules`: each key with the constructor its
initializer calls, in the order of the source. -/
def moduleInitializers : List (String × String) :=
  [("activity_types", "activity_types.NewActivityTypeModule"),
    ("user_activities", "user_activities.NewUserActivityModule"),
    ("point_types", "point_types.NewPointTypeModule"),
    ("user_points", "user_points.NewUserPointModule"),
    ("achievements", "achievements.NewAchievementModule"),
    ("user_achievements", "user_achievements.NewUserAchievementModule"),
    ("achievement_criteria", "achievement_criteria.NewAchievementCriteriaModule"),
    ("levels", "levels.NewLevelModule"),
    ("user_levels", "user_levels.NewUserLevelModule"),
    ("challenges", "challenges.NewChallengeModule"),
    ("user_challenges", "user_challenges.NewUserChallengeModule"),
    ("leaderboards", "leaderboards.NewLeaderboardModule"),
    ("leaderboard_entries", "leaderboard_entries.NewLeaderboardEntryModule")]

/-- The assignment `modules[name] = module` on a map kept as a list of its entries. -/
def mapSet (modules : List (String × String)) (name module : String) : List (String × String) :=
  if modules.any (fun e => e.1 == name) then
    modules.map fun e => if e.1 = name then (name, module) else e
  else modules ++ [(name, module)]

/-- The method `getModules`: the map from each module name to the module its initializer
constructs. -/
def getModules : List (String × String) :=
  moduleInitializers.foldl (fun modules e => mapSet modules e.1 e.2) []

/-- The modules handed to `module.RegisterModule`, in order. -/
def InitState.registered (st : InitState) : List String :=
  st.calls.filterMap fun c =>
    match c with
    | .RegisterModule n => some n
    | _ => none

/-- The offsets of the `Find` queries among the calls made so far. -/
def World.findOffsets {α : Type} (w : World α) : List Int :=
  w.calls.filterMap fun c =>
    match c with
    | .dbFind _ q => some q.offset
    | _ => none

/-- The Data of `GetAll(p, l)` on the table of `w`, empty when the call fails. -/
def AchievementService.pageData (w : World Achievement) (p l : Int) :
    List (Option AchievementListResponse) :=
  match (AchievementService.GetAll w (some p) (some l)).2 with
  | .ok resp => resp.Data
  | .error _ => []

/-- TotalPages as `GetAll` reports it for the limit `l`, 0 when the call fails. -/
def AchievementService.reportedTotalPages (w : World Achievement) (l : Int) : Int :=
  match (AchievementService.GetAll w (some 1) (some l)).2 with
  | .ok resp => resp.Pagination.TotalPages
  | .error _ => 0

/-- The concatenation of the Data of the pages 1 .. TotalPages for the limit `l`. -/
def AchievementService.allPages (w : World Achievement) (l : Int) :
    List (Option AchievementListResponse) :=
  ((List.range (AchievementService.reportedTotalPages w l).toNat).map
    fun (i : Nat) => AchievementService.pageData w ((i : Int) + 1) l).flatten

/-- A table with record 1, read at time 7. -/
def laterWorld : World Achievement :=
  { sampleWorld 1 with clock := 7 }

/-- The argument the List handler hands to `GetAll` for an accepted query value: nil for an
absent (empty) value, otherwise the integer the text denotes. -/
def queryArg (s : String) : Option Int :=
  if s = "" then none else some (decimalIntValue s)

/-- The page a request asks for: the value of its `page` query parameter, 1 when absent. -/
def requestedPage (pageStr : String) : Int :=
  if pageStr = "" then 1 else decimalIntValue pageStr

/-- The limit a request asks for: the value of its `limit` query parameter, 10 when absent. -/
def requestedLimit (limitStr : String) : Int :=
  if limitStr = "" then 10 else decimalIntValue limitStr

/-! # Properties -/

/-! ## Lookup of a key -/

theorem enter_calls {α : Type} (w : World α) (c : Call) :
    (w.enter c).2.calls = w.calls ++ [c] := by
  unfold World.enter
  cases w.faults <;> rfl

theorem enter_rows {α : Type} (w : World α) (c : Call) : (w.enter c).2.rows = w.rows := by
  unfold World.enter
  cases w.faults <;> rfl

theorem enter_events {α : Type} (w : World α) (c : Call) : (w.enter c).2.events = w.events := by
  unfold World.enter
  cases w.faults <;> rfl

theorem enter_logs {α : Type} (w : World α) (c : Call) : (w.enter c).2.logs = w.logs := by
  unfold World.enter
  cases w.faults <;> rfl

theorem enter_visible {α : Type} (m : Model α) (w : World α) (c : Call) :
    (w.enter c).2.visible m = w.visible m := by
  unfold World.visible
  rw [enter_rows]

theorem enter_fault {α : Type} (w : World α) (c : Call) (e : String) (rest : List (Option String))
    (h : w.faults = some e :: rest) : (w.enter c).1 = some e := by
  unfold World.enter
  rw [h]

theorem enter_no_fault {α : Type} (w : World α) (c : Call) (h : w.faults = []) :
    w.enter c = (none, { w with calls := w.calls ++ [c] }) := by
  unfold World.enter
  rw [h]

/-- A lookup whose key matches no visible row fails, whatever the scripted outcome. -/
theorem dbFirst_missing {α : Type} (m : Model α) (w : World α) (q : Query) (id : Nat)
    (h : ∀ r ∈ w.visible m, m.getId r ≠ id) : ∃ e, (dbFirst m w q id).2 = .error e := by
  unfold dbFirst
  rcases hx : w.enter (.dbFirst m.table q id) with ⟨f, w1⟩
  cases f with
  | some e => exact ⟨e, rfl⟩
  | none =>
    have hv : w1.visible m = w.visible m := by
      have := enter_visible m w (.dbFirst m.table q id)
      rw [hx] at this
      exact this
    have hnone : (w1.visible m).find? (fun r => decide (m.getId r = id)) = none := by
      rw [hv, List.find?_eq_none]
      intro r hr
      simpa using h r hr
    simp only [hnone]
    exact ⟨ErrRecordNotFound, rfl⟩

theorem GetById_error_of_dbFirst (w : World Achievement) (id : Nat) (e : String)
    (h : (dbFirst achievementModel w (Achievement.Preload {}) id).2 = .error e) :
    (AchievementService.GetById w id).2 = .error ("failed to get achievement: " ++ e) := by
  rcases hx : dbFirst achievementModel w (Achievement.Preload {}) id with ⟨w1, r⟩
  rw [hx] at h
  simp only at h
  subst h
  simp only [AchievementService.GetById, hx]

theorem Get_not_found_of_error (w : World Achievement) (s : String) (id : Nat) (e : String)
    (hs : ParseUint s 32 = .ok id) (h : (AchievementService.GetById w id).2 = .error e) :
    (AchievementController.Get w s).2 = ⟨StatusNotFound, .ErrorResponse "Item not found"⟩ := by
  rcases hx : AchievementService.GetById w id with ⟨w1, r⟩
  rw [hx] at h
  simp only at h
  subst h
  simp only [AchievementController.Get, hs, hx]

/-- C5. For every id that parses and for which the table has no visible record, the Get
handler answers with status 404 and the error body "Item not found". -/
theorem get_missing_record_is_404 (w : World Achievement) (s : String) (id : Nat)
    (hs : ParseUint s 32 = .ok id)
    (hmissing : ∀ r ∈ w.visible achievementModel, r.Id ≠ id) :
    (AchievementController.Get w s).2 = ⟨404, .ErrorResponse "Item not found"⟩ := by
  obtain ⟨e, he⟩ := dbFirst_missing achievementModel w (Achievement.Preload {}) id hmissing
  exact Get_not_found_of_error w s id _ hs (GetById_error_of_dbFirst w id e he)

/-- C5 at a concrete input: key 7 in a table holding the keys 1 to 3. -/
theorem get_missing_record_is_404_witness :
    ParseUint "7" 32 = .ok 7 ∧
      (AchievementController.Get (sampleWorld 3) "7").2 = ⟨404, .ErrorResponse "Item not found"⟩ :=
  ⟨rfl, get_missing_record_is_404 (sampleWorld 3) "7" 7 rfl (by decide)⟩

/-! ## Failure of the insert, failure of the lookup -/

/-- C9. When the insert fails with error `e`, the Create handler answers a bound request with
status 500 and the error text "Failed to create item: failed to create achievement: " followed
by `e`; no event is emitted and no row is written. -/
theorem create_insert_failure_is_500 (w : World Achievement) (req : CreateAchievementRequest)
    (e : String) (rest : List (Option String)) (h : w.faults = some e :: rest) :
    (AchievementController.Create w (.ok req)).2 =
        ⟨500, .ErrorResponse ("Failed to create item: failed to create achievement: " ++ e)⟩ ∧
      (AchievementController.Create w (.ok req)).1.events = w.events ∧
      (AchievementController.Create w (.ok req)).1.rows = w.rows := by
  have hassoc : "Failed to create item: " ++ ("failed to create achievement: " ++ e) =
      "Failed to create item: failed to create achievement: " ++ e := by
    rw [← String.append_assoc]
    rfl
  refine ⟨?_, ?_, ?_⟩ <;>
    simp only [AchievementController.Create, AchievementService.Create, dbCreate, World.enter, h,
      World.logError, hassoc]
  rfl

/-- C9 at a concrete input: the insert fails on a duplicate key. -/
theorem create_insert_failure_is_500_witness :
    (faultyWorld 2 "duplicate key").faults = some "duplicate key" :: [] ∧
      (AchievementController.Create (faultyWorld 2 "duplicate key") (.ok sampleCreate)).2 =
        ⟨500, .ErrorResponse
          "Failed to create item: failed to create achievement: duplicate key"⟩ :=
  ⟨rfl, (create_insert_failure_is_500 (faultyWorld 2 "duplicate key") sampleCreate
    "duplicate key" [] rfl).1⟩

/-- C2 at a table of eleven records: `GET /achievements/all` succeeds with status 200, reports
a total of 11, and lists only the first ten records. -/
theorem listAll_eleven_records_lists_ten :
    (sampleWorld 11).rows.length = 11 ∧
      (AchievementController.ListAll (sampleWorld 11)).2 =
        ⟨200, .page
          { Data := (List.range 10).map (fun i => Achievement.ToListResponse (sampleRow (i + 1)))
            Pagination := { Total := 11, Page := 1, PageSize := 10, TotalPages := 2 } }⟩ := by
  decide

theorem enter_nextFault {α : Type} (w : World α) (c : Call) : (w.enter c).1 = w.nextFault := by
  unfold World.enter World.nextFault
  cases w.faults <;> rfl

theorem dbFirst_missing_no_fault {α : Type} (m : Model α) (w : World α) (q : Query) (id : Nat)
    (h : ∀ r ∈ w.visible m, m.getId r ≠ id) (hf : w.nextFault = none) :
    (dbFirst m w q id).2 = .error ErrRecordNotFound := by
  unfold dbFirst
  rcases hx : w.enter (.dbFirst m.table q id) with ⟨f, w1⟩
  have hf1 := enter_nextFault w (.dbFirst m.table q id)
  rw [hx, hf] at hf1
  simp only at hf1
  subst hf1
  have hv : w1.visible m = w.visible m := by
    have := enter_visible m w (.dbFirst m.table q id)
    rw [hx] at this
    exact this
  have hnone : (w1.visible m).find? (fun r => decide (m.getId r = id)) = none := by
    rw [hv, List.find?_eq_none]
    intro r hr
    simpa using h r hr
  simp only [hnone]

theorem Delete_error_of_dbFirst (w : World Achievement) (id : Nat) (e : String)
    (h : (dbFirst achievementModel w {} id).2 = .error e) :
    (AchievementService.Delete w id).2 = .error ("failed to find achievement: " ++ e) ∧
      (AchievementService.Delete w id).1.rows = w.rows ∧
      (AchievementService.Delete w id).1.events = w.events := by
  have hrows : (dbFirst achievementModel w {} id).1.rows = w.rows := by
    unfold dbFirst
    rcases hx : w.enter (.dbFirst achievementModel.table {} id) with ⟨f, w1⟩
    have h1 := enter_rows w (.dbFirst achievementModel.table {} id)
    rw [hx] at h1
    cases f with
    | some e => exact h1
    | none =>
      simp only
      split <;> exact h1
  have hevents : (dbFirst achievementModel w {} id).1.events = w.events := by
    unfold dbFirst
    rcases hx : w.enter (.dbFirst achievementModel.table {} id) with ⟨f, w1⟩
    have h1 := enter_events w (.dbFirst achievementModel.table {} id)
    rw [hx] at h1
    cases f with
    | some e => exact h1
    | none =>
      simp only
      split <;> exact h1
  rcases hx : dbFirst achievementModel w {} id with ⟨w1, r⟩
  rw [hx] at h hrows hevents
  simp only at h hrows hevents
  subst h
  simp only [AchievementService.Delete, hx, World.logError]
  exact ⟨trivial, hrows, hevents⟩

/-- C6, as stated, fails: on an empty table both `PUT /achievements/1` with a well-formed body
and `DELETE /achievements/1` answer 500, not 404. -/
theorem update_delete_missing_record_counterexample :
    (sampleWorld 0).rows = [] ∧
      (AchievementController.Update (sampleWorld 0) "1" (.ok {})).2 =
        ⟨500, .ErrorResponse
          "Failed to update item: failed to find achievement: record not found"⟩ ∧
      (AchievementController.Delete (sampleWorld 0) "1").2 =
        ⟨500, .ErrorResponse
          "Failed to delete item: failed to find achievement: record not found"⟩ := by
  decide

/-- C6, amended. For every id that parses and for which the table has no visible record, the
Delete handler answers with status 500 and the error text "Failed to delete item: failed to find
achievement: " followed by the lookup error, which is "record not found" unless the database
call itself fails; the table is left as it was and no event is emitted. -/
theorem delete_missing_record_is_500 (w : World Achievement) (s : String) (id : Nat)
    (hs : ParseUint s 32 = .ok id)
    (hmissing : ∀ r ∈ w.visible achievementModel, r.Id ≠ id) :
    (AchievementController.Delete w s).2.status = 500 ∧
      (∃ e, (AchievementController.Delete w s).2.body =
        .ErrorResponse ("Failed to delete item: failed to find achievement: " ++ e)) ∧
      (w.nextFault = none → (AchievementController.Delete w s).2.body =
        .ErrorResponse "Failed to delete item: failed to find achievement: record not found") ∧
      (AchievementController.Delete w s).1.rows = w.rows ∧
      (AchievementController.Delete w s).1.events = w.events := by
  obtain ⟨e, he⟩ := dbFirst_missing achievementModel w {} id hmissing
  obtain ⟨h1, h2, h3⟩ := Delete_error_of_dbFirst w id e he
  have hassoc : ∀ x : String, "Failed to delete item: " ++ ("failed to find achievement: " ++ x) =
      "Failed to delete item: failed to find achievement: " ++ x := by
    intro x
    rw [← String.append_assoc]
    rfl
  rcases hx : AchievementService.Delete w id with ⟨w1, r⟩
  rw [hx] at h1 h2 h3
  simp only at h1 h2 h3
  subst h1
  simp only [AchievementController.Delete, hs, hx, hassoc]
  refine ⟨rfl, ⟨e, rfl⟩, ?_, h2, h3⟩
  intro hf
  have he2 := dbFirst_missing_no_fault achievementModel w {} id hmissing hf
  rw [he] at he2
  injection he2 with he3
  rw [he3]
  rfl

/-- C6 (amended) at a concrete input: key 9 in a table holding the keys 1 to 3. -/
theorem delete_missing_record_is_500_witness :
    ParseUint "9" 32 = .ok 9 ∧
      (AchievementController.Delete (sampleWorld 3) "9").2.status = 500 :=
  ⟨rfl, (delete_missing_record_is_500 (sampleWorld 3) "9" 9 rfl (by decide)).1⟩

/-! ## `strconv.ParseUint` and the id path parameter -/

theorem foldl_digits_ge (cs : List Char) (n : Nat) :
    n ≤ cs.foldl (fun n c => n * 10 + digitVal c) n := by
  induction cs generalizing n with
  | nil => exact Nat.le_refl n
  | cons c cs ih =>
    simp only [List.foldl_cons]
    exact Nat.le_trans (by omega) (ih (n * 10 + digitVal c))

/-- The digit loop succeeds exactly on digit strings whose value stays within `maxVal`. -/
theorem parseUintLoop_ok_iff (maxVal : Nat) (hmax : maxVal < 2 ^ 64) (cs : List Char) :
    ∀ n v, parseUintLoop maxVal cs n = .ok v ↔
      (∀ c ∈ cs, c.isDigit = true) ∧ v = cs.foldl (fun n c => n * 10 + digitVal c) n ∧
        (cs = [] ∨ v ≤ maxVal) := by
  induction cs with
  | nil =>
    intro n v
    simp only [parseUintLoop, List.foldl_nil, List.not_mem_nil, false_implies, implies_true,
      true_and, true_or, and_true]
    constructor
    · intro h
      injection h with h
      exact h.symm
    · intro h
      rw [h]
  | cons c cs ih =>
    intro n v
    rw [parseUintLoop]
    have hge := foldl_digits_ge cs (n * 10 + digitVal c)
    by_cases hd : c.isDigit = true
    · rw [if_pos hd]
      by_cases hcut : n ≥ (2 ^ 64 - 1) / 10 + 1
      · rw [if_pos hcut]
        constructor
        · intro h
          cases h
        · rintro ⟨_, hv, hle⟩
          exfalso
          rcases hle with hle | hle
          · cases hle
          · simp only [List.foldl_cons] at hv
            norm_num at hcut
            omega
      · rw [if_neg hcut]
        by_cases hover : n * 10 + digitVal c ≥ 2 ^ 64 ∨ n * 10 + digitVal c > maxVal
        · simp only [hover, if_true]
          constructor
          · intro h
            cases h
          · rintro ⟨_, hv, hle⟩
            exfalso
            rcases hle with hle | hle
            · cases hle
            · simp only [List.foldl_cons] at hv
              omega
        · simp only [hover, if_false]
          rw [ih]
          simp only [List.foldl_cons, List.mem_cons, forall_eq_or_imp, hd, true_and,
            false_or, reduceCtorEq]
          constructor
          · rintro ⟨h1, h2, h3⟩
            refine ⟨h1, h2, ?_⟩
            rcases h3 with h3 | h3
            · subst h3
              simp only [List.foldl_nil] at h2
              omega
            · exact h3
          · rintro ⟨h1, h2, h3⟩
            exact ⟨h1, h2, Or.inr h3⟩
    · rw [if_neg hd]
      constructor
      · intro h
        cases h
      · rintro ⟨hall, _, _⟩
        exact absurd (hall c (List.mem_cons_self c cs)) hd

/-- The call `ParseUint(s, 10, 32)` succeeds exactly on the base-10 unsigned integers
representable in 32 bits, and then returns their value. -/
theorem ParseUint_ok_iff (s : String) (v : Nat) :
    ParseUint s 32 = .ok v ↔ IsUint32Decimal s ∧ v = decimalValue s.data := by
  unfold ParseUint IsUint32Decimal decimalValue
  by_cases he : s.data = []
  · simp [he]
  · rw [if_neg he, parseUintLoop_ok_iff _ (by norm_num)]
    simp only [he, false_or, ne_eq, not_false_eq_true, true_and]
    constructor
    · rintro ⟨h1, h2, h3⟩
      subst h2
      exact ⟨⟨h1, by omega⟩, rfl⟩
    · rintro ⟨⟨h1, h2⟩, h3⟩
      subst h3
      exact ⟨h1, rfl, by omega⟩

theorem ParseUint_error_iff (s : String) :
    (∃ e, ParseUint s 32 = .error e) ↔ ¬ IsUint32Decimal s := by
  constructor
  · rintro ⟨e, he⟩ hs
    have := (ParseUint_ok_iff s (decimalValue s.data)).2 ⟨hs, rfl⟩
    rw [he] at this
    cases this
  · intro hs
    cases h : ParseUint s 32 with
    | error e => exact ⟨e, rfl⟩
    | ok v => exact absurd ((ParseUint_ok_iff s v).1 h).1 hs

theorem Get_of_invalid_id (w : World Achievement) (s : String) (h : ¬ IsUint32Decimal s) :
    AchievementController.Get w s = (w, ⟨400, .ErrorResponse "Invalid id format"⟩) := by
  obtain ⟨e, he⟩ := (ParseUint_error_iff s).2 h
  simp only [AchievementController.Get, he]
  rfl

theorem Update_of_invalid_id (w : World Achievement) (s : String)
    (body : Except String UpdateAchievementRequest) (h : ¬ IsUint32Decimal s) :
    AchievementController.Update w s body = (w, ⟨400, .ErrorResponse "Invalid id format"⟩) := by
  obtain ⟨e, he⟩ := (ParseUint_error_iff s).2 h
  simp only [AchievementController.Update, he]
  rfl

theorem Delete_of_invalid_id (w : World Achievement) (s : String) (h : ¬ IsUint32Decimal s) :
    AchievementController.Delete w s = (w, ⟨400, .ErrorResponse "Invalid id format"⟩) := by
  obtain ⟨e, he⟩ := (ParseUint_error_iff s).2 h
  simp only [AchievementController.Delete, he]
  rfl

theorem UploadIcon_of_invalid_id (w : World Achievement) (s : String) (file : Option FileHeader)
    (h : ¬ IsUint32Decimal s) :
    AchievementController.UploadIcon w s file =
      (w, ⟨400, .ErrorResponse "Invalid id format"⟩) := by
  obtain ⟨e, he⟩ := (ParseUint_error_iff s).2 h
  simp only [AchievementController.UploadIcon, he]
  rfl

theorem DeleteIcon_of_invalid_id (w : World Achievement) (s : String) (h : ¬ IsUint32Decimal s) :
    AchievementController.DeleteIcon w s = (w, ⟨400, .ErrorResponse "Invalid id format"⟩) := by
  obtain ⟨e, he⟩ := (ParseUint_error_iff s).2 h
  simp only [AchievementController.DeleteIcon, he]
  rfl

theorem Get_of_valid_id (w : World Achievement) (s : String) (h : IsUint32Decimal s) :
    (AchievementController.Get w s).2 ≠ ⟨400, .ErrorResponse "Invalid id format"⟩ := by
  have hs := (ParseUint_ok_iff s _).2 ⟨h, rfl⟩
  simp only [AchievementController.Get, hs]
  intro hbad
  split at hbad <;> simp [StatusNotFound, StatusOK] at hbad

theorem Update_of_valid_id (w : World Achievement) (s : String)
    (body : Except String UpdateAchievementRequest) (h : IsUint32Decimal s)
    (hbody : body ≠ .error "Invalid id format") :
    (AchievementController.Update w s body).2 ≠ ⟨400, .ErrorResponse "Invalid id format"⟩ := by
  have hs := (ParseUint_ok_iff s _).2 ⟨h, rfl⟩
  simp only [AchievementController.Update, hs]
  intro hbad
  cases body with
  | error err =>
    simp only [Response.mk.injEq, Body.ErrorResponse.injEq] at hbad
    exact hbody (by rw [hbad.2])
  | ok req =>
    simp only at hbad
    split at hbad <;> simp [StatusInternalServerError, StatusOK] at hbad

theorem Delete_of_valid_id (w : World Achievement) (s : String) (h : IsUint32Decimal s) :
    (AchievementController.Delete w s).2 ≠ ⟨400, .ErrorResponse "Invalid id format"⟩ := by
  have hs := (ParseUint_ok_iff s _).2 ⟨h, rfl⟩
  simp only [AchievementController.Delete, hs]
  intro hbad
  split at hbad <;> simp [StatusInternalServerError, StatusOK] at hbad

theorem UploadIcon_of_valid_id (w : World Achievement) (s : String) (file : Option FileHeader)
    (h : IsUint32Decimal s) :
    (AchievementController.UploadIcon w s file).2 ≠
      ⟨400, .ErrorResponse "Invalid id format"⟩ := by
  have hs := (ParseUint_ok_iff s _).2 ⟨h, rfl⟩
  simp only [AchievementController.UploadIcon, hs]
  intro hbad
  cases file with
  | none =>
    simp only [Response.mk.injEq, Body.ErrorResponse.injEq] at hbad
    exact absurd hbad.2 (by decide)
  | some f =>
    simp only at hbad
    split at hbad
    · simp [StatusNotFound] at hbad
    · split at hbad
      · simp [StatusInternalServerError] at hbad
      · split at hbad <;> simp [StatusInternalServerError, StatusOK] at hbad

theorem DeleteIcon_of_valid_id (w : World Achievement) (s : String) (h : IsUint32Decimal s) :
    (AchievementController.DeleteIcon w s).2 ≠ ⟨400, .ErrorResponse "Invalid id format"⟩ := by
  have hs := (ParseUint_ok_iff s _).2 ⟨h, rfl⟩
  simp only [AchievementController.DeleteIcon, hs]
  intro hbad
  split at hbad
  · simp [StatusNotFound] at hbad
  · split at hbad
    · simp [StatusInternalServerError] at hbad
    · split at hbad <;> simp [StatusInternalServerError, StatusOK] at hbad

/-- C7. For each of the handlers Get, Update, Delete, UploadIcon and DeleteIcon the response is
status 400 with error "Invalid id format" exactly when the id parameter is not a base-10
unsigned integer representable in 32 bits, and in that case the handler leaves the world as it
found it: no database or storage call, no log entry, no event. (For Update the text of a
body-binding error is supplied by the framework; it is taken not to be that very text.) -/
theorem invalid_id_is_400 (w : World Achievement) (s : String)
    (body : Except String UpdateAchievementRequest) (file : Option FileHeader)
    (hbody : body ≠ .error "Invalid id format") :
    ((AchievementController.Get w s).2 = ⟨400, .ErrorResponse "Invalid id format"⟩ ↔
        ¬ IsUint32Decimal s) ∧
      ((AchievementController.Update w s body).2 = ⟨400, .ErrorResponse "Invalid id format"⟩ ↔
        ¬ IsUint32Decimal s) ∧
      ((AchievementController.Delete w s).2 = ⟨400, .ErrorResponse "Invalid id format"⟩ ↔
        ¬ IsUint32Decimal s) ∧
      ((AchievementController.UploadIcon w s file).2 =
        ⟨400, .ErrorResponse "Invalid id format"⟩ ↔ ¬ IsUint32Decimal s) ∧
      ((AchievementController.DeleteIcon w s).2 = ⟨400, .ErrorResponse "Invalid id format"⟩ ↔
        ¬ IsUint32Decimal s) ∧
      (¬ IsUint32Decimal s →
        (AchievementController.Get w s).1 = w ∧
          (AchievementController.Update w s body).1 = w ∧
          (AchievementController.Delete w s).1 = w ∧
          (AchievementController.UploadIcon w s file).1 = w ∧
          (AchievementController.DeleteIcon w s).1 = w) := by
  refine ⟨⟨?_, ?_⟩, ⟨?_, ?_⟩, ⟨?_, ?_⟩, ⟨?_, ?_⟩, ⟨?_, ?_⟩, ?_⟩
  · exact fun hr hs => Get_of_valid_id w s hs hr
  · exact fun hs => by rw [Get_of_invalid_id w s hs]
  · exact fun hr hs => Update_of_valid_id w s body hs hbody hr
  · exact fun hs => by rw [Update_of_invalid_id w s body hs]
  · exact fun hr hs => Delete_of_valid_id w s hs hr
  · exact fun hs => by rw [Delete_of_invalid_id w s hs]
  · exact fun hr hs => UploadIcon_of_valid_id w s file hs hr
  · exact fun hs => by rw [UploadIcon_of_invalid_id w s file hs]
  · exact fun hr hs => DeleteIcon_of_valid_id w s hs hr
  · exact fun hs => by rw [DeleteIcon_of_invalid_id w s hs]
  · intro hs
    rw [Get_of_invalid_id w s hs, Update_of_invalid_id w s body hs, Delete_of_invalid_id w s hs,
      UploadIcon_of_invalid_id w s file hs, DeleteIcon_of_invalid_id w s hs]
    exact ⟨rfl, rfl, rfl, rfl, rfl⟩

/-- C7 at a concrete input: the id 4294967296 is one past the largest 32-bit value; Delete
answers 400 and makes no call. -/
theorem invalid_id_is_400_witness :
    ¬ IsUint32Decimal "4294967296" ∧
      (AchievementController.Delete (sampleWorld 2) "4294967296").2 =
        ⟨400, .ErrorResponse "Invalid id format"⟩ ∧
      (AchievementController.Delete (sampleWorld 2) "4294967296").1.calls = [] :=
  have h := invalid_id_is_400 (sampleWorld 2) "4294967296" (.ok {}) none (by decide)
  ⟨by decide, h.2.2.1.2 (by decide), by rw [(h.2.2.2.2.2 (by decide)).2.2.1]; rfl⟩

/-! ## `strconv.Atoi` and the `page` / `limit` query parameters -/

/-- The call `Atoi(s)` succeeds exactly on the decimal integers of the 64-bit range, and then
returns their value. -/
theorem Atoi_ok_iff (s : String) (v : Int) :
    Atoi s = .ok v ↔
      IsDecimalInteger s ∧ v = decimalIntValue s ∧ minInt64 ≤ v ∧ v ≤ maxInt64 := by
  unfold Atoi ParseInt IsDecimalInteger decimalIntValue signedDigits minInt64 maxInt64
  simp only [] 
  cases hdata : s.data with
  | nil => simp
  | cons c cs =>
    simp only [List.head?_cons, Option.some.injEq]
    generalize hrest : (if c = '+' ∨ c = '-' then cs else c :: cs) = rest
    by_cases hnil : rest = []
    · simp [hnil]
    · simp only [hnil, if_false, ne_eq, not_false_eq_true, true_and]
      have hloop := parseUintLoop_ok_iff (2 ^ 64 - 1) (by norm_num) rest 0
      cases hp : parseUintLoop (2 ^ 64 - 1) rest 0 with
      | error e =>
        have hno : ¬ ((∀ c ∈ rest, c.isDigit = true) ∧
            decimalValue rest ≤ 2 ^ 64 - 1) := by
          rintro ⟨h1, h2⟩
          have := (hloop (decimalValue rest)).2 ⟨h1, rfl, Or.inr h2⟩
          rw [hp] at this
          cases this
        have hfalse : ¬ ((∀ c ∈ rest, c.isDigit = true) ∧
            (v = if c = '-' then -(decimalValue rest : Int) else (decimalValue rest : Int)) ∧
            -(2 ^ 63) ≤ v ∧ v ≤ 2 ^ 63 - 1) := by
          rintro ⟨h1, h2, h3, h4⟩
          apply hno
          refine ⟨h1, ?_⟩
          split at h2 <;> omega
        cases e <;> simp only [reduceCtorEq, false_iff] <;> exact hfalse
      | ok un =>
        obtain ⟨h1, h2, h3⟩ := (hloop un).1 hp
        have h2' : un = decimalValue rest := h2
        subst h2'
        simp only [h1, implies_true, true_and]
        have hcases : ∀ (P : Prop) [Decidable P] (x : Except NumError Int),
            ((if P then Except.error NumError.ErrRange else x) = .ok v) ↔ (¬ P ∧ x = .ok v) := by
          intro P _ x
          by_cases hP : P
          · simp [hP]
          · simp [hP]
        rw [hcases, hcases]
        by_cases hneg : c = '-'
        · simp only [hneg, decide_True, not_true_eq_false, false_and, not_false_eq_true, true_and,
            if_true, Except.ok.injEq]
          constructor
          · rintro ⟨h5, h6⟩
            exact ⟨h1, by omega, by omega, by omega⟩
          · rintro ⟨_, h5, h6, h7⟩
            exact ⟨by omega, by omega⟩
        · simp only [hneg, decide_False, not_false_eq_true, true_and, false_and, Bool.false_eq_true,
            if_false, Except.ok.injEq]
          constructor
          · rintro ⟨h5, h6⟩
            exact ⟨h1, by omega, by omega, by omega⟩
          · rintro ⟨_, h5, h6, h7⟩
            exact ⟨by omega, by omega⟩

theorem accepted_iff_Atoi (s : String) :
    IsPositiveInt64Decimal s ↔ ∃ v, Atoi s = .ok v ∧ 0 < v := by
  unfold IsPositiveInt64Decimal
  constructor
  · rintro ⟨h1, h2, h3⟩
    refine ⟨decimalIntValue s, (Atoi_ok_iff s _).2 ⟨h1, rfl, ?_, h3⟩, h2⟩
    unfold minInt64
    omega
  · rintro ⟨v, hv, hpos⟩
    obtain ⟨h1, h2, _, h4⟩ := (Atoi_ok_iff s v).1 hv
    subst h2
    exact ⟨h1, hpos, h4⟩

theorem GetAll_status_ne_400 (w : World Achievement) (page limit : Option Int)
    (msg : String → String) :
    (match AchievementService.GetAll w page limit with
      | (w1, .error err) =>
        ((w1, ⟨StatusInternalServerError, .ErrorResponse (msg err)⟩) : World Achievement × Response)
      | (w1, .ok paginatedResponse) => (w1, ⟨StatusOK, .page paginatedResponse⟩)).2.status
      ≠ 400 := by
  split <;> simp [StatusInternalServerError, StatusOK]

/-- The `page` stage of the List handler: a rejected value stops the request. -/
theorem List_of_bad_page (w : World Achievement) (p l : String)
    (hp : p ≠ "" ∧ ¬ IsPositiveInt64Decimal p) :
    AchievementController.List w p l = (w, ⟨400, .ErrorResponse "Invalid page number"⟩) := by
  obtain ⟨hne, hbad⟩ := hp
  rw [accepted_iff_Atoi] at hbad
  unfold AchievementController.List
  simp only [ne_eq, hne, not_false_eq_true, if_true]
  cases hA : Atoi p with
  | error e => rfl
  | ok n =>
    have hn : ¬ n > 0 := fun h => hbad ⟨n, hA, h⟩
    simp only [hn, if_false]
    rfl

/-- The `limit` stage of the List handler, reached when the `page` value is accepted. -/
theorem List_of_good_page (w : World Achievement) (p l : String)
    (hp : ¬ (p ≠ "" ∧ ¬ IsPositiveInt64Decimal p)) :
    (l ≠ "" ∧ ¬ IsPositiveInt64Decimal l →
        AchievementController.List w p l = (w, ⟨400, .ErrorResponse "Invalid limit number"⟩)) ∧
      (¬ (l ≠ "" ∧ ¬ IsPositiveInt64Decimal l) →
        (AchievementController.List w p l).2.status ≠ 400) := by
  have hpage : ∃ page : Option Int,
      (if p ≠ "" then
        match Atoi p with
        | .ok pageNum => if pageNum > 0 then Except.ok (some pageNum) else Except.error ()
        | .error _ => Except.error ()
      else (Except.ok none : Except Unit (Option Int))) = .ok page := by
    by_cases hne : p = ""
    · exact ⟨none, by simp [hne]⟩
    · have hacc : IsPositiveInt64Decimal p := by
        by_contra hc
        exact hp ⟨hne, hc⟩
      obtain ⟨v, hv, hpos⟩ := (accepted_iff_Atoi p).1 hacc
      exact ⟨some v, by simp [hne, hv, hpos]⟩
  obtain ⟨page, hpage⟩ := hpage
  unfold AchievementController.List
  simp only [hpage]
  constructor
  · rintro ⟨hne, hbad⟩
    rw [accepted_iff_Atoi] at hbad
    simp only [ne_eq, hne, not_false_eq_true, if_true]
    cases hA : Atoi l with
    | error e => rfl
    | ok n =>
      have hn : ¬ n > 0 := fun h => hbad ⟨n, hA, h⟩
      simp only [hn, if_false]
      rfl
  · intro hl
    have hlimit : ∃ limit : Option Int,
        (if l ≠ "" then
          match Atoi l with
          | .ok limitNum => if limitNum > 0 then Except.ok (some limitNum) else Except.error ()
          | .error _ => Except.error ()
        else (Except.ok none : Except Unit (Option Int))) = .ok limit := by
      by_cases hne : l = ""
      · exact ⟨none, by simp [hne]⟩
      · have hacc : IsPositiveInt64Decimal l := by
          by_contra hc
          exact hl ⟨hne, hc⟩
        obtain ⟨v, hv, hpos⟩ := (accepted_iff_Atoi l).1 hacc
        exact ⟨some v, by simp [hne, hv, hpos]⟩
    obtain ⟨limit, hlimit⟩ := hlimit
    simp only [hlimit]
    exact GetAll_status_ne_400 w page limit _

/-- C8, as stated, fails: the page value 9223372036854775808 is a decimal integer greater than
zero, and the List handler still answers 400 "Invalid page number". -/
theorem list_rejects_large_decimal_counterexample :
    IsPositiveDecimal "9223372036854775808" ∧
      AchievementController.List (sampleWorld 3) "9223372036854775808" "" =
        (sampleWorld 3, ⟨400, .ErrorResponse "Invalid page number"⟩) := by
  refine ⟨by decide, ?_⟩
  exact List_of_bad_page (sampleWorld 3) "9223372036854775808" "" (by decide)

/-- C8, amended. The List handler answers 400 exactly when the page or the limit query value is
non-empty and is not a decimal integer greater than zero that fits a 64-bit int. The page value
is checked first (error "Invalid page number"), then the limit value (error "Invalid limit
number"); a rejected request leaves the world as it was, so the service is not called; an empty
value is never rejected. -/
theorem list_rejects_bad_page_or_limit (w : World Achievement) (p l : String) :
    ((AchievementController.List w p l).2.status = 400 ↔
        (p ≠ "" ∧ ¬ IsPositiveInt64Decimal p) ∨ (l ≠ "" ∧ ¬ IsPositiveInt64Decimal l)) ∧
      (p ≠ "" ∧ ¬ IsPositiveInt64Decimal p →
        AchievementController.List w p l = (w, ⟨400, .ErrorResponse "Invalid page number"⟩)) ∧
      (¬ (p ≠ "" ∧ ¬ IsPositiveInt64Decimal p) → l ≠ "" ∧ ¬ IsPositiveInt64Decimal l →
        AchievementController.List w p l = (w, ⟨400, .ErrorResponse "Invalid limit number"⟩)) ∧
      (AchievementController.List w "" "").2.status ≠ 400 := by
  refine ⟨⟨?_, ?_⟩, List_of_bad_page w p l, fun hp => (List_of_good_page w p l hp).1, ?_⟩
  · intro hstatus
    by_contra hnone
    rw [not_or] at hnone
    exact (List_of_good_page w p l hnone.1).2 hnone.2 hstatus
  · intro h
    by_cases hp : p ≠ "" ∧ ¬ IsPositiveInt64Decimal p
    · rw [List_of_bad_page w p l hp]
    · rcases h with h | h
      · exact absurd h hp
      · rw [(List_of_good_page w p l hp).1 h]
  · exact (List_of_good_page w "" "" (by simp)).2 (by simp)

/-! ## Partial update -/

/-- The update map of the achievements service, entry by entry. -/
theorem achievement_buildUpdates_eq (req : UpdateAchievementRequest) :
    AchievementService.buildUpdates req =
      (if req.Name ≠ "" then [("name", Value.str req.Name)] else []) ++
      (if req.Description ≠ "" then [("description", Value.str req.Description)] else []) ++
      (if req.Category ≠ "" then [("category", Value.str req.Category)] else []) ++
      (if req.DifficultyLevel ≠ "" then [("difficulty_level", Value.str req.DifficultyLevel)]
        else []) ++
      (if req.IsHidden ≠ "" then [("is_hidden", Value.str req.IsHidden)] else []) ++
      (if req.IsActive ≠ "" then [("is_active", Value.str req.IsActive)] else []) := by
  unfold AchievementService.buildUpdates Updates.set
  by_cases h1 : req.Name = "" <;> by_cases h2 : req.Description = "" <;>
    by_cases h3 : req.Category = "" <;> by_cases h4 : req.DifficultyLevel = "" <;>
    by_cases h5 : req.IsHidden = "" <;> by_cases h6 : req.IsActive = "" <;>
    simp [h1, h2, h3, h4, h5, h6]

/-- The update map of the user-achievements service, entry by entry. -/
theorem userAchievement_buildUpdates_eq (req : UpdateUserAchievementRequest) :
    UserAchievementService.buildUpdates req =
      (if req.UserId ≠ 0 then [("user_id", Value.uint req.UserId)] else []) ++
      (if req.AchievementId ≠ 0 then [("achievement_id", Value.uint req.AchievementId)]
        else []) ++
      (if req.Progress ≠ "" then [("progress", Value.str req.Progress)] else []) ++
      (if req.CompletedAt ≠ "" then [("completed_at", Value.str req.CompletedAt)] else []) := by
  unfold UserAchievementService.buildUpdates Updates.set
  by_cases h1 : req.UserId = 0 <;> by_cases h2 : req.AchievementId = 0 <;>
    by_cases h3 : req.Progress = "" <;> by_cases h4 : req.CompletedAt = "" <;>
    simp [h1, h2, h3, h4]

theorem dbFirst_calls {α : Type} (m : Model α) (w : World α) (q : Query) (id : Nat) :
    (dbFirst m w q id).1.calls = w.calls ++ [Call.dbFirst m.table q id] := by
  unfold dbFirst
  rcases hx : w.enter (.dbFirst m.table q id) with ⟨f, w1⟩
  have h1 := enter_calls w (.dbFirst m.table q id)
  rw [hx] at h1
  cases f with
  | some e => exact h1
  | none =>
    simp only
    split <;> exact h1

theorem dbUpdates_calls {α : Type} (m : Model α) (w : World α) (id : Nat) (u : Updates) :
    (dbUpdates m w id u).1.calls = w.calls ++ [Call.dbUpdates m.table id u] := by
  unfold dbUpdates
  rcases hx : w.enter (.dbUpdates m.table id u) with ⟨f, w1⟩
  have h1 := enter_calls w (.dbUpdates m.table id u)
  rw [hx] at h1
  cases f with
  | some e => exact h1
  | none =>
    simp only
    split
    · exact h1
    · split <;> exact h1

/-- After a successful lookup, `AchievementService.Update` hands exactly its update map to the
ORM, once, and makes no other update call. -/
theorem achievement_Update_calls (w w1 : World Achievement) (id : Nat)
    (req : UpdateAchievementRequest) (item : Achievement)
    (h : dbFirst achievementModel w {} id = (w1, .ok item)) :
    ∃ tail, (AchievementService.Update w id req).1.calls =
        w1.calls ++ Call.dbUpdates "achievements" item.Id (AchievementService.buildUpdates req)
          :: tail ∧
      (tail = [] ∨ tail = [Call.dbFirst "achievements" {} item.Id]) := by
  have hu := dbUpdates_calls achievementModel w1 item.Id (AchievementService.buildUpdates req)
  rcases hx : dbUpdates achievementModel w1 item.Id (AchievementService.buildUpdates req)
    with ⟨w2, r⟩
  rw [hx] at hu
  simp only at hu
  cases r with
  | error e =>
    refine ⟨[], ?_, Or.inl rfl⟩
    simp only [AchievementService.Update, h, hx, World.logError, hu]
    rfl
  | ok u =>
    refine ⟨[Call.dbFirst "achievements" {} item.Id], ?_, Or.inr rfl⟩
    have hg := dbFirst_calls achievementModel w2 (Achievement.Preload {}) item.Id
    rcases hy : dbFirst achievementModel w2 (Achievement.Preload {}) item.Id with ⟨w3, r3⟩
    rw [hy] at hg
    simp only at hg
    cases r3 <;>
      simp only [AchievementService.Update, AchievementService.GetById, h, hx, hy,
        World.logError, World.emit, hg, hu] <;> simp [achievementModel, Achievement.Preload]

/-- After a successful lookup, `UserAchievementService.Update` hands exactly its update map to
the ORM, once, and makes no other update call. -/
theorem userAchievement_Update_calls (w w1 : World UserAchievement) (id : Nat)
    (req : UpdateUserAchievementRequest) (item : UserAchievement)
    (h : dbFirst userAchievementModel w {} id = (w1, .ok item)) :
    ∃ tail, (UserAchievementService.Update w id req).1.calls =
        w1.calls ++
          Call.dbUpdates "userachievements" item.Id (UserAchievementService.buildUpdates req)
            :: tail ∧
      (tail = [] ∨
        tail = [Call.dbFirst "userachievements" (UserAchievement.Preload {}) item.Id]) := by
  have hu :=
    dbUpdates_calls userAchievementModel w1 item.Id (UserAchievementService.buildUpdates req)
  rcases hx : dbUpdates userAchievementModel w1 item.Id (UserAchievementService.buildUpdates req)
    with ⟨w2, r⟩
  rw [hx] at hu
  simp only at hu
  cases r with
  | error e =>
    refine ⟨[], ?_, Or.inl rfl⟩
    simp only [UserAchievementService.Update, h, hx, World.logError, hu]
    rfl
  | ok u =>
    refine ⟨[Call.dbFirst "userachievements" (UserAchievement.Preload {}) item.Id], ?_,
      Or.inr rfl⟩
    have hg := dbFirst_calls userAchievementModel w2 (UserAchievement.Preload {}) item.Id
    rcases hy : dbFirst userAchievementModel w2 (UserAchievement.Preload {}) item.Id
      with ⟨w3, r3⟩
    rw [hy] at hg
    simp only at hg
    cases r3 <;>
      simp only [UserAchievementService.Update, UserAchievementService.GetById, h, hx, hy,
        World.logError, World.emit, hg, hu] <;> simp [userAchievementModel]

/-- C4, as stated, fails: an update request whose fields are all sentinels yields the empty
change set, and the update still changes a column of the stored record: `UpdatedAt` goes from 0
to 7, the time of the update. -/
theorem empty_update_changes_updated_at_counterexample :
    AchievementService.buildUpdates {} = [] ∧
      laterWorld.rows.map (fun r => r.UpdatedAt) = [0] ∧
      (AchievementService.Update laterWorld 1 {}).2 = .ok { sampleRow 1 with UpdatedAt := 7 } ∧
      (AchievementService.Update laterWorld 1 {}).1.calls =
        [Call.dbFirst "achievements" {} 1, Call.dbUpdates "achievements" 1 [],
          Call.dbFirst "achievements" {} 1] ∧
      (AchievementService.Update laterWorld 1 {}).1.rows.map (fun r => r.UpdatedAt) = [7] := by
  decide

/-- C4, amended. The change set that Update hands to the ORM contains a column exactly when the
request value of that field is not the "no change" sentinel (the empty string, or 0 for the
unsigned foreign-key ids) and maps the column to the request value verbatim; no column occurs
twice; a request of sentinels only yields the empty change set, under which a row keeps every
column except `UpdatedAt`, which the ORM sets to the time of the update; and after a successful
lookup Update passes exactly this change set to the ORM. Stated for the achievements and the
user-achievements service. -/
theorem partial_update_change_set (req : UpdateAchievementRequest)
    (ureq : UpdateUserAchievementRequest) (c : String) (v : Value) :
    ((c, v) ∈ AchievementService.buildUpdates req ↔
        (c = "name" ∧ req.Name ≠ "" ∧ v = .str req.Name) ∨
        (c = "description" ∧ req.Description ≠ "" ∧ v = .str req.Description) ∨
        (c = "category" ∧ req.Category ≠ "" ∧ v = .str req.Category) ∨
        (c = "difficulty_level" ∧ req.DifficultyLevel ≠ "" ∧ v = .str req.DifficultyLevel) ∨
        (c = "is_hidden" ∧ req.IsHidden ≠ "" ∧ v = .str req.IsHidden) ∨
        (c = "is_active" ∧ req.IsActive ≠ "" ∧ v = .str req.IsActive)) ∧
      ((c, v) ∈ UserAchievementService.buildUpdates ureq ↔
        (c = "user_id" ∧ ureq.UserId ≠ 0 ∧ v = .uint ureq.UserId) ∨
        (c = "achievement_id" ∧ ureq.AchievementId ≠ 0 ∧ v = .uint ureq.AchievementId) ∨
        (c = "progress" ∧ ureq.Progress ≠ "" ∧ v = .str ureq.Progress) ∨
        (c = "completed_at" ∧ ureq.CompletedAt ≠ "" ∧ v = .str ureq.CompletedAt)) ∧
      ((AchievementService.buildUpdates req).map Prod.fst).Nodup ∧
      ((UserAchievementService.buildUpdates ureq).map Prod.fst).Nodup ∧
      (req.Name = "" ∧ req.Description = "" ∧ req.Category = "" ∧ req.DifficultyLevel = "" ∧
          req.IsHidden = "" ∧ req.IsActive = "" →
        AchievementService.buildUpdates req = [] ∧
          ∀ (r : Achievement) (now : Nat),
            achievementModel.updated r (AchievementService.buildUpdates req) now =
              .ok { r with UpdatedAt := now }) ∧
      (ureq.UserId = 0 ∧ ureq.AchievementId = 0 ∧ ureq.Progress = "" ∧ ureq.CompletedAt = "" →
        UserAchievementService.buildUpdates ureq = [] ∧
          ∀ (r : UserAchievement) (now : Nat),
            userAchievementModel.updated r (UserAchievementService.buildUpdates ureq) now =
              .ok { r with UpdatedAt := now }) ∧
      (∀ (w w1 : World Achievement) (id : Nat) (item : Achievement),
        dbFirst achievementModel w {} id = (w1, .ok item) →
        ∃ tail, (AchievementService.Update w id req).1.calls =
            w1.calls ++
              Call.dbUpdates "achievements" item.Id (AchievementService.buildUpdates req)
                :: tail ∧
          (tail = [] ∨ tail = [Call.dbFirst "achievements" {} item.Id])) ∧
      (∀ (w w1 : World UserAchievement) (id : Nat) (item : UserAchievement),
        dbFirst userAchievementModel w {} id = (w1, .ok item) →
        ∃ tail, (UserAchievementService.Update w id ureq).1.calls =
            w1.calls ++
              Call.dbUpdates "userachievements" item.Id
                (UserAchievementService.buildUpdates ureq) :: tail ∧
          (tail = [] ∨
            tail = [Call.dbFirst "userachievements" (UserAchievement.Preload {}) item.Id])) := by
  refine ⟨?_, ?_, ?_, ?_, ?_, ?_, ?_, ?_⟩
  · rw [achievement_buildUpdates_eq]
    by_cases h1 : req.Name = "" <;> by_cases h2 : req.Description = "" <;>
      by_cases h3 : req.Category = "" <;> by_cases h4 : req.DifficultyLevel = "" <;>
      by_cases h5 : req.IsHidden = "" <;> by_cases h6 : req.IsActive = "" <;>
      simp [h1, h2, h3, h4, h5, h6]
  · rw [userAchievement_buildUpdates_eq]
    by_cases h1 : ureq.UserId = 0 <;> by_cases h2 : ureq.AchievementId = 0 <;>
      by_cases h3 : ureq.Progress = "" <;> by_cases h4 : ureq.CompletedAt = "" <;>
      simp [h1, h2, h3, h4]
  · rw [achievement_buildUpdates_eq]
    by_cases h1 : req.Name = "" <;> by_cases h2 : req.Description = "" <;>
      by_cases h3 : req.Category = "" <;> by_cases h4 : req.DifficultyLevel = "" <;>
      by_cases h5 : req.IsHidden = "" <;> by_cases h6 : req.IsActive = "" <;>
      simp [h1, h2, h3, h4, h5, h6]
  · rw [userAchievement_buildUpdates_eq]
    by_cases h1 : ureq.UserId = 0 <;> by_cases h2 : ureq.AchievementId = 0 <;>
      by_cases h3 : ureq.Progress = "" <;> by_cases h4 : ureq.CompletedAt = "" <;>
      simp [h1, h2, h3, h4]
  · rintro ⟨h1, h2, h3, h4, h5, h6⟩
    have hnil : AchievementService.buildUpdates req = [] := by
      rw [achievement_buildUpdates_eq]
      simp [h1, h2, h3, h4, h5, h6]
    refine ⟨hnil, ?_⟩
    intro r now
    rw [hnil]
    rfl
  · rintro ⟨h1, h2, h3, h4⟩
    have hnil : UserAchievementService.buildUpdates ureq = [] := by
      rw [userAchievement_buildUpdates_eq]
      simp [h1, h2, h3, h4]
    refine ⟨hnil, ?_⟩
    intro r now
    rw [hnil]
    rfl
  · intro w w1 id item h
    exact achievement_Update_calls w w1 id req item h
  · intro w w1 id item h
    exact userAchievement_Update_calls w w1 id ureq item h

/-! ## The page of rows returned by `GetAll` -/

theorem dbCount_eq {α : Type} (m : Model α) (w : World α) :
    dbCount m w =
      ((w.enter (.dbCount m.table)).2,
        match (w.enter (.dbCount m.table)).1 with
        | some e => .error e
        | none => .ok ((w.visible m).length : Int)) := by
  unfold dbCount
  have hv := enter_visible m w (.dbCount m.table)
  rcases hx : w.enter (.dbCount m.table) with ⟨f, w1⟩
  rw [hx] at hv
  cases f with
  | some e => rfl
  | none =>
    simp only at hv ⊢
    rw [hv]

theorem dbFind_eq {α : Type} (m : Model α) (w : World α) (q : Query) :
    dbFind m w q =
      ((w.enter (.dbFind m.table q)).2,
        match (w.enter (.dbFind m.table q)).1 with
        | some e => .error e
        | none => .ok ((applyLimit q (w.visible m)).map (m.loaded q.preloads))) := by
  unfold dbFind
  have hv := enter_visible m w (.dbFind m.table q)
  rcases hx : w.enter (.dbFind m.table q) with ⟨f, w1⟩
  rw [hx] at hv
  cases f with
  | some e => rfl
  | none =>
    simp only at hv ⊢
    rw [hv]

/-- The shape of every successful `AchievementService.GetAll`. -/
theorem achievement_GetAll_ok (w w1 : World Achievement) (page limit : Option Int)
    (resp : PaginatedResponse AchievementListResponse)
    (h : AchievementService.GetAll w page limit = (w1, .ok resp)) :
    resp.Data =
        ((applyLimit
            { offset := wrapInt64 ((pageUsed page - 1) * limitUsed limit),
              limit := some (limitUsed limit) }
            (w.visible achievementModel)).map (achievementModel.loaded [])).map
          (fun item => Achievement.ToListResponse (some item)) ∧
      resp.Pagination =
        { Total := ((w.visible achievementModel).length : Int)
          Page := pageUsed page
          PageSize := limitUsed limit
          TotalPages :=
            if ceilDivFloat64 ((w.visible achievementModel).length : Int) (limitUsed limit) = 0
            then 1
            else ceilDivFloat64 ((w.visible achievementModel).length : Int) (limitUsed limit) } := by
  unfold AchievementService.GetAll at h
  simp only [dbCount_eq, dbFind_eq] at h
  rcases hc : (w.enter (.dbCount achievementModel.table)).1 with _ | e
  · rw [hc] at h
    simp only at h
    have hv := enter_visible achievementModel w (.dbCount achievementModel.table)
    rw [hv] at h
    split at h
    · cases h
    · rename_i w2 items hfind
      simp only [Prod.mk.injEq, Except.ok.injEq] at h
      obtain ⟨_, hresp⟩ := h
      subst hresp
      simp only [Prod.mk.injEq] at hfind
      obtain ⟨_, hitems⟩ := hfind
      split at hitems
      · cases hitems
      · simp only [Except.ok.injEq] at hitems
        subst hitems
        cases page <;> cases limit <;> exact ⟨rfl, rfl⟩
  · rw [hc] at h
    simp only [World.logError, Prod.mk.injEq, reduceCtorEq, and_false] at h

/-- With no failure scripted, `AchievementService.GetAll` succeeds. -/
theorem achievement_GetAll_succeeds (w : World Achievement) (page limit : Option Int)
    (h : w.faults = []) :
    ∃ w1 resp, AchievementService.GetAll w page limit = (w1, .ok resp) := by
  unfold AchievementService.GetAll
  simp only [dbCount, dbFind, World.enter, h]
  exact ⟨_, _, rfl⟩

theorem wrapInt64_of_range (x : Int) (h0 : 0 ≤ x) (h1 : x ≤ maxInt64) : wrapInt64 x = x := by
  unfold wrapInt64
  unfold maxInt64 at h1
  omega

/-- The `LIMIT` / `OFFSET` selection of an in-range page is the slice of the page. -/
theorem applyLimit_page {α : Type} (rows : List α) (p l : Int) (hp : 1 ≤ p) (hl : 1 ≤ l)
    (hno : (p - 1) * l ≤ maxInt64) :
    applyLimit { offset := wrapInt64 ((p - 1) * l), limit := some l } rows =
      pageSlice rows p l := by
  have h0 : 0 ≤ (p - 1) * l := Int.mul_nonneg (by omega) (by omega)
  rw [wrapInt64_of_range _ h0 hno]
  unfold applyLimit pageSlice
  simp only
  rw [if_pos (by omega : 0 ≤ l)]
  by_cases hpos : 0 < (p - 1) * l
  · rw [if_pos hpos]
  · rw [if_neg hpos]
    have hz : (p - 1) * l = 0 := by omega
    rw [hz]
    rfl

/-- C1, as stated, fails: for page 4611686018427387905 and limit 4 the 64-bit product
`(page - 1) * limit` wraps around to 0, and `GetAll` returns the first row of a one-row table
where the claim expects the (empty) slice at position `2^64`. -/
theorem getAll_page_slice_counterexample :
    (AchievementService.GetAll (sampleWorld 1) (some 4611686018427387905) (some 4)).2 =
        .ok
          { Data := [Achievement.ToListResponse (some (sampleRow 1))]
            Pagination :=
              { Total := 1, Page := 4611686018427387905, PageSize := 4, TotalPages := 1 } } ∧
      (pageSlice (AchievementService.table (sampleWorld 1)) 4611686018427387905 4).map
          (fun r => Achievement.ToListResponse (some r)) = [] ∧
      wrapInt64 ((4611686018427387905 - 1) * 4) = 0 := by
  decide

/-- C1, amended. With the table taken as the list of rows in the order the query returns them,
for every page `p ≥ 1` and limit `l ≥ 1` whose product `(p - 1) * l` fits a 64-bit int, a
successful `GetAll(p, l)` returns as Data exactly the list responses of the rows at positions
`(p-1)*l` up to but not including `p*l`, in the same order; Data has at most `l` elements; for
a page past the last row Data is empty; and unless a database call fails the call succeeds. -/
theorem getAll_page_slice (w : World Achievement) (p l : Int) (hp : 1 ≤ p) (hl : 1 ≤ l)
    (hno : (p - 1) * l ≤ maxInt64) :
    (∀ w1 resp, AchievementService.GetAll w (some p) (some l) = (w1, .ok resp) →
        resp.Data = (pageSlice (AchievementService.table w) p l).map
            (fun r => Achievement.ToListResponse (some r)) ∧
          (resp.Data.length : Int) ≤ l ∧
          (((AchievementService.table w).length : Int) ≤ (p - 1) * l → resp.Data = [])) ∧
      (w.faults = [] →
        ∃ w1 resp, AchievementService.GetAll w (some p) (some l) = (w1, .ok resp)) := by
  refine ⟨?_, achievement_GetAll_succeeds w (some p) (some l)⟩
  intro w1 resp h
  obtain ⟨hdata, _⟩ := achievement_GetAll_ok w w1 (some p) (some l) resp h
  have hslice : resp.Data = (pageSlice (AchievementService.table w) p l).map
      (fun r => Achievement.ToListResponse (some r)) := by
    rw [hdata]
    have := applyLimit_page (w.visible achievementModel) p l hp hl hno
    simp only [pageUsed, limitUsed, Option.getD_some]
    rw [this]
    unfold pageSlice AchievementService.table
    rw [List.map_take, List.map_drop]
  refine ⟨hslice, ?_, ?_⟩
  · rw [hslice, List.length_map]
    unfold pageSlice
    rw [List.length_take]
    omega
  · intro hpast
    rw [hslice]
    unfold pageSlice
    have hdrop : List.drop ((p - 1) * l).toNat (AchievementService.table w) = [] := by
      apply List.drop_eq_nil_of_le
      omega
    rw [hdrop, List.take_nil, List.map_nil]

/-- C1 (amended) at a concrete input: page 2 of size 4 over eleven rows. -/
theorem getAll_page_slice_witness :
    (1 : Int) ≤ 2 ∧ (1 : Int) ≤ 4 ∧ ((2 : Int) - 1) * 4 ≤ maxInt64 ∧
      (AchievementService.GetAll (sampleWorld 11) (some 2) (some 4)).2.toOption.map
          (fun resp => resp.Data) =
        some ((pageSlice (AchievementService.table (sampleWorld 11)) 2 4).map
          (fun r => Achievement.ToListResponse (some r))) :=
  have h := getAll_page_slice (sampleWorld 11) 2 4 (by decide) (by decide) (by decide)
  ⟨by decide, by decide, by decide, by
    obtain ⟨w1, resp, hr⟩ := h.2 rfl
    rw [hr]
    exact congrArg some (h.1 w1 resp hr).1⟩

/-! ## The page count computed in `float64` -/

theorem log2FloorAux_spec (fuel : Nat) :
    ∀ n, 0 < n → n < 2 ^ fuel →
      2 ^ log2FloorAux fuel n ≤ n ∧ n < 2 ^ (log2FloorAux fuel n + 1) := by
  induction fuel with
  | zero =>
    intro n h0 h1
    simp at h1
    omega
  | succ fuel ih =>
    intro n h0 h1
    rw [log2FloorAux]
    by_cases h2 : n < 2
    · rw [if_pos h2]
      have : n = 1 := by omega
      subst this
      simp
    · rw [if_neg h2]
      have hhalf : n / 2 < 2 ^ fuel := by
        rw [pow_succ] at h1
        omega
      obtain ⟨ih1, ih2⟩ := ih (n / 2) (by omega) hhalf
      rw [pow_succ] at ih2
      constructor
      · rw [pow_succ]
        omega
      · rw [pow_succ, pow_succ]
        omega

theorem log2Floor_spec (n : Nat) (h0 : 0 < n) (h1 : n < 2 ^ 64) :
    2 ^ log2Floor n ≤ n ∧ n < 2 ^ (log2Floor n + 1) :=
  log2FloorAux_spec 64 n h0 h1

theorem log2Floor_le_of_lt (n k : Nat) (h0 : 0 < n) (h1 : n < 2 ^ 64) (h : n < 2 ^ (k + 1)) :
    log2Floor n ≤ k := by
  by_contra hc
  have h2 := (log2Floor_spec n h0 h1).1
  have h3 : 2 ^ (k + 1) ≤ 2 ^ log2Floor n := Nat.pow_le_pow_right (by norm_num) (by omega)
  omega

theorem le_log2Floor_of_le (n k : Nat) (h0 : 0 < n) (h1 : n < 2 ^ 64) (h : 2 ^ k ≤ n) :
    k ≤ log2Floor n := by
  by_contra hc
  have h2 := (log2Floor_spec n h0 h1).2
  have h3 : 2 ^ (log2Floor n + 1) ≤ 2 ^ k := Nat.pow_le_pow_right (by norm_num) (by omega)
  omega

theorem roundHalfEven_le (n d k : Nat) (hd : 0 < d) (h : n ≤ k * d) : roundHalfEven n d ≤ k := by
  unfold roundHalfEven
  have hdm := Nat.div_add_mod n d
  have hlt := Nat.mod_lt n hd
  have hq : n / d ≤ k := by
    apply Nat.div_le_of_le_mul
    rw [Nat.mul_comm]
    exact h
  simp only
  by_cases hk : n / d = k
  · have hr : n % d = 0 := by
      rw [hk, Nat.mul_comm] at hdm
      omega
    rw [if_pos (by omega)]
    omega
  · split_ifs <;> omega

theorem le_roundHalfEven (n d k : Nat) (hd : 0 < d) (h : k * d ≤ n) : k ≤ roundHalfEven n d := by
  unfold roundHalfEven
  have hq : k ≤ n / d := (Nat.le_div_iff_mul_le hd).2 h
  simp only
  split_ifs <;> omega

theorem lt_roundHalfEven (n d k : Nat) (hd : 0 < d) (h : (2 * k + 1) * d < 2 * n) :
    k + 1 ≤ roundHalfEven n d := by
  unfold roundHalfEven
  have hdm := Nat.div_add_mod n d
  have hlt := Nat.mod_lt n hd
  have hq : k ≤ n / d := by
    apply (Nat.le_div_iff_mul_le hd).2
    nlinarith
  simp only
  by_cases hk : n / d = k
  · have hr : d < 2 * (n % d) := by
      rw [hk] at hdm
      nlinarith
    rw [if_neg (by omega), if_pos hr]
    omega
  · split_ifs <;> omega

theorem roundHalfEven_le_succ (n d : Nat) : roundHalfEven n d ≤ n / d + 1 := by
  unfold roundHalfEven
  simp only
  split_ifs <;> omega

theorem float64OfNat_exact (n : Nat) (h : n ≤ 2 ^ 53) : float64OfNat n = n := by
  by_cases h1 : n < 2 ^ 53
  · unfold float64OfNat
    rw [if_pos h1]
  · have : n = 2 ^ 53 := by omega
    subst this
    decide

theorem float64OfNat_large (n : Nat) (h : 2 ^ 53 ≤ n) (h1 : n < 2 ^ 63) :
    2 ^ 53 ≤ float64OfNat n ∧ float64OfNat n < 2 ^ 64 := by
  unfold float64OfNat
  rw [if_neg (by omega)]
  simp only
  have hk1 : 53 ≤ log2Floor n := le_log2Floor_of_le n 53 (by omega) (by omega) h
  have hk2 : log2Floor n ≤ 62 := log2Floor_le_of_lt n 62 (by omega) (by omega) h1
  obtain ⟨hs1, hs2⟩ := log2Floor_spec n (by omega) (by omega)
  generalize log2Floor n = k at hk1 hk2 hs1 hs2
  obtain ⟨e, rfl⟩ : ∃ e, k = 52 + e := ⟨k - 52, by omega⟩
  have he : 52 + e - 52 = e := by omega
  rw [he]
  have hpe : 0 < 2 ^ e := Nat.pow_pos (by norm_num)
  have hpe2 : 2 ≤ 2 ^ e := by
    calc 2 = 2 ^ 1 := by norm_num
      _ ≤ 2 ^ e := Nat.pow_le_pow_right (by norm_num) (by omega)
  have hpe3 : 2 ^ e ≤ 2 ^ 10 := Nat.pow_le_pow_right (by norm_num) (by omega)
  rw [pow_add] at hs1
  have hlow : 2 ^ 52 ≤ roundHalfEven n (2 ^ e) := le_roundHalfEven n (2 ^ e) (2 ^ 52) hpe hs1
  have hup := roundHalfEven_le_succ n (2 ^ e)
  have hdiv : n / 2 ^ e * 2 ^ e ≤ n := Nat.div_mul_le_self n (2 ^ e)
  constructor
  · calc 2 ^ 53 = 2 ^ 52 * 2 := by norm_num
      _ ≤ roundHalfEven n (2 ^ e) * 2 ^ e := Nat.mul_le_mul hlow hpe2
  · calc roundHalfEven n (2 ^ e) * 2 ^ e ≤ (n / 2 ^ e + 1) * 2 ^ e :=
          Nat.mul_le_mul_right _ hup
      _ = n / 2 ^ e * 2 ^ e + 2 ^ e := by ring
      _ < 2 ^ 64 := by
        norm_num at hpe3 h1 ⊢
        omega

/-- The scale chosen by `float64Quot` normalises the significand: the scaled quotient is at
least `2^52`. A negative scale arises only for `2^53 / 1`. -/
theorem quotExp_spec (a b : Nat) (ha : 0 < a) (ha2 : a ≤ 2 ^ 53) (hb : 0 < b)
    (hb2 : b < 2 ^ 64) :
    (52 - quotExp a b < 0 → a = 2 ^ 53 ∧ b = 1) ∧
      (0 ≤ 52 - quotExp a b → 2 ^ 52 * b ≤ a * 2 ^ (52 - quotExp a b).toNat) := by
  obtain ⟨ha3, ha4⟩ := log2Floor_spec a ha (by omega)
  obtain ⟨hb3, hb4⟩ := log2Floor_spec b hb hb2
  have hla : log2Floor a ≤ 53 := log2Floor_le_of_lt a 53 ha (by omega) (by omega)
  unfold quotExp
  generalize log2Floor a = la at ha3 ha4 hla ⊢
  generalize log2Floor b = lb at hb3 hb4 ⊢
  have hpla : 0 < 2 ^ la := Nat.pow_pos (by norm_num)
  by_cases hc : b * 2 ^ la ≤ a * 2 ^ lb
  · rw [if_pos hc]
    constructor
    · intro hneg
      have hla53 : la = 53 := by omega
      have hlb0 : lb = 0 := by omega
      subst hla53 hlb0
      norm_num at hb4 ha3 ha2 ⊢
      omega
    · intro hpos
      obtain ⟨s, hs⟩ : ∃ s : Nat, s + la = 52 + lb := ⟨52 + lb - la, by omega⟩
      have hsz : (52 - ((la : Int) - (lb : Int))).toNat = s := by omega
      rw [hsz]
      have hpow : 2 ^ s * 2 ^ la = 2 ^ 52 * 2 ^ lb := by
        rw [← pow_add, ← pow_add, hs]
      apply Nat.le_of_mul_le_mul_right _ hpla
      calc 2 ^ 52 * b * 2 ^ la = 2 ^ 52 * (b * 2 ^ la) := by ring
        _ ≤ 2 ^ 52 * (a * 2 ^ lb) := Nat.mul_le_mul_left _ hc
        _ = a * (2 ^ 52 * 2 ^ lb) := by ring
        _ = a * (2 ^ s * 2 ^ la) := by rw [hpow]
        _ = a * 2 ^ s * 2 ^ la := by ring
  · rw [if_neg hc]
    constructor
    · intro hneg
      omega
    · intro hpos
      obtain ⟨s, hs⟩ : ∃ s : Nat, s + la = 53 + lb := ⟨53 + lb - la, by omega⟩
      have hsz : (52 - ((la : Int) - (lb : Int) - 1)).toNat = s := by omega
      rw [hsz]
      have hpow : 2 ^ s * 2 ^ la = 2 ^ 52 * 2 ^ (lb + 1) := by
        rw [← pow_add, ← pow_add, hs]
        congr 1
        omega
      have hprod : b * 2 ^ la ≤ 2 ^ (lb + 1) * a := Nat.mul_le_mul (Nat.le_of_lt hb4) ha3
      apply Nat.le_of_mul_le_mul_right _ hpla
      calc 2 ^ 52 * b * 2 ^ la = 2 ^ 52 * (b * 2 ^ la) := by ring
        _ ≤ 2 ^ 52 * (2 ^ (lb + 1) * a) := Nat.mul_le_mul_left _ hprod
        _ = a * (2 ^ 52 * 2 ^ (lb + 1)) := by ring
        _ = a * (2 ^ s * 2 ^ la) := by rw [hpow]
        _ = a * 2 ^ s * 2 ^ la := by ring

/-- Rounding the quotient to a double and taking `math.Ceil` gives the integer ceiling, as long
as the dividend is at most `2^53`. -/
theorem ceilScaled_float64Quot (a b : Nat) (ha : 0 < a) (ha2 : a ≤ 2 ^ 53) (hb : 0 < b)
    (hb2 : b < 2 ^ 64) (hs : 0 ≤ 52 - quotExp a b) :
    ceilScaled (float64Quot a b).1 (float64Quot a b).2 = (a + b - 1) / b := by
  have hF1 := (quotExp_spec a b ha ha2 hb hb2).2 hs
  unfold float64Quot
  simp only [hs, if_true]
  unfold ceilScaled
  simp only [hs, if_true]
  generalize (52 - quotExp a b).toNat = s at hF1 ⊢
  have hP : 0 < 2 ^ s := Nat.pow_pos (by norm_num)
  generalize 2 ^ s = P at hF1 hP ⊢
  have hC1 : (a + b - 1) / b * b ≤ a + b - 1 := Nat.div_mul_le_self _ _
  have hC2 : a + b - 1 < b * ((a + b - 1) / b + 1) := Nat.lt_mul_div_succ _ hb
  generalize (a + b - 1) / b = C at hC1 hC2 ⊢
  have hCpos : 1 ≤ C := by
    by_contra hc
    have : C = 0 := by omega
    subst this
    omega
  obtain ⟨D, rfl⟩ : ∃ D, C = D + 1 := ⟨C - 1, by omega⟩
  have hC2a : a ≤ D * b + b := by
    have : b * (D + 1 + 1) = D * b + b + b := by ring
    omega
  have hC1a : D * b + 1 ≤ a := by
    have : (D + 1) * b = D * b + b := by ring
    omega
  have hbP : b ≤ 2 * P := by
    have h1 : a * P ≤ 2 ^ 53 * P := Nat.mul_le_mul_right _ ha2
    have h2 : 2 ^ 52 * b ≤ 2 ^ 52 * (2 * P) := by
      calc 2 ^ 52 * b ≤ a * P := hF1
        _ ≤ 2 ^ 53 * P := h1
        _ = 2 ^ 52 * (2 * P) := by ring
    exact Nat.le_of_mul_le_mul_left h2 (by norm_num)
  have hup : roundHalfEven (a * P) b ≤ (D + 1) * P := by
    apply roundHalfEven_le _ _ _ hb
    calc a * P ≤ (D * b + b) * P := Nat.mul_le_mul_right _ hC2a
      _ = (D + 1) * P * b := by ring
  have hlow : D * P + 1 ≤ roundHalfEven (a * P) b := by
    apply lt_roundHalfEven _ _ _ hb
    obtain ⟨δ, hδ⟩ : ∃ δ, a = D * b + δ := ⟨a - D * b, by omega⟩
    have hδ1 : 1 ≤ δ := by omega
    have hkey : b < 2 * (δ * P) := by
      by_cases hδ2 : 2 ≤ δ
      · have : 2 * P ≤ δ * P := Nat.mul_le_mul_right _ hδ2
        omega
      · have hδe : δ = 1 := by omega
        subst hδe
        rw [Nat.one_mul]
        by_contra hnot
        have hbe : b = 2 * P := by omega
        have h3 : 2 ^ 53 * P ≤ a * P := by
          calc 2 ^ 53 * P = 2 ^ 52 * (2 * P) := by ring
            _ = 2 ^ 52 * b := by rw [hbe]
            _ ≤ a * P := hF1
        have h4 : 2 ^ 53 ≤ a := Nat.le_of_mul_le_mul_right h3 hP
        have h5 : a = 2 * (D * P) + 1 := by
          rw [hδ, hbe]
          ring
        norm_num at h4 ha2
        omega
    calc (2 * (D * P) + 1) * b = 2 * (D * b * P) + b := by ring
      _ < 2 * (D * b * P) + 2 * (δ * P) := by omega
      _ = 2 * (a * P) := by
        rw [hδ]
        ring
  apply Nat.div_eq_of_lt_le
  · have : (D + 1) * P = D * P + P := by ring
    omega
  · have : (D + 1 + 1) * P = (D + 1) * P + P := by ring
    omega

/-- On totals up to `2^53` the page-count expression is the integer ceiling. -/
theorem ceilDivFloat64_eq (t l : Nat) (ht : t ≤ 2 ^ 53) (hl1 : 1 ≤ l) (hl2 : l < 2 ^ 63) :
    ceilDivFloat64 (t : Int) (l : Int) = (((t + l - 1) / l : Nat) : Int) := by
  unfold ceilDivFloat64
  simp only [Int.natAbs_ofNat]
  rw [float64OfNat_exact t ht]
  have hb : 1 ≤ float64OfNat l ∧ float64OfNat l < 2 ^ 64 ∧
      (t + float64OfNat l - 1) / float64OfNat l = (t + l - 1) / l := by
    by_cases hsmall : l ≤ 2 ^ 53
    · rw [float64OfNat_exact l hsmall]
      exact ⟨hl1, by omega, rfl⟩
    · obtain ⟨h1, h2⟩ := float64OfNat_large l (by omega) hl2
      refine ⟨by omega, h2, ?_⟩
      by_cases ht0 : t = 0
      · subst ht0
        rw [Nat.div_eq_of_lt (by omega), Nat.div_eq_of_lt (by omega)]
      · rw [Nat.div_eq_of_lt_le (k := 1) (by omega) (by omega),
          Nat.div_eq_of_lt_le (k := 1) (by omega) (by omega)]
  obtain ⟨hb1, hb2, hb3⟩ := hb
  have hexact : l ≤ 2 ^ 53 → float64OfNat l = l := float64OfNat_exact l
  have hlarge : ¬ l ≤ 2 ^ 53 → 2 ^ 53 ≤ float64OfNat l :=
    fun h => (float64OfNat_large l (by omega) hl2).1
  generalize float64OfNat l = b at hb1 hb2 hb3 hexact hlarge
  rw [if_neg (by omega)]
  by_cases ht0 : t = 0
  · subst ht0
    rw [if_pos rfl, Nat.zero_add, Nat.div_eq_of_lt (by omega)]
    rfl
  · rw [if_neg ht0]
    have hsign : decide ((t : Int) < 0) = decide ((l : Int) < 0) := by
      have h1 : ¬ ((t : Int) < 0) := by omega
      have h2 : ¬ ((l : Int) < 0) := by omega
      simp [h1, h2]
    simp only [hsign, if_true]
    by_cases hs : 0 ≤ 52 - quotExp t b
    · rw [ceilScaled_float64Quot t b (by omega) ht (by omega) hb2 hs, hb3]
      have hle : (t + l - 1) / l ≤ t := by
        apply Nat.div_le_of_le_mul
        obtain ⟨t1, rfl⟩ : ∃ t1, t = t1 + 1 := ⟨t - 1, by omega⟩
        obtain ⟨l1, rfl⟩ : ∃ l1, l = l1 + 1 := ⟨l - 1, by omega⟩
        have : (l1 + 1) * (t1 + 1) = l1 * t1 + l1 + t1 + 1 := by ring
        omega
      have hcond : minInt64 ≤ (((t + l - 1) / l : Nat) : Int) ∧
          (((t + l - 1) / l : Nat) : Int) ≤ maxInt64 := by
        have hle1 : (((t + l - 1) / l : Nat) : Int) ≤ (t : Int) := Int.ofNat_le.2 hle
        have hnn : (0 : Int) ≤ (((t + l - 1) / l : Nat) : Int) := Int.ofNat_nonneg _
        have ht1 : (t : Int) ≤ 2 ^ 53 := by exact_mod_cast ht
        generalize (((t + l - 1) / l : Nat) : Int) = c at hle1 hnn ⊢
        unfold minInt64 maxInt64
        constructor <;> omega
      unfold float64ToInt
      rw [if_pos hcond]
    · obtain ⟨hta, hba⟩ := (quotExp_spec t b (by omega) ht (by omega) hb2).1 (by omega)
      have hl : l = 1 := by
        by_cases hsmall : l ≤ 2 ^ 53
        · rw [← hexact hsmall]
          exact hba
        · have := hlarge hsmall
          norm_num at this
          omega
      subst hl hta hba
      decide

/-- The integer ceiling of `t / l`, computed in the naturals. -/
theorem ceil_div_eq (t l : Nat) (hl : 0 < l) :
    ⌈((t : Int) : ℚ) / ((l : Int) : ℚ)⌉ = (((t + l - 1) / l : Nat) : Int) := by
  rw [Int.ceil_eq_iff]
  have hlq : (0 : ℚ) < (l : ℚ) := by exact_mod_cast hl
  have h1 : (t + l - 1) / l * l ≤ t + l - 1 := Nat.div_mul_le_self _ _
  have h2 : t + l - 1 < l * ((t + l - 1) / l + 1) := Nat.lt_mul_div_succ _ hl
  generalize (t + l - 1) / l = C at h1 h2
  have h2a : t ≤ C * l := by
    have : l * (C + 1) = C * l + l := by ring
    omega
  have h1a : C * l < t + l := by omega
  simp only [Int.cast_natCast]
  constructor
  · rw [lt_div_iff₀ hlq]
    have : ((C * l : Nat) : ℚ) < ((t + l : Nat) : ℚ) := by exact_mod_cast h1a
    push_cast at this
    linarith
  · rw [div_le_iff₀ hlq]
    have : ((t : Nat) : ℚ) ≤ ((C * l : Nat) : ℚ) := by exact_mod_cast h2a
    push_cast at this
    linarith

/-- The shape of every successful `UserAchievementService.GetAll`. -/
theorem userAchievement_GetAll_ok (w w1 : World UserAchievement)
    (page limit : Option Int) (resp : PaginatedResponse UserAchievementListResponse)
    (h : UserAchievementService.GetAll w page limit = (w1, .ok resp)) :
    resp.Pagination =
      { Total := ((w.visible userAchievementModel).length : Int)
        Page := pageUsed page
        PageSize := limitUsed limit
        TotalPages :=
          if ceilDivFloat64 ((w.visible userAchievementModel).length : Int) (limitUsed limit) = 0
          then 1
          else
            ceilDivFloat64 ((w.visible userAchievementModel).length : Int) (limitUsed limit) } := by
  unfold UserAchievementService.GetAll at h
  simp only [dbCount_eq, dbFind_eq] at h
  rcases hc : (w.enter (.dbCount userAchievementModel.table)).1 with _ | e
  · rw [hc] at h
    simp only at h
    have hv := enter_visible userAchievementModel w (.dbCount userAchievementModel.table)
    rw [hv] at h
    split at h
    · cases h
    · rename_i w2 items hfind
      simp only [Prod.mk.injEq, Except.ok.injEq] at h
      obtain ⟨_, hresp⟩ := h
      subst hresp
      cases page <;> cases limit <;> rfl
  · rw [hc] at h
    simp only [World.logError, Prod.mk.injEq, reduceCtorEq, and_false] at h

/-- With no failure scripted, `UserAchievementService.GetAll` succeeds. -/
theorem userAchievement_GetAll_succeeds (w : World UserAchievement)
    (page limit : Option Int) (h : w.faults = []) :
    ∃ w1 resp, UserAchievementService.GetAll w page limit = (w1, .ok resp) := by
  unfold UserAchievementService.GetAll
  simp only [dbCount, dbFind, World.enter, h]
  exact ⟨_, _, rfl⟩

/-- The page count of `GetAll` for a total of at most `2^53` and a limit of at least 1. -/
theorem totalPages_eq (total : Nat) (l : Int) (ht : total ≤ 2 ^ 53) (hl : 1 ≤ l)
    (hl2 : l ≤ maxInt64) :
    (if ceilDivFloat64 (total : Int) l = 0 then 1 else ceilDivFloat64 (total : Int) l) =
      if (total : Int) = 0 then 1 else ⌈(((total : Int) : ℚ)) / (l : ℚ)⌉ := by
  obtain ⟨ln, rfl⟩ : ∃ ln : Nat, l = (ln : Int) := ⟨l.toNat, by omega⟩
  have hln1 : 1 ≤ ln := by omega
  have hln2 : ln < 2 ^ 63 := by
    unfold maxInt64 at hl2
    omega
  rw [ceilDivFloat64_eq total ln ht hln1 hln2, ceil_div_eq total ln (by omega)]
  by_cases ht0 : total = 0
  · subst ht0
    rw [Nat.zero_add, Nat.div_eq_of_lt (by omega)]
  · have hpos : 1 ≤ (total + ln - 1) / ln := by
      apply (Nat.le_div_iff_mul_le (by omega)).2
      omega
    have h1 : ¬ (((total + ln - 1) / ln : Nat) : Int) = 0 := by omega
    have h2 : ¬ ((total : Nat) : Int) = 0 := by omega
    rw [if_neg h1, if_neg h2]

theorem sampleWorld_visible_length (n : Nat) :
    ((sampleWorld n).visible achievementModel).length = n := by
  unfold World.visible sampleWorld
  rw [List.filter_eq_self.2, List.length_map, List.length_range]
  intro a ha
  rw [List.mem_map] at ha
  obtain ⟨i, _, rfl⟩ := ha
  rfl

/-- C3, as stated, fails: for a table of `2^53 + 1` records and limit 1, `GetAll` succeeds and
reports TotalPages `2^53`, while the integer ceiling of total / limit is `2^53 + 1`. -/
theorem getAll_total_pages_counterexample :
    ∃ w1 resp,
      AchievementService.GetAll (sampleWorld 9007199254740993) (some 1) (some 1) =
          (w1, .ok resp) ∧
        resp.Pagination.Total = 9007199254740993 ∧
        resp.Pagination.PageSize = 1 ∧
        resp.Pagination.TotalPages = 9007199254740992 ∧
        ⌈((9007199254740993 : Int) : ℚ) / ((1 : Int) : ℚ)⌉ = 9007199254740993 := by
  obtain ⟨w1, resp, h⟩ :=
    achievement_GetAll_succeeds (sampleWorld 9007199254740993) (some 1) (some 1) rfl
  obtain ⟨_, hpag⟩ := achievement_GetAll_ok _ w1 (some 1) (some 1) resp h
  rw [sampleWorld_visible_length] at hpag
  have hceil : ceilDivFloat64 ((9007199254740993 : Nat) : Int) (limitUsed (some 1)) =
      9007199254740992 := by decide
  rw [hceil] at hpag
  refine ⟨w1, resp, h, ?_, ?_, ?_, ?_⟩
  · rw [hpag]
    rfl
  · rw [hpag]
    rfl
  · rw [hpag]
    rfl
  · norm_num

/-- C3, amended. For every table of at most `2^53` records and every page and limit with
`1 ≤ limit` (an absent page defaulting to 1, an absent limit to 10), a successful `GetAll`
returns pagination metadata with Total the record count, Page the page used, PageSize the limit
used, and TotalPages the integer ceiling of total / limit, except that TotalPages is 1 when
total is 0; and `GetAll` does succeed unless a database call fails. Stated for the achievements
and the user-achievements service. -/
theorem getAll_pagination (w : World Achievement) (uw : World UserAchievement)
    (page limit : Option Int) (hl : 1 ≤ limitUsed limit) (hl2 : limitUsed limit ≤ maxInt64)
    (ht : (w.visible achievementModel).length ≤ 2 ^ 53)
    (hut : (uw.visible userAchievementModel).length ≤ 2 ^ 53) :
    (∀ w1 resp, AchievementService.GetAll w page limit = (w1, .ok resp) →
        resp.Pagination =
          { Total := ((w.visible achievementModel).length : Int)
            Page := pageUsed page
            PageSize := limitUsed limit
            TotalPages :=
              if ((w.visible achievementModel).length : Int) = 0 then 1
              else ⌈((((w.visible achievementModel).length : Int) : ℚ)) /
                (limitUsed limit : ℚ)⌉ }) ∧
      (∀ w1 resp, UserAchievementService.GetAll uw page limit = (w1, .ok resp) →
        resp.Pagination =
          { Total := ((uw.visible userAchievementModel).length : Int)
            Page := pageUsed page
            PageSize := limitUsed limit
            TotalPages :=
              if ((uw.visible userAchievementModel).length : Int) = 0 then 1
              else ⌈((((uw.visible userAchievementModel).length : Int) : ℚ)) /
                (limitUsed limit : ℚ)⌉ }) ∧
      (w.faults = [] → ∃ w1 resp, AchievementService.GetAll w page limit = (w1, .ok resp)) ∧
      (uw.faults = [] →
        ∃ w1 resp, UserAchievementService.GetAll uw page limit = (w1, .ok resp)) := by
  refine ⟨?_, ?_, achievement_GetAll_succeeds w page limit,
    userAchievement_GetAll_succeeds uw page limit⟩
  · intro w1 resp h
    rw [(achievement_GetAll_ok w w1 page limit resp h).2,
      totalPages_eq _ _ ht hl hl2]
  · intro w1 resp h
    rw [userAchievement_GetAll_ok uw w1 page limit resp h,
      totalPages_eq _ _ hut hl hl2]

/-- C3 (amended) at a concrete input: eleven rows and limit 4 give three pages. -/
theorem getAll_pagination_witness :
    (AchievementService.GetAll (sampleWorld 11) none (some 4)).2.toOption.map
        (fun resp => resp.Pagination) =
      some { Total := 11, Page := 1, PageSize := 4, TotalPages := 3 } :=
  have h := getAll_pagination (sampleWorld 11) {} none (some 4) (by decide) (by decide)
    (by decide) (by decide)
  by
    obtain ⟨w1, resp, hr⟩ := h.2.2.1 rfl
    rw [hr]
    have hp := h.1 w1 resp hr
    have hlen : ((sampleWorld 11).visible achievementModel).length = 11 := by decide
    rw [hlen] at hp
    have hceil : ⌈(((11 : Nat) : Int) : ℚ) / ((limitUsed (some 4) : Int) : ℚ)⌉ = 3 := by
      rw [Int.ceil_eq_iff]
      unfold limitUsed
      norm_num
    rw [hceil] at hp
    exact congrArg some hp

/-! ## Deleting a record that has an icon -/

/-- An item read by `First` without an eager-load request carries no icon. -/
theorem dbFirst_icon_none (w w1 : World Achievement) (id : Nat) (item : Achievement)
    (h : dbFirst achievementModel w {} id = (w1, .ok item)) : item.Icon = none := by
  unfold dbFirst at h
  split at h
  · cases h
  · split at h
    · cases h
    · simp only [Prod.mk.injEq, Except.ok.injEq] at h
      rw [← h.2]
      rfl

/-- The service Delete makes no storage call at all: besides the calls made before, the trace
holds the lookup and, when the lookup succeeds, the database delete. -/
theorem Delete_calls (w : World Achievement) (id : Nat) :
    (AchievementService.Delete w id).1.calls = w.calls ++ [Call.dbFirst "achievements" {} id] ∨
      ∃ k, (AchievementService.Delete w id).1.calls =
        w.calls ++ [Call.dbFirst "achievements" {} id, Call.dbDelete "achievements" k] := by
  have hc := dbFirst_calls achievementModel w {} id
  rcases hx : dbFirst achievementModel w {} id with ⟨w1, r⟩
  rw [hx] at hc
  simp only at hc
  cases r with
  | error e =>
    left
    simp only [AchievementService.Delete, hx, World.logError, hc]
    rfl
  | ok item =>
    right
    refine ⟨item.Id, ?_⟩
    have hicon := dbFirst_icon_none w w1 id item hx
    have hd : (dbDelete achievementModel w1 item.Id).1.calls =
        w1.calls ++ [Call.dbDelete "achievements" item.Id] := by
      unfold dbDelete
      rcases hy : w1.enter (.dbDelete achievementModel.table item.Id) with ⟨f, w2⟩
      have h1 := enter_calls w1 (.dbDelete achievementModel.table item.Id)
      rw [hy] at h1
      cases f <;> exact h1
    rcases hy : dbDelete achievementModel w1 item.Id with ⟨w2, r2⟩
    rw [hy] at hd
    simp only at hd
    cases r2 <;>
      simp only [AchievementService.Delete, hx, hicon, hy, World.logError, World.emit, hd, hc,
        List.append_assoc, List.singleton_append] <;> rfl

/-- C11 at a record that has an icon: Delete succeeds, makes the two database calls and no
storage call, the record is gone from the table, the delete event is emitted, and the icon file
is still in storage. -/
theorem delete_leaves_icon_in_storage :
    iconWorld.rows.map (fun r => r.Icon) = [some sampleIcon] ∧
      iconWorld.files = [sampleIcon] ∧
      (AchievementService.Delete iconWorld 1).2 = .ok () ∧
      (AchievementService.Delete iconWorld 1).1.calls =
        [Call.dbFirst "achievements" {} 1, Call.dbDelete "achievements" 1] ∧
      (AchievementService.Delete iconWorld 1).1.visible achievementModel = [] ∧
      (AchievementService.Delete iconWorld 1).1.events.map (fun e => e.1) =
        ["achievements.delete"] ∧
      (AchievementService.Delete iconWorld 1).1.files = [sampleIcon] := by
  decide

/-! ## Deleting the icon of a record -/

/-- C14 at a record that has an icon: `DELETE /achievements/1/icon` is answered with status 200
and "File deleted successfully", the storage is asked to delete no attachment, the change set
sent to the database is empty, and afterwards the stored record still references its icon and
the icon file is still in storage. -/
theorem deleteIcon_leaves_icon_reference :
    iconWorld.rows.map (fun r => r.Icon) = [some sampleIcon] ∧
      (AchievementController.DeleteIcon iconWorld "1").2 =
        ⟨200, .SuccessResponse "File deleted successfully"⟩ ∧
      (AchievementController.DeleteIcon iconWorld "1").1.calls =
        [Call.dbFirst "achievements" {} 1, Call.storageDelete none,
          Call.dbFirst "achievements" {} 1, Call.dbUpdates "achievements" 1 [],
          Call.dbFirst "achievements" {} 1] ∧
      (AchievementController.DeleteIcon iconWorld "1").1.rows.map (fun r => r.Icon) =
        [some sampleIcon] ∧
      (AchievementController.DeleteIcon iconWorld "1").1.files = [sampleIcon] := by
  decide

/-! ## Status codes of successful requests -/

/-- C13. A Create request whose body binds and whose service call succeeds is answered with
status 201 and the detailed response of the created item; Get, List, ListAll, Update and Delete
requests whose parameters parse and whose service call succeeds are answered with status 200:
Get and Update with the detailed response of the item, List and ListAll with the page, Delete
with the message "Item deleted successfully". -/
theorem success_status_codes (w w1 : World Achievement) (s pageStr limitStr : String) (id : Nat)
    (creq : CreateAchievementRequest) (ureq : UpdateAchievementRequest) (item : Achievement)
    (page limit : Option Int) (resp : PaginatedResponse AchievementListResponse)
    (hs : ParseUint s 32 = .ok id) :
    (AchievementService.Create w creq = (w1, .ok item) →
        AchievementController.Create w (.ok creq) =
          (w1, ⟨201, .item (Achievement.ToResponse (some item))⟩)) ∧
      (AchievementService.GetById w id = (w1, .ok item) →
        AchievementController.Get w s =
          (w1, ⟨200, .item (Achievement.ToResponse (some item))⟩)) ∧
      (AchievementService.Update w id ureq = (w1, .ok item) →
        AchievementController.Update w s (.ok ureq) =
          (w1, ⟨200, .item (Achievement.ToResponse (some item))⟩)) ∧
      (AchievementService.Delete w id = (w1, .ok ()) →
        AchievementController.Delete w s =
          (w1, ⟨200, .SuccessResponse "Item deleted successfully"⟩)) ∧
      (AchievementService.GetAll w none none = (w1, .ok resp) →
        AchievementController.ListAll w = (w1, ⟨200, .page resp⟩)) ∧
      ((pageStr = "" ∧ page = none ∨ ∃ n, Atoi pageStr = .ok n ∧ 0 < n ∧ page = some n) →
        (limitStr = "" ∧ limit = none ∨ ∃ n, Atoi limitStr = .ok n ∧ 0 < n ∧ limit = some n) →
        AchievementService.GetAll w page limit = (w1, .ok resp) →
        AchievementController.List w pageStr limitStr = (w1, ⟨200, .page resp⟩)) := by
  refine ⟨?_, ?_, ?_, ?_, ?_, ?_⟩
  · intro h
    simp only [AchievementController.Create, h]
    rfl
  · intro h
    simp only [AchievementController.Get, hs, h]
    rfl
  · intro h
    simp only [AchievementController.Update, hs, h]
    rfl
  · intro h
    simp only [AchievementController.Delete, hs, h]
    rfl
  · intro h
    simp only [AchievementController.ListAll, h]
    rfl
  · intro hp hl h
    have hpage : (if pageStr ≠ "" then
          match Atoi pageStr with
          | .ok pageNum => if pageNum > 0 then Except.ok (some pageNum) else Except.error ()
          | .error _ => Except.error ()
        else (Except.ok none : Except Unit (Option Int))) = .ok page := by
      rcases hp with ⟨h1, h2⟩ | ⟨n, h1, h2, h3⟩
      · simp [h1, h2]
      · have hne : pageStr ≠ "" := by
          intro he
          rw [he] at h1
          cases h1
        simp [hne, h1, h2, h3]
    have hlimit : (if limitStr ≠ "" then
          match Atoi limitStr with
          | .ok limitNum => if limitNum > 0 then Except.ok (some limitNum) else Except.error ()
          | .error _ => Except.error ()
        else (Except.ok none : Except Unit (Option Int))) = .ok limit := by
      rcases hl with ⟨h1, h2⟩ | ⟨n, h1, h2, h3⟩
      · simp [h1, h2]
      · have hne : limitStr ≠ "" := by
          intro he
          rw [he] at h1
          cases h1
        simp [hne, h1, h2, h3]
    unfold AchievementController.List
    simp only [hpage, hlimit, h]
    rfl

/-- C13 at concrete inputs: creating in a table of two records gives 201, reading record 1
gives 200, deleting record 2 gives 200 with the message. -/
theorem success_status_codes_witness :
    ParseUint "2" 32 = .ok 2 ∧
      (AchievementController.Create (sampleWorld 2) (.ok sampleCreate)).2.status = 201 ∧
      (AchievementController.Delete (sampleWorld 2) "2").2 =
        ⟨200, .SuccessResponse "Item deleted successfully"⟩ :=
  have h := success_status_codes (sampleWorld 2) (AchievementService.Delete (sampleWorld 2) 2).1
    "2" "" "" 2 sampleCreate {} (sampleRow 2) none none
    { Data := [], Pagination := { Total := 0, Page := 1, PageSize := 10, TotalPages := 1 } } rfl
  ⟨rfl, by decide, by rw [h.2.2.2.1 (Prod.ext rfl (by decide))]⟩

/-! ## Create, then read back -/

/-- The row appended under a fresh key is the one a lookup of that key finds. -/
theorem find_appended_row (rows : List Achievement) (row : Achievement)
    (hfresh : ∀ r ∈ rows, r.Id < row.Id) (hvis : row.DeletedAt = none) :
    ((rows ++ [row]).filter (fun r => (achievementModel.deletedAt r).isNone)).find?
      (fun r => decide (achievementModel.getId r = row.Id)) = some row := by
  induction rows with
  | nil =>
    simp [achievementModel, hvis]
  | cons a rest ih =>
    have ha : a.Id < row.Id := hfresh a (List.mem_cons_self a rest)
    have hrest : ∀ r ∈ rest, r.Id < row.Id := fun r hr => hfresh r (List.mem_cons_of_mem a hr)
    have hne : ¬ a.Id = row.Id := by omega
    rw [List.cons_append, List.filter_cons]
    split
    · rw [List.find?_cons]
      have : decide (achievementModel.getId a = row.Id) = false := by
        simp [achievementModel, hne]
      rw [this]
      exact ih hrest
    · exact ih hrest

theorem enter_nextId {α : Type} (w : World α) (c : Call) : (w.enter c).2.nextId = w.nextId := by
  unfold World.enter
  cases w.faults <;> rfl

theorem enter_files {α : Type} (w : World α) (c : Call) : (w.enter c).2.files = w.files := by
  unfold World.enter
  cases w.faults <;> rfl

theorem enter_clock {α : Type} (w : World α) (c : Call) : (w.enter c).2.clock = w.clock := by
  unfold World.enter
  cases w.faults <;> rfl

/-- What a successful `AchievementService.GetById` found, and that it leaves table, events and
log as they were. -/
theorem GetById_ok (w w1 : World Achievement) (id : Nat) (item : Achievement)
    (h : AchievementService.GetById w id = (w1, .ok item)) :
    (∃ r, (w.visible achievementModel).find? (fun r => decide (achievementModel.getId r = id)) =
        some r ∧ item = achievementModel.loaded [] r) ∧
      w1.rows = w.rows ∧ w1.events = w.events ∧ w1.logs = w.logs ∧
      w1.calls = w.calls ++ [Call.dbFirst "achievements" {} id] ∧ w1.files = w.files := by
  unfold AchievementService.GetById dbFirst at h
  have hr := enter_rows w (.dbFirst achievementModel.table (Achievement.Preload {}) id)
  have he := enter_events w (.dbFirst achievementModel.table (Achievement.Preload {}) id)
  have hl := enter_logs w (.dbFirst achievementModel.table (Achievement.Preload {}) id)
  have hc := enter_calls w (.dbFirst achievementModel.table (Achievement.Preload {}) id)
  have hfi := enter_files w (.dbFirst achievementModel.table (Achievement.Preload {}) id)
  have hv := enter_visible achievementModel w
    (.dbFirst achievementModel.table (Achievement.Preload {}) id)
  rcases hy : w.enter (.dbFirst achievementModel.table (Achievement.Preload {}) id)
    with ⟨g, wb⟩
  rw [hy] at hr he hl hv hc hfi
  simp only at hr he hl hv hc hfi
  simp only [hy] at h
  cases g with
  | some e => simp only [World.logError, Prod.mk.injEq, reduceCtorEq, and_false] at h
  | none =>
    simp only [hv] at h
    cases hfind : (w.visible achievementModel).find?
        (fun r => decide (achievementModel.getId r = id)) with
    | none =>
      rw [hfind] at h
      simp only [World.logError, Prod.mk.injEq, reduceCtorEq, and_false] at h
    | some r =>
      rw [hfind] at h
      simp only [Prod.mk.injEq, Except.ok.injEq] at h
      obtain ⟨hw, hitem⟩ := h
      rw [← hw]
      exact ⟨⟨r, rfl, hitem.symm⟩, hr, he, hl, hc, hfi⟩

/-- What a successful `AchievementService.Create` returns and leaves behind. -/
theorem Create_ok (w w1 : World Achievement) (req : CreateAchievementRequest)
    (item : Achievement) (hfresh : ∀ r ∈ w.rows, r.Id < w.nextId)
    (h : AchievementService.Create w req = (w1, .ok item)) :
    item =
        { Id := w.nextId, CreatedAt := w.clock, UpdatedAt := w.clock, Name := req.Name,
          Description := req.Description, Category := req.Category,
          DifficultyLevel := req.DifficultyLevel, IsHidden := req.IsHidden,
          IsActive := req.IsActive } ∧
      w1.rows = w.rows ++ [item] ∧
      w1.events = w.events ++ [("achievements.create", item)] ∧
      w1.logs = w.logs := by
  unfold AchievementService.Create dbCreate at h
  have hr := enter_rows w (.dbCreate achievementModel.table)
  have hn := enter_nextId w (.dbCreate achievementModel.table)
  have hc := enter_clock w (.dbCreate achievementModel.table)
  have he := enter_events w (.dbCreate achievementModel.table)
  have hl := enter_logs w (.dbCreate achievementModel.table)
  rcases hx : w.enter (.dbCreate achievementModel.table) with ⟨f, wa⟩
  rw [hx] at hr hn hc he hl
  simp only at hr hn hc he hl
  simp only [hx] at h
  cases f with
  | some e => simp only [World.logError, Prod.mk.injEq, reduceCtorEq, and_false] at h
  | none =>
    simp only [hr, hn, hc, World.emit, he] at h
    generalize hrow : achievementModel.inserted
        { Name := req.Name, Description := req.Description, Category := req.Category,
          DifficultyLevel := req.DifficultyLevel, IsHidden := req.IsHidden,
          IsActive := req.IsActive } w.nextId w.clock = row at h
    have hrowv : row =
        { Id := w.nextId, CreatedAt := w.clock, UpdatedAt := w.clock, Name := req.Name,
          Description := req.Description, Category := req.Category,
          DifficultyLevel := req.DifficultyLevel, IsHidden := req.IsHidden,
          IsActive := req.IsActive } := by
      rw [← hrow]
      rfl
    have hid : row.Id = w.nextId := by rw [hrowv]
    have hfind := find_appended_row w.rows row (by rw [hid]; exact hfresh) (by rw [hrowv])
    obtain ⟨⟨r, hr1, hr2⟩, hrows, hevents, hlogs, _, _⟩ := GetById_ok _ w1 row.Id item h
    simp only [World.visible] at hr1
    rw [hfind] at hr1
    injection hr1 with hr1
    subst hr1
    have hitem2 : item = row := by
      rw [hr2, hrowv]
      rfl
    rw [hrows, hevents, hlogs, hitem2, hl]
    exact ⟨hrowv, rfl, rfl, rfl⟩

/-- A lookup of the key of a stored visible row succeeds with that row, icon left out, when
the key is that of no earlier row and the call does not fail. -/
theorem GetById_appended (w : World Achievement) (rows : List Achievement) (row : Achievement)
    (hrows : w.rows = rows ++ [row]) (hfresh : ∀ r ∈ rows, r.Id < row.Id)
    (hvis : row.DeletedAt = none) (hicon : row.Icon = none) (hf : w.nextFault = none) :
    (AchievementService.GetById w row.Id).2 = .ok row := by
  unfold AchievementService.GetById dbFirst
  have hr := enter_rows w (.dbFirst achievementModel.table (Achievement.Preload {}) row.Id)
  have hn := enter_nextFault w (.dbFirst achievementModel.table (Achievement.Preload {}) row.Id)
  rcases hy : w.enter (.dbFirst achievementModel.table (Achievement.Preload {}) row.Id)
    with ⟨g, wb⟩
  rw [hy] at hr hn
  simp only at hr hn
  rw [hf] at hn
  subst hn
  have hfind := find_appended_row rows row hfresh hvis
  simp only [hy, World.visible, hr, hrows, hfind]
  show Except.ok (achievementModel.loaded [] row) = Except.ok row
  have : achievementModel.loaded [] row = row := by
    show ({ row with Icon := none } : Achievement) = row
    rw [← hicon]
  rw [this]

/-- With no failure scripted, `AchievementService.Create` succeeds. -/
theorem Create_succeeds (w : World Achievement) (req : CreateAchievementRequest)
    (hfresh : ∀ r ∈ w.rows, r.Id < w.nextId) (h : w.faults = []) :
    ∃ w1 item, AchievementService.Create w req = (w1, .ok item) := by
  have hfind := find_appended_row w.rows
    (achievementModel.inserted
      { Name := req.Name, Description := req.Description, Category := req.Category,
        DifficultyLevel := req.DifficultyLevel, IsHidden := req.IsHidden,
        IsActive := req.IsActive } w.nextId w.clock) hfresh rfl
  unfold AchievementService.Create AchievementService.GetById dbCreate dbFirst
  simp only [World.enter, h, World.emit, World.visible]
  rw [show (achievementModel.inserted
      { Name := req.Name, Description := req.Description, Category := req.Category,
        DifficultyLevel := req.DifficultyLevel, IsHidden := req.IsHidden,
        IsActive := req.IsActive } w.nextId w.clock).Id = w.nextId from rfl] at hfind ⊢
  rw [hfind]
  exact ⟨_, _, rfl⟩

/-- C12. With the table a store keyed by id whose next key is fresh, for every create request
for which Create succeeds: the item returned is the record a lookup of the new key finds in the
table, its Name, Description, Category, DifficultyLevel, IsHidden and IsActive are those of the
request, and a subsequent GetById on its id returns the same record; the stored record has no
icon, whatever the Icon of the request; and Create does succeed unless a database call
fails. -/
theorem create_then_get (w : World Achievement) (req : CreateAchievementRequest)
    (hfresh : ∀ r ∈ w.rows, r.Id < w.nextId) :
    (∀ w1 item, AchievementService.Create w req = (w1, .ok item) →
        (w1.visible achievementModel).find? (fun r => r.Id = item.Id) = some item ∧
          item.Id = w.nextId ∧
          item.Name = req.Name ∧ item.Description = req.Description ∧
          item.Category = req.Category ∧ item.DifficultyLevel = req.DifficultyLevel ∧
          item.IsHidden = req.IsHidden ∧ item.IsActive = req.IsActive ∧
          item.Icon = none ∧
          (w1.nextFault = none → (AchievementService.GetById w1 item.Id).2 = .ok item)) ∧
      (w.faults = [] → ∃ w1 item, AchievementService.Create w req = (w1, .ok item)) := by
  refine ⟨?_, Create_succeeds w req hfresh⟩
  intro w1 item h
  obtain ⟨hitem, hrows, _, _⟩ := Create_ok w w1 req item hfresh h
  have hid : item.Id = w.nextId := by rw [hitem]
  have hvis : item.DeletedAt = none := by rw [hitem]
  have hicon : item.Icon = none := by rw [hitem]
  have hfresh2 : ∀ r ∈ w.rows, r.Id < item.Id := by
    rw [hid]
    exact hfresh
  refine ⟨?_, hid, ?_, ?_, ?_, ?_, ?_, ?_, hicon, ?_⟩
  · have := find_appended_row w.rows item hfresh2 hvis
    simpa [World.visible, hrows, achievementModel] using this
  · rw [hitem]
  · rw [hitem]
  · rw [hitem]
  · rw [hitem]
  · rw [hitem]
  · rw [hitem]
  · intro hf
    exact GetById_appended w1 w.rows item hrows hfresh2 hvis hicon hf

/-- C12 at a concrete input: creating in a table of two records returns the record under
key 3, with the fields of the request. -/
theorem create_then_get_witness :
    (∀ r ∈ (sampleWorld 2).rows, r.Id < (sampleWorld 2).nextId) ∧
      (AchievementService.Create (sampleWorld 2) sampleCreate).2.toOption.map
          (fun item => (item.Id, item.Name, item.Icon)) = some (3, "Marathon", none) :=
  have hfresh : ∀ r ∈ (sampleWorld 2).rows, r.Id < (sampleWorld 2).nextId := by decide
  have h := create_then_get (sampleWorld 2) sampleCreate hfresh
  ⟨hfresh, by
    obtain ⟨w1, item, hc⟩ := h.2 rfl
    obtain ⟨_, hid, hname, _, _, _, _, _, hicon, _⟩ := h.1 w1 item hc
    rw [hc]
    show some (item.Id, item.Name, item.Icon) = _
    rw [hid, hname, hicon]
    rfl⟩

/-! ## Database and storage calls neither log nor emit -/

theorem dbFirst_frame {α : Type} (m : Model α) (w w1 : World α) (q : Query) (id : Nat)
    (r : Except String α) (h : dbFirst m w q id = (w1, r)) :
    w1.logs = w.logs ∧ w1.events = w.events := by
  have hl := enter_logs w (.dbFirst m.table q id)
  have he := enter_events w (.dbFirst m.table q id)
  unfold dbFirst at h
  rcases hx : w.enter (.dbFirst m.table q id) with ⟨f, wa⟩
  rw [hx] at hl he
  simp only [hx] at h
  cases f with
  | some e =>
    simp only [Prod.mk.injEq] at h
    rw [← h.1]
    exact ⟨hl, he⟩
  | none =>
    simp only at h
    split at h <;>
    · simp only [Prod.mk.injEq] at h
      rw [← h.1]
      exact ⟨hl, he⟩

theorem dbCreate_frame {α : Type} (m : Model α) (w w1 : World α) (item : α)
    (r : Except String α) (h : dbCreate m w item = (w1, r)) :
    w1.logs = w.logs ∧ w1.events = w.events := by
  have hl := enter_logs w (.dbCreate m.table)
  have he := enter_events w (.dbCreate m.table)
  unfold dbCreate at h
  rcases hx : w.enter (.dbCreate m.table) with ⟨f, wa⟩
  rw [hx] at hl he
  simp only [hx] at h
  cases f <;>
  · simp only [Prod.mk.injEq] at h
    rw [← h.1]
    exact ⟨hl, he⟩

theorem dbUpdates_frame {α : Type} (m : Model α) (w w1 : World α) (id : Nat) (u : Updates)
    (r : Except String Unit) (h : dbUpdates m w id u = (w1, r)) :
    w1.logs = w.logs ∧ w1.events = w.events := by
  have hl := enter_logs w (.dbUpdates m.table id u)
  have he := enter_events w (.dbUpdates m.table id u)
  unfold dbUpdates at h
  rcases hx : w.enter (.dbUpdates m.table id u) with ⟨f, wa⟩
  rw [hx] at hl he
  simp only [hx] at h
  cases f with
  | some e =>
    simp only [Prod.mk.injEq] at h
    rw [← h.1]
    exact ⟨hl, he⟩
  | none =>
    simp only at h
    split at h
    · simp only [Prod.mk.injEq] at h
      rw [← h.1]
      exact ⟨hl, he⟩
    · split at h <;>
      · simp only [Prod.mk.injEq] at h
        rw [← h.1]
        exact ⟨hl, he⟩

theorem dbDelete_frame {α : Type} (m : Model α) (w w1 : World α) (id : Nat)
    (r : Except String Unit) (h : dbDelete m w id = (w1, r)) :
    w1.logs = w.logs ∧ w1.events = w.events := by
  have hl := enter_logs w (.dbDelete m.table id)
  have he := enter_events w (.dbDelete m.table id)
  unfold dbDelete at h
  rcases hx : w.enter (.dbDelete m.table id) with ⟨f, wa⟩
  rw [hx] at hl he
  simp only [hx] at h
  cases f <;>
  · simp only [Prod.mk.injEq] at h
    rw [← h.1]
    exact ⟨hl, he⟩

theorem dbCount_frame {α : Type} (m : Model α) (w w1 : World α) (r : Except String Int)
    (h : dbCount m w = (w1, r)) : w1.logs = w.logs ∧ w1.events = w.events := by
  have hl := enter_logs w (.dbCount m.table)
  have he := enter_events w (.dbCount m.table)
  unfold dbCount at h
  rcases hx : w.enter (.dbCount m.table) with ⟨f, wa⟩
  rw [hx] at hl he
  simp only [hx] at h
  cases f <;>
  · simp only [Prod.mk.injEq] at h
    rw [← h.1]
    exact ⟨hl, he⟩

theorem dbFind_frame {α : Type} (m : Model α) (w w1 : World α) (q : Query)
    (r : Except String (List α)) (h : dbFind m w q = (w1, r)) :
    w1.logs = w.logs ∧ w1.events = w.events := by
  have hl := enter_logs w (.dbFind m.table q)
  have he := enter_events w (.dbFind m.table q)
  unfold dbFind at h
  rcases hx : w.enter (.dbFind m.table q) with ⟨f, wa⟩
  rw [hx] at hl he
  simp only [hx] at h
  cases f <;>
  · simp only [Prod.mk.injEq] at h
    rw [← h.1]
    exact ⟨hl, he⟩

theorem dbAssociationReplace_frame (w w1 : World Achievement) (id : Nat) (a : Attachment)
    (r : Except String Unit) (h : dbAssociationReplace w id a = (w1, r)) :
    w1.logs = w.logs ∧ w1.events = w.events := by
  have hl := enter_logs w (.dbAssociationReplace "achievements" id "Icon" a)
  have he := enter_events w (.dbAssociationReplace "achievements" id "Icon" a)
  unfold dbAssociationReplace at h
  rcases hx : w.enter (.dbAssociationReplace "achievements" id "Icon" a) with ⟨f, wa⟩
  rw [hx] at hl he
  simp only [hx] at h
  cases f <;>
  · simp only [Prod.mk.injEq] at h
    rw [← h.1]
    exact ⟨hl, he⟩

theorem dbAssociationClear_frame (w w1 : World Achievement) (id : Nat)
    (r : Except String Unit) (h : dbAssociationClear w id = (w1, r)) :
    w1.logs = w.logs ∧ w1.events = w.events := by
  have hl := enter_logs w (.dbAssociationClear "achievements" id "Icon")
  have he := enter_events w (.dbAssociationClear "achievements" id "Icon")
  unfold dbAssociationClear at h
  rcases hx : w.enter (.dbAssociationClear "achievements" id "Icon") with ⟨f, wa⟩
  rw [hx] at hl he
  simp only [hx] at h
  cases f <;>
  · simp only [Prod.mk.injEq] at h
    rw [← h.1]
    exact ⟨hl, he⟩

theorem storageDelete_frame {α : Type} (w w1 : World α) (a : Option Attachment)
    (r : Except String Unit) (h : storageDelete w a = (w1, r)) :
    w1.logs = w.logs ∧ w1.events = w.events := by
  have hl := enter_logs w (.storageDelete a)
  have he := enter_events w (.storageDelete a)
  unfold storageDelete at h
  rcases hx : w.enter (.storageDelete a) with ⟨f, wa⟩
  rw [hx] at hl he
  simp only [hx] at h
  cases f with
  | some e =>
    simp only [Prod.mk.injEq] at h
    rw [← h.1]
    exact ⟨hl, he⟩
  | none =>
    simp only at h
    split at h <;>
    · simp only [Prod.mk.injEq] at h
      rw [← h.1]
      exact ⟨hl, he⟩

theorem storageAttach_frame {α : Type} (w w1 : World α) (model : String) (id : Nat)
    (field : String) (file : FileHeader) (r : Except String Attachment)
    (h : storageAttach w model id field file = (w1, r)) :
    w1.logs = w.logs ∧ w1.events = w.events := by
  have hl := enter_logs w (.storageAttach model id field file)
  have he := enter_events w (.storageAttach model id field file)
  unfold storageAttach at h
  rcases hx : w.enter (.storageAttach model id field file) with ⟨f, wa⟩
  rw [hx] at hl he
  simp only [hx] at h
  cases f <;>
  · simp only [Prod.mk.injEq] at h
    rw [← h.1]
    exact ⟨hl, he⟩

/-! ## Log entries and events of the service operations -/

/-- `GetById` emits nothing, logs nothing on success and one entry on failure. -/
theorem GetById_effect (w w1 : World Achievement) (id : Nat) (r : Except String Achievement)
    (h : AchievementService.GetById w id = (w1, r)) :
    w1.events = w.events ∧
      (∀ item, r = .ok item → w1.logs = w.logs) ∧
      (∀ e, r = .error e → w1.logs = w.logs ++ ["failed to get achievement"]) := by
  rcases hx : dbFirst achievementModel w (Achievement.Preload {}) id with ⟨wa, ra⟩
  obtain ⟨hl, he⟩ := dbFirst_frame achievementModel w wa _ id ra hx
  simp only [AchievementService.GetById, hx] at h
  cases ra with
  | error e =>
    simp only [Prod.mk.injEq] at h
    obtain ⟨hw, hr⟩ := h
    subst hw hr
    refine ⟨he, ?_, ?_⟩
    · intro item hi
      cases hi
    · intro e1 _
      simp only [World.logError, hl]
  | ok item =>
    simp only [Prod.mk.injEq] at h
    obtain ⟨hw, hr⟩ := h
    subst hw hr
    refine ⟨he, ?_, ?_⟩
    · intro _ _
      exact hl
    · intro e1 hi
      cases hi

/-- Every outcome of `Create`: one log entry on failure, none on success; the create event is
emitted once, and only when the insert has succeeded. -/
theorem Create_effect (w w1 : World Achievement) (req : CreateAchievementRequest)
    (r : Except String Achievement) (h : AchievementService.Create w req = (w1, r)) :
    (∀ e, r = .error e → ∃ m, w1.logs = w.logs ++ [m]) ∧
      (∀ item, r = .ok item → w1.logs = w.logs ∧
        ∃ p, w1.events = w.events ++ [("achievements.create", p)]) ∧
      (w1.events = w.events ∨
        ∃ wa p, w1.events = w.events ++ [("achievements.create", p)] ∧
          dbCreate achievementModel w
            { Name := req.Name, Description := req.Description, Category := req.Category,
              DifficultyLevel := req.DifficultyLevel, IsHidden := req.IsHidden,
              IsActive := req.IsActive } = (wa, .ok p)) := by
  rcases hx : dbCreate achievementModel w
      { Name := req.Name, Description := req.Description, Category := req.Category,
        DifficultyLevel := req.DifficultyLevel, IsHidden := req.IsHidden,
        IsActive := req.IsActive } with ⟨wa, ra⟩
  obtain ⟨hl, he⟩ := dbCreate_frame achievementModel w wa _ ra hx
  simp only [AchievementService.Create, hx] at h
  cases ra with
  | error e =>
    simp only [Prod.mk.injEq] at h
    obtain ⟨hw, hr⟩ := h
    subst hw hr
    refine ⟨?_, ?_, Or.inl he⟩
    · intro _ _
      exact ⟨_, by simp only [World.logError, hl]; rfl⟩
    · intro item hi
      cases hi
  | ok row =>
    simp only at h
    obtain ⟨hge, hgok, hgerr⟩ := GetById_effect _ w1 row.Id r h
    have hev : w1.events = w.events ++ [("achievements.create", row)] := by
      rw [hge]
      simp only [World.emit, he]
      rfl
    refine ⟨?_, ?_, Or.inr ⟨wa, row, hev, rfl⟩⟩
    · intro e hr
      refine ⟨"failed to get achievement", ?_⟩
      rw [hgerr e hr]
      simp only [World.emit, hl]
    · intro item hr
      refine ⟨?_, row, hev⟩
      rw [hgok item hr]
      simp only [World.emit, hl]

/-- Every outcome of `Update`: on failure one log entry, or two when the read-back of the
updated record fails; on success none; the update event is emitted once, on success only, after
the update call has succeeded. -/
theorem Update_effect (w w1 : World Achievement) (id : Nat) (req : UpdateAchievementRequest)
    (r : Except String Achievement) (h : AchievementService.Update w id req = (w1, r)) :
    (∀ e, r = .error e →
        (∃ m, w1.logs = w.logs ++ [m]) ∨
          w1.logs = w.logs ++ ["failed to get achievement", "failed to get updated achievement"]) ∧
      (∀ item, r = .ok item → w1.logs = w.logs ∧
        w1.events = w.events ++ [("achievements.update", item)] ∧
        ∃ wa found wb, dbFirst achievementModel w {} id = (wa, .ok found) ∧
          dbUpdates achievementModel wa found.Id (AchievementService.buildUpdates req) =
            (wb, .ok ())) ∧
      (∀ e, r = .error e → w1.events = w.events) := by
  rcases hx : dbFirst achievementModel w {} id with ⟨wa, ra⟩
  obtain ⟨hl, he⟩ := dbFirst_frame achievementModel w wa _ id ra hx
  cases ra with
  | error e =>
    simp only [AchievementService.Update, hx, Prod.mk.injEq] at h
    obtain ⟨hw, hr⟩ := h
    subst hw hr
    refine ⟨?_, ?_, ?_⟩
    · intro _ _
      exact Or.inl ⟨_, by simp only [World.logError, hl]; rfl⟩
    · intro item hi
      cases hi
    · intro _ _
      exact he
  | ok found =>
    rcases hy : dbUpdates achievementModel wa found.Id (AchievementService.buildUpdates req)
      with ⟨wb, rb⟩
    obtain ⟨hl2, he2⟩ := dbUpdates_frame achievementModel wa wb _ _ rb hy
    cases rb with
    | error e =>
      simp only [AchievementService.Update, hx, hy, Prod.mk.injEq] at h
      obtain ⟨hw, hr⟩ := h
      subst hw hr
      refine ⟨?_, ?_, ?_⟩
      · intro _ _
        exact Or.inl ⟨_, by simp only [World.logError, hl2, hl]; rfl⟩
      · intro item hi
        cases hi
      · intro _ _
        rw [← he, ← he2]
        rfl
    | ok u =>
      rcases hz : AchievementService.GetById wb found.Id with ⟨wc, rc⟩
      obtain ⟨hge, hgok, hgerr⟩ := GetById_effect wb wc found.Id rc hz
      cases rc with
      | error e =>
        simp only [AchievementService.Update, hx, hy, hz, Prod.mk.injEq] at h
        obtain ⟨hw, hr⟩ := h
        subst hw hr
        refine ⟨?_, ?_, ?_⟩
        · intro _ _
          right
          simp only [World.logError, hgerr e rfl, hl2, hl, List.append_assoc,
            List.singleton_append]
        · intro item hi
          cases hi
        · intro _ _
          rw [← he, ← he2, ← hge]
          rfl
      | ok result =>
        simp only [AchievementService.Update, hx, hy, hz, Prod.mk.injEq] at h
        obtain ⟨hw, hr⟩ := h
        subst hw hr
        refine ⟨?_, ?_, ?_⟩
        · intro e hi
          cases hi
        · intro item hi
          injection hi with hi
          subst hi
          refine ⟨?_, ?_, wa, found, wb, rfl, ?_⟩
          · simp only [World.emit, hgok result rfl, hl2, hl]
          · simp only [World.emit, hge, he2, he]
            rfl
          · rw [hy]
        · intro e hi
          cases hi

/-- Every outcome of `Delete`: one log entry on failure, none on success; the delete event is
emitted once, on success only, after the delete call has succeeded. -/
theorem Delete_effect (w w1 : World Achievement) (id : Nat) (r : Except String Unit)
    (h : AchievementService.Delete w id = (w1, r)) :
    (∀ e, r = .error e → ∃ m, w1.logs = w.logs ++ [m]) ∧
      (r = .ok () → w1.logs = w.logs ∧
        ∃ wa found wb, w1.events = w.events ++ [("achievements.delete", found)] ∧
          dbFirst achievementModel w {} id = (wa, .ok found) ∧
          dbDelete achievementModel wa found.Id = (wb, .ok ())) ∧
      (∀ e, r = .error e → w1.events = w.events) := by
  rcases hx : dbFirst achievementModel w {} id with ⟨wa, ra⟩
  obtain ⟨hl, he⟩ := dbFirst_frame achievementModel w wa _ id ra hx
  cases ra with
  | error e =>
    simp only [AchievementService.Delete, hx, Prod.mk.injEq] at h
    obtain ⟨hw, hr⟩ := h
    subst hw hr
    refine ⟨?_, ?_, ?_⟩
    · intro _ _
      exact ⟨_, by simp only [World.logError, hl]; rfl⟩
    · intro hi
      cases hi
    · intro _ _
      exact he
  | ok found =>
    have hicon := dbFirst_icon_none w wa id found hx
    rcases hy : dbDelete achievementModel wa found.Id with ⟨wb, rb⟩
    obtain ⟨hl2, he2⟩ := dbDelete_frame achievementModel wa wb _ rb hy
    cases rb with
    | error e =>
      simp only [AchievementService.Delete, hx, hicon, hy, Prod.mk.injEq] at h
      obtain ⟨hw, hr⟩ := h
      subst hw hr
      refine ⟨?_, ?_, ?_⟩
      · intro _ _
        exact ⟨_, by simp only [World.logError, hl2, hl]; rfl⟩
      · intro hi
        cases hi
      · intro _ _
        rw [← he, ← he2]
        rfl
    | ok u =>
      simp only [AchievementService.Delete, hx, hicon, hy, Prod.mk.injEq] at h
      obtain ⟨hw, hr⟩ := h
      subst hw hr
      refine ⟨?_, ?_, ?_⟩
      · intro e hi
        cases hi
      · intro _
        refine ⟨?_, wa, found, wb, ?_, rfl, ?_⟩
        · simp only [World.emit, hl2, hl]
        · simp only [World.emit, he2, he]
          rfl
        · rw [hy]
      · intro e hi
        cases hi

/-- A failing `GetAll` logs one entry. -/
theorem GetAll_error_logs (w w1 : World Achievement) (page limit : Option Int) (e : String)
    (h : AchievementService.GetAll w page limit = (w1, .error e)) :
    ∃ m, w1.logs = w.logs ++ [m] := by
  rcases hx : dbCount achievementModel w with ⟨wa, ra⟩
  obtain ⟨hl, _⟩ := dbCount_frame achievementModel w wa ra hx
  unfold AchievementService.GetAll at h
  simp only [hx] at h
  cases ra with
  | error e1 =>
    simp only [Prod.mk.injEq] at h
    rw [← h.1]
    exact ⟨_, by simp only [World.logError, hl]; rfl⟩
  | ok total =>
    simp only at h
    split at h
    · rename_i wb err hfind
      obtain ⟨hl2, _⟩ := dbFind_frame achievementModel wa wb _ _ hfind
      simp only [Prod.mk.injEq] at h
      rw [← h.1]
      exact ⟨_, by simp only [World.logError, hl2, hl]; rfl⟩
    · simp only [Prod.mk.injEq, reduceCtorEq, and_false] at h

/-- A failing `UploadIcon` logs one entry. -/
theorem UploadIcon_error_logs (w w1 : World Achievement) (id : Nat) (file : FileHeader)
    (e : String) (h : AchievementService.UploadIcon w id file = (w1, .error e)) :
    ∃ m, w1.logs = w.logs ++ [m] := by
  rcases hx : dbFirst achievementModel w {} id with ⟨wa, ra⟩
  obtain ⟨hl, _⟩ := dbFirst_frame achievementModel w wa _ id ra hx
  cases ra with
  | error e1 =>
    simp only [AchievementService.UploadIcon, hx, Prod.mk.injEq] at h
    rw [← h.1]
    exact ⟨_, by simp only [World.logError, hl]; rfl⟩
  | ok found =>
    have hicon := dbFirst_icon_none w wa id found hx
    rcases hy : storageAttach wa "achievement" found.Id "icon" file with ⟨wb, rb⟩
    obtain ⟨hl2, _⟩ := storageAttach_frame wa wb _ _ _ _ rb hy
    cases rb with
    | error e1 =>
      simp only [AchievementService.UploadIcon, hx, hicon, hy, Prod.mk.injEq] at h
      rw [← h.1]
      exact ⟨_, by simp only [World.logError, hl2, hl]; rfl⟩
    | ok attachment =>
      rcases hz : dbAssociationReplace wb found.Id attachment with ⟨wc, rc⟩
      obtain ⟨hl3, _⟩ := dbAssociationReplace_frame wb wc _ _ rc hz
      cases rc with
      | error e1 =>
        simp only [AchievementService.UploadIcon, hx, hicon, hy, hz, Prod.mk.injEq] at h
        rw [← h.1]
        exact ⟨_, by simp only [World.logError, hl3, hl2, hl]; rfl⟩
      | ok u =>
        simp only [AchievementService.UploadIcon, hx, hicon, hy, hz] at h
        obtain ⟨_, _, hgerr⟩ := GetById_effect wc w1 id _ h
        exact ⟨"failed to get achievement", by rw [hgerr e rfl, hl3, hl2, hl]⟩

/-- A failing `RemoveIcon` logs one entry. -/
theorem RemoveIcon_error_logs (w w1 : World Achievement) (id : Nat) (e : String)
    (h : AchievementService.RemoveIcon w id = (w1, .error e)) :
    ∃ m, w1.logs = w.logs ++ [m] := by
  rcases hx : dbFirst achievementModel w {} id with ⟨wa, ra⟩
  obtain ⟨hl, _⟩ := dbFirst_frame achievementModel w wa _ id ra hx
  cases ra with
  | error e1 =>
    simp only [AchievementService.RemoveIcon, hx, Prod.mk.injEq] at h
    rw [← h.1]
    exact ⟨_, by simp only [World.logError, hl]; rfl⟩
  | ok found =>
    have hicon := dbFirst_icon_none w wa id found hx
    simp only [AchievementService.RemoveIcon, hx, hicon, Prod.mk.injEq, reduceCtorEq,
      and_false] at h

/-! ## One event per successful write, one log entry per failure -/

/-- C16. A Create, Update or Delete call of the achievements service that returns without error
emits exactly one event, named "achievements.create", "achievements.update" and
"achievements.delete" respectively; in every outcome an event is emitted only when the
corresponding database write (insert, update, delete) has succeeded; and in each service of the
repository the three event names are the table name followed by ".create", ".update" and
".delete". -/
theorem success_emits_one_event (w w1 : World Achievement) (id : Nat)
    (creq : CreateAchievementRequest) (ureq : UpdateAchievementRequest) (item : Achievement)
    (rc : Except String Achievement) (e : String) :
    (AchievementService.Create w creq = (w1, .ok item) →
        ∃ p, w1.events = w.events ++ [("achievements.create", p)]) ∧
      (AchievementService.Update w id ureq = (w1, .ok item) →
        w1.events = w.events ++ [("achievements.update", item)]) ∧
      (AchievementService.Delete w id = (w1, .ok ()) →
        ∃ p, w1.events = w.events ++ [("achievements.delete", p)]) ∧
      (AchievementService.Create w creq = (w1, rc) →
        w1.events = w.events ∨
          ∃ wa p, w1.events = w.events ++ [("achievements.create", p)] ∧
            dbCreate achievementModel w
              { Name := creq.Name, Description := creq.Description, Category := creq.Category,
                DifficultyLevel := creq.DifficultyLevel, IsHidden := creq.IsHidden,
                IsActive := creq.IsActive } = (wa, .ok p)) ∧
      (AchievementService.Update w id ureq = (w1, .ok item) →
        ∃ wa found wb, dbFirst achievementModel w {} id = (wa, .ok found) ∧
          dbUpdates achievementModel wa found.Id (AchievementService.buildUpdates ureq) =
            (wb, .ok ())) ∧
      (AchievementService.Update w id ureq = (w1, .error e) → w1.events = w.events) ∧
      (AchievementService.Delete w id = (w1, .ok ()) →
        ∃ wa found wb, dbFirst achievementModel w {} id = (wa, .ok found) ∧
          dbDelete achievementModel wa found.Id = (wb, .ok ())) ∧
      (AchievementService.Delete w id = (w1, .error e) → w1.events = w.events) ∧
      (∀ t ∈ serviceEvents,
        t.2.2.1 = t.2.1 ++ ".create" ∧ t.2.2.2.1 = t.2.1 ++ ".update" ∧
          t.2.2.2.2 = t.2.1 ++ ".delete") := by
  refine ⟨?_, ?_, ?_, ?_, ?_, ?_, ?_, ?_, by decide⟩
  · intro h
    exact ((Create_effect w w1 creq _ h).2.1 item rfl).2
  · intro h
    exact ((Update_effect w w1 id ureq _ h).2.1 item rfl).2.1
  · intro h
    obtain ⟨_, wa, found, wb, hev, _, _⟩ := (Delete_effect w w1 id _ h).2.1 rfl
    exact ⟨found, hev⟩
  · intro h
    exact (Create_effect w w1 creq _ h).2.2
  · intro h
    exact ((Update_effect w w1 id ureq _ h).2.1 item rfl).2.2
  · intro h
    exact (Update_effect w w1 id ureq _ h).2.2 e rfl
  · intro h
    obtain ⟨_, wa, found, wb, _, h1, h2⟩ := (Delete_effect w w1 id _ h).2.1 rfl
    exact ⟨wa, found, wb, h1, h2⟩
  · intro h
    exact (Delete_effect w w1 id _ h).2.2 e rfl

/-- An `Update` that returns an error, by cause: the lookup failed (one entry), the update
statement failed (one entry), or both succeeded and the read-back failed (the two entries of
`GetById` and `Update`). -/
theorem Update_error_logs (w w1 : World Achievement) (id : Nat) (req : UpdateAchievementRequest)
    (e : String) (h : AchievementService.Update w id req = (w1, .error e)) :
    (∃ wa err, dbFirst achievementModel w {} id = (wa, .error err) ∧
        w1.logs = w.logs ++ ["failed to find achievement for update"]) ∨
      (∃ wa found wb err, dbFirst achievementModel w {} id = (wa, .ok found) ∧
        dbUpdates achievementModel wa found.Id (AchievementService.buildUpdates req) =
          (wb, .error err) ∧
        w1.logs = w.logs ++ ["failed to update achievement"]) ∨
      (∃ wa found wb err, dbFirst achievementModel w {} id = (wa, .ok found) ∧
        dbUpdates achievementModel wa found.Id (AchievementService.buildUpdates req) =
          (wb, .ok ()) ∧
        (AchievementService.GetById wb found.Id).2 = .error err ∧
        w1.logs =
          w.logs ++ ["failed to get achievement", "failed to get updated achievement"]) := by
  rcases hx : dbFirst achievementModel w {} id with ⟨wa, ra⟩
  obtain ⟨hl, _⟩ := dbFirst_frame achievementModel w wa _ id ra hx
  cases ra with
  | error err =>
    simp only [AchievementService.Update, hx, Prod.mk.injEq] at h
    obtain ⟨hw, _⟩ := h
    subst hw
    exact Or.inl ⟨wa, err, rfl, by simp only [World.logError, hl]⟩
  | ok found =>
    rcases hy : dbUpdates achievementModel wa found.Id (AchievementService.buildUpdates req)
      with ⟨wb, rb⟩
    obtain ⟨hl2, _⟩ := dbUpdates_frame achievementModel wa wb _ _ rb hy
    cases rb with
    | error err =>
      simp only [AchievementService.Update, hx, hy, Prod.mk.injEq] at h
      obtain ⟨hw, _⟩ := h
      subst hw
      exact Or.inr (Or.inl ⟨wa, found, wb, err, rfl, hy,
        by simp only [World.logError, hl2, hl]⟩)
    | ok u =>
      rcases hz : AchievementService.GetById wb found.Id with ⟨wc, rc⟩
      obtain ⟨_, _, hgerr⟩ := GetById_effect wb wc found.Id rc hz
      cases rc with
      | error err =>
        simp only [AchievementService.Update, hx, hy, hz, Prod.mk.injEq] at h
        obtain ⟨hw, _⟩ := h
        subst hw
        refine Or.inr (Or.inr ⟨wa, found, wb, err, rfl, hy, by rw [hz], ?_⟩)
        simp only [World.logError, hgerr err rfl, hl2, hl, List.append_assoc,
          List.singleton_append]
      | ok result =>
        simp only [AchievementService.Update, hx, hy, hz, Prod.mk.injEq, reduceCtorEq,
          and_false] at h

/-- C17, as stated, fails: when the read-back after a successful update fails, `Update` returns
an error and two log entries have been written, one by `GetById` and one by `Update`. -/
theorem update_logs_twice_counterexample :
    (AchievementService.Update readBackFailsWorld 1 { Name := "Second steps" }).2 =
        .error
          "failed to get updated achievement: failed to get achievement: connection lost" ∧
      readBackFailsWorld.logs = [] ∧
      (AchievementService.Update readBackFailsWorld 1 { Name := "Second steps" }).1.logs =
        ["failed to get achievement", "failed to get updated achievement"] := by
  decide

/-- C17, amended. Every service operation (Create, Update, Delete, GetById, GetAll, UploadIcon,
RemoveIcon) that returns an error has written exactly one error log entry during the call,
except Update when the read-back of the updated record fails: an Update whose lookup fails
writes the one entry "failed to find achievement for update", one whose update statement fails
writes the one entry "failed to update achievement", and one whose lookup and update statement
succeed and whose read-back fails writes two entries, "failed to get achievement" by GetById and
"failed to get updated achievement" by Update. -/
theorem error_log_entries (w w1 : World Achievement) (id : Nat)
    (creq : CreateAchievementRequest) (ureq : UpdateAchievementRequest) (file : FileHeader)
    (page limit : Option Int) (e : String) :
    (AchievementService.Create w creq = (w1, .error e) → ∃ m, w1.logs = w.logs ++ [m]) ∧
      (AchievementService.Delete w id = (w1, .error e) → ∃ m, w1.logs = w.logs ++ [m]) ∧
      (AchievementService.GetById w id = (w1, .error e) → ∃ m, w1.logs = w.logs ++ [m]) ∧
      (AchievementService.GetAll w page limit = (w1, .error e) →
        ∃ m, w1.logs = w.logs ++ [m]) ∧
      (AchievementService.UploadIcon w id file = (w1, .error e) →
        ∃ m, w1.logs = w.logs ++ [m]) ∧
      (AchievementService.RemoveIcon w id = (w1, .error e) → ∃ m, w1.logs = w.logs ++ [m]) ∧
      (AchievementService.Update w id ureq = (w1, .error e) →
        (∃ wa err, dbFirst achievementModel w {} id = (wa, .error err) ∧
            w1.logs = w.logs ++ ["failed to find achievement for update"]) ∨
          (∃ wa found wb err, dbFirst achievementModel w {} id = (wa, .ok found) ∧
            dbUpdates achievementModel wa found.Id (AchievementService.buildUpdates ureq) =
              (wb, .error err) ∧
            w1.logs = w.logs ++ ["failed to update achievement"]) ∨
          (∃ wa found wb err, dbFirst achievementModel w {} id = (wa, .ok found) ∧
            dbUpdates achievementModel wa found.Id (AchievementService.buildUpdates ureq) =
              (wb, .ok ()) ∧
            (AchievementService.GetById wb found.Id).2 = .error err ∧
            w1.logs =
              w.logs ++
                ["failed to get achievement", "failed to get updated achievement"])) := by
  refine ⟨?_, ?_, ?_, ?_, ?_, ?_, ?_⟩
  · intro h
    exact (Create_effect w w1 creq _ h).1 e rfl
  · intro h
    exact (Delete_effect w w1 id _ h).1 e rfl
  · intro h
    exact ⟨_, (GetById_effect w w1 id _ h).2.2 e rfl⟩
  · exact GetAll_error_logs w w1 page limit e
  · exact UploadIcon_error_logs w w1 id file e
  · exact RemoveIcon_error_logs w w1 id e
  · exact Update_error_logs w w1 id ureq e

/-! ## Routes, projections and preloads of the thirteen entities -/

/-- C15. Every controller registers exactly the six CRUD routes GET /p, GET /p/all, GET /p/:id,
POST /p, PUT /p/:id and DELETE /p/:id for its own plural p, followed by PUT and DELETE
/p/:id/icon exactly when its model has an image attachment field; the models with such a field
are Achievement and Level, and the Icon of PointType is a plain string. There is one controller
for each of the thirteen models, each under a plural of its own. -/
theorem controller_routes :
    (∀ c ∈ controllerDecls,
        c.routes =
          crudRoutes (plural c.package) ++
            (if c.model.hasAttachment then iconRoutes (plural c.package) else [])) ∧
      (∀ m ∈ modelDecls, m ∈ controllerDecls.map fun c => c.model) ∧
      controllerDecls.length = modelDecls.length ∧
      (controllerDecls.map fun c => plural c.package).Nodup ∧
      ((modelDecls.filter ModelDecl.hasAttachment).map fun m => m.name) =
        ["Achievement", "Level"] ∧
      pointTypeDecl.fields.filter (fun f => f.name = "Icon") =
        [⟨"Icon", .scalar "string"⟩] := by
  decide

theorem project_some {V : Type} (entries : List (String × String)) (item : String → V) :
    project entries (some item) = some (entries.map fun e => (e.1, item e.2)) := rfl

theorem map_entries_of_fields {V : Type} (fs : List StructField) (item : String → V) :
    ((fs.map fun f => (f.name, f.name)).map fun e => (e.1, item e.2)) =
      fs.map fun f => (f.name, item f.name) := by
  simp [List.map_map, Function.comp_def]

theorem foldl_Preload (names : List String) (db : Query) :
    names.foldl Query.Preload db = { db with preloads := db.preloads ++ names } := by
  induction names generalizing db with
  | nil => simp
  | cons n ns ih => simp [List.foldl_cons, ih, Query.Preload]

/-- C19, as stated, fails: `Icon` is the one relation field of an achievement, and the list
response keeps it. -/
theorem list_response_keeps_icon_counterexample :
    ((achievementDecl.fields.filter StructField.isRelation).map fun f => f.name) = ["Icon"] ∧
      ("Icon", "Icon") ∈ achievementDecl.toListResponse ∧
      ((Achievement.ToListResponse (some { sampleRow 1 with Icon := some sampleIcon })).map
        fun r => r.Icon) = some (some sampleIcon) := by
  decide

/-- C19, amended. For every model, ToResponse and ToListResponse return nil for a nil item; for a
non-nil item ToResponse copies every field of the model unchanged, and ToListResponse copies
every field except DeletedAt and the fields that point to another model (User and Achievement of
a UserAchievement), so it agrees with ToResponse on every field it has; the foreign-key id of
each omitted relation is kept, and so is the Icon attachment of an Achievement or a Level. -/
theorem response_projection (V : Type) (item : String → V) (a : Achievement)
    (u : UserAchievement) :
    (∀ m ∈ modelDecls,
        m.ToResponse (none : Option (String → V)) = none ∧
          m.ToListResponse (none : Option (String → V)) = none ∧
          m.ToResponse (some item) = some (m.fields.map fun f => (f.name, item f.name)) ∧
          m.ToListResponse (some item) =
            some ((m.fields.filter fun f => !f.omittedFromList).map
              fun f => (f.name, item f.name)) ∧
          (∀ f ∈ m.fields, f.isModelRelation = true →
            ∃ g ∈ m.fields, g.name = f.name ++ "Id" ∧ g.omittedFromList = false) ∧
          (∀ f ∈ m.fields, f.isAttachment = true → f.omittedFromList = false)) ∧
      Achievement.ToResponse none = none ∧ Achievement.ToListResponse none = none ∧
      Achievement.ToResponse (some a) =
        some ⟨a.Id, a.CreatedAt, a.UpdatedAt, a.DeletedAt, a.Name, a.Description, a.Icon,
          a.Category, a.DifficultyLevel, a.IsHidden, a.IsActive⟩ ∧
      Achievement.ToListResponse (some a) =
        some ⟨a.Id, a.CreatedAt, a.UpdatedAt, a.Name, a.Description, a.Icon, a.Category,
          a.DifficultyLevel, a.IsHidden, a.IsActive⟩ ∧
      UserAchievement.ToResponse none = none ∧ UserAchievement.ToListResponse none = none ∧
      UserAchievement.ToResponse (some u) =
        some ⟨u.Id, u.CreatedAt, u.UpdatedAt, u.DeletedAt, u.UserId, u.User, u.AchievementId,
          u.Achievement, u.Progress, u.CompletedAt⟩ ∧
      UserAchievement.ToListResponse (some u) =
        some ⟨u.Id, u.CreatedAt, u.UpdatedAt, u.UserId, u.AchievementId, u.Progress,
          u.CompletedAt⟩ := by
  refine ⟨?_, rfl, rfl, rfl, rfl, rfl, rfl, rfl, rfl⟩
  intro m hm
  have hdecl : ∀ m ∈ modelDecls,
      m.toResponse = (m.fields.map fun f => (f.name, f.name)) ∧
        m.toListResponse =
          ((m.fields.filter fun f => !f.omittedFromList).map fun f => (f.name, f.name)) ∧
        (∀ f ∈ m.fields, f.isModelRelation = true →
          ∃ g ∈ m.fields, g.name = f.name ++ "Id" ∧ g.omittedFromList = false) ∧
        (∀ f ∈ m.fields, f.isAttachment = true → f.omittedFromList = false) := by
    decide
  obtain ⟨h1, h2, h3, h4⟩ := hdecl m hm
  refine ⟨rfl, rfl, ?_, ?_, h3, h4⟩
  · rw [ModelDecl.ToResponse, project_some, h1, map_entries_of_fields]
  · rw [ModelDecl.ToListResponse, project_some, h2, map_entries_of_fields]

/-- C20: `Preload` of an achievement returns the query it is given, although `Icon` is a relation
field of the model: no eager-load request is added for it. The same holds for a level. For every
model `Preload` adds, in order, one request for each field that points to another model and
changes nothing else, so the attachment relations are the only ones left out; for a user
achievement the requests are "User" and "Achievement". -/
theorem preload_skips_icon (db : Query) :
    Achievement.Preload db = db ∧
      achievementDecl.Preload db = db ∧
      ((achievementDecl.fields.filter StructField.isRelation).map fun f => f.name) = ["Icon"] ∧
      levelDecl.Preload db = db ∧
      ((levelDecl.fields.filter StructField.isRelation).map fun f => f.name) = ["Icon"] ∧
      (Achievement.Preload {}).preloads = [] ∧
      UserAchievement.Preload db = { db with preloads := db.preloads ++ ["User", "Achievement"] } ∧
      (∀ m ∈ modelDecls,
        m.Preload db =
          { db with
            preloads :=
              db.preloads ++ (m.fields.filter StructField.isModelRelation).map fun f => f.name }) ∧
      ((modelDecls.filter fun m =>
          m.preload ≠ (m.fields.filter StructField.isRelation).map fun f => f.name).map
        fun m => m.name) = ["Achievement", "Level"] := by
  have hdecl : ∀ m ∈ modelDecls,
      m.preload = (m.fields.filter StructField.isModelRelation).map fun f => f.name := by
    decide
  refine ⟨rfl, rfl, by decide, rfl, by decide, rfl, ?_, ?_, by decide⟩
  · simp [UserAchievement.Preload, Query.Preload]
  · intro m hm
    rw [ModelDecl.Preload, foldl_Preload, hdecl m hm]

/-! ## Module initialisation -/

theorem initializeModule_eq (st : InitState) (m : Module) :
    initializeModule st m =
      { modules := st.modules ++ (if m.succeeded then [m] else []),
        calls := st.calls ++ moduleCalls m,
        logs := (initializeModule st m).logs } := by
  rcases m with ⟨n, r, i, g, hr⟩
  cases r <;> cases i <;> cases g <;> cases hr <;>
    simp [initializeModule, Module.succeeded, moduleCalls]

theorem foldl_initializeModule (ms : List Module) (st : InitState) :
    (ms.foldl initializeModule st).modules = st.modules ++ ms.filter Module.succeeded ∧
      (ms.foldl initializeModule st).calls = st.calls ++ (ms.map moduleCalls).flatten := by
  induction ms generalizing st with
  | nil => simp
  | cons m ms ih =>
    rw [List.foldl_cons]
    obtain ⟨h1, h2⟩ := ih (initializeModule st m)
    rw [h1, h2, initializeModule_eq st m]
    by_cases hm : m.succeeded = true <;> simp [List.filter_cons, hm]

theorem mounted_moduleCalls (m : Module) :
    (moduleCalls m).filterMap (fun c =>
        match c with
        | .Routes n => some n
        | _ => none) =
      if m.succeeded && m.hasRoutes then [m.name] else [] := by
  rcases m with ⟨n, r, i, g, hr⟩
  cases r <;> cases i <;> cases g <;> cases hr <;> simp [Module.succeeded, moduleCalls]

theorem mounted_flatten (ms : List Module) :
    (ms.map moduleCalls).flatten.filterMap (fun c =>
        match c with
        | .Routes n => some n
        | _ => none) =
      (ms.filter fun m => m.succeeded && m.hasRoutes).map fun m => m.name := by
  induction ms with
  | nil => simp
  | cons m ms ih =>
    rw [List.map_cons, List.flatten_cons, List.filterMap_append, ih, mounted_moduleCalls]
    by_cases hm : (m.succeeded && m.hasRoutes) = true <;> simp [List.filter_cons, hm]

theorem moduleCalls_mem (m : Module) :
    ModuleCall.RegisterModule m.name ∈ moduleCalls m ∧
      (m.registerError = none → ModuleCall.Init m.name ∈ moduleCalls m) ∧
      (m.registerError = none → m.initError = none →
        ModuleCall.Migrate m.name ∈ moduleCalls m) := by
  rcases m with ⟨n, r, i, g, hr⟩
  cases r <;> cases i <;> cases g <;> cases hr <;> simp [moduleCalls]

/-- C18. Whatever registration, Init and Migrate return for the individual modules,
InitializeModules returns exactly the modules for which all three succeeded, in the order
visited; it mounts the routes of exactly those of them that have a Routes method; and each module
is registered, initialised when its registration succeeded and migrated when its Init succeeded,
whatever happened to the other modules: the calls made are those of each module on its own, one
module after the other. -/
theorem initializeModules_result (moduleMap : List Module) :
    (InitializeModules moduleMap).modules = moduleMap.filter Module.succeeded ∧
      (InitializeModules moduleMap).mounted =
        ((moduleMap.filter fun m => m.succeeded && m.hasRoutes).map fun m => m.name) ∧
      (InitializeModules moduleMap).calls = (moduleMap.map moduleCalls).flatten ∧
      (∀ m ∈ moduleMap,
        ModuleCall.RegisterModule m.name ∈ (InitializeModules moduleMap).calls ∧
          (m.registerError = none →
            ModuleCall.Init m.name ∈ (InitializeModules moduleMap).calls) ∧
          (m.registerError = none → m.initError = none →
            ModuleCall.Migrate m.name ∈ (InitializeModules moduleMap).calls)) ∧
      (InitializeModules sampleModules).modules = [{ name := "challenges" }] ∧
      (InitializeModules sampleModules).mounted = ["challenges"] := by
  obtain ⟨h1, h2⟩ := foldl_initializeModule moduleMap {}
  have hc : (InitializeModules moduleMap).calls = (moduleMap.map moduleCalls).flatten := by
    simpa [InitializeModules] using h2
  refine ⟨by simpa [InitializeModules] using h1, ?_, hc, ?_, by decide, by decide⟩
  · rw [InitState.mounted, hc, mounted_flatten]
  · intro m hm
    have hsub : ∀ c ∈ moduleCalls m, c ∈ (InitializeModules moduleMap).calls := by
      intro c hcm
      rw [hc, List.mem_flatten]
      exact ⟨moduleCalls m, List.mem_map_of_mem _ hm, hcm⟩
    obtain ⟨k1, k2, k3⟩ := moduleCalls_mem m
    exact ⟨hsub _ k1, fun hr => hsub _ (k2 hr), fun hr hi => hsub _ (k3 hr hi)⟩

/-! ## An update of a missing record, and removing an icon that is not there -/

/-- A lookup changes nothing but the trace of calls and the script. -/
theorem dbFirst_fst {α : Type} (m : Model α) (w : World α) (q : Query) (id : Nat) :
    (dbFirst m w q id).1 = (w.enter (.dbFirst m.table q id)).2 := by
  unfold dbFirst
  rcases hx : w.enter (.dbFirst m.table q id) with ⟨f, w1⟩
  cases f with
  | some e => rfl
  | none =>
    simp only
    split <;> rfl

/-- A lookup that the script lets run finds the first visible row with the key. -/
theorem dbFirst_found {α : Type} (m : Model α) (w : World α) (q : Query) (id : Nat) (r : α)
    (hf : w.nextFault = none)
    (h : (w.visible m).find? (fun x => m.getId x = id) = some r) :
    (dbFirst m w q id).2 = .ok (m.loaded q.preloads r) := by
  unfold dbFirst
  rcases hx : w.enter (.dbFirst m.table q id) with ⟨f, w1⟩
  have hf1 := enter_nextFault w (.dbFirst m.table q id)
  rw [hx, hf] at hf1
  simp only at hf1
  subst hf1
  have hv : w1.visible m = w.visible m := by
    have := enter_visible m w (.dbFirst m.table q id)
    rw [hx] at this
    exact this
  simp only [hv, h]

/-- C23. Update is atomic on a missing record: whenever the initial lookup of the id fails with
an error `err` (the record is missing or the database call fails), the service Update returns
"failed to find achievement: " followed by `err`; the only database call it has made is that
lookup, so no update is issued; no event is emitted; and the rows and the files are as before.
The same holds for the user-achievements service, with the text "failed to find
userachievement: ". -/
theorem update_missing_record_is_atomic (w wa : World Achievement)
    (uw uwa : World UserAchievement) (id : Nat) (req : UpdateAchievementRequest)
    (ureq : UpdateUserAchievementRequest) (err uerr : String)
    (h : dbFirst achievementModel w {} id = (wa, .error err))
    (hu : dbFirst userAchievementModel uw {} id = (uwa, .error uerr)) :
    ((AchievementService.Update w id req).2 = .error ("failed to find achievement: " ++ err) ∧
        (AchievementService.Update w id req).1.calls =
          w.calls ++ [Call.dbFirst "achievements" {} id] ∧
        (AchievementService.Update w id req).1.events = w.events ∧
        (AchievementService.Update w id req).1.rows = w.rows ∧
        (AchievementService.Update w id req).1.files = w.files) ∧
      ((UserAchievementService.Update uw id ureq).2 =
          .error ("failed to find userachievement: " ++ uerr) ∧
        (UserAchievementService.Update uw id ureq).1.calls =
          uw.calls ++ [Call.dbFirst "userachievements" {} id] ∧
        (UserAchievementService.Update uw id ureq).1.events = uw.events ∧
        (UserAchievementService.Update uw id ureq).1.rows = uw.rows ∧
        (UserAchievementService.Update uw id ureq).1.files = uw.files) := by
  have hw : wa = (w.enter (.dbFirst achievementModel.table {} id)).2 := by
    rw [← dbFirst_fst, h]
  have huw : uwa = (uw.enter (.dbFirst userAchievementModel.table {} id)).2 := by
    rw [← dbFirst_fst, hu]
  constructor
  · unfold AchievementService.Update
    simp only [h, World.logError]
    rw [hw]
    exact ⟨trivial, enter_calls _ _, enter_events _ _, enter_rows _ _, enter_files _ _⟩
  · unfold UserAchievementService.Update
    simp only [hu, World.logError]
    rw [huw]
    exact ⟨trivial, enter_calls _ _, enter_events _ _, enter_rows _ _, enter_files _ _⟩

/-- C23 at a concrete input: key 9 in a table holding the keys 1 to 3, and in an empty table of
user achievements. -/
theorem update_missing_record_is_atomic_witness :
    (AchievementService.Update (sampleWorld 3) 9 { Name := "Second steps" }).2 =
        .error "failed to find achievement: record not found" ∧
      (AchievementService.Update (sampleWorld 3) 9 { Name := "Second steps" }).1.calls =
        [Call.dbFirst "achievements" {} 9] ∧
      (AchievementService.Update (sampleWorld 3) 9 { Name := "Second steps" }).1.rows =
        (sampleWorld 3).rows :=
  have h := update_missing_record_is_atomic (sampleWorld 3)
    (dbFirst achievementModel (sampleWorld 3) {} 9).1 {}
    (dbFirst userAchievementModel {} {} 9).1 9 { Name := "Second steps" } { Progress := "5" }
    "record not found" "record not found" rfl rfl
  ⟨h.1.1, h.1.2.1, h.1.2.2.2.1⟩

/-- C28. RemoveIcon on an existing record that has no icon (the lookup runs and finds the row
`r`, whose Icon is nil) returns that record without error; the only call it makes is the lookup,
so there is no storage deletion and no database write; rows, files, events and logs are as
before. -/
theorem removeIcon_without_icon (w : World Achievement) (id : Nat) (r : Achievement)
    (hf : w.nextFault = none)
    (hfind : (w.visible achievementModel).find? (fun x => x.Id = id) = some r)
    (hicon : r.Icon = none) :
    (AchievementService.RemoveIcon w id).2 = .ok r ∧
      (AchievementService.RemoveIcon w id).1.calls =
        w.calls ++ [Call.dbFirst "achievements" {} id] ∧
      (AchievementService.RemoveIcon w id).1.rows = w.rows ∧
      (AchievementService.RemoveIcon w id).1.files = w.files ∧
      (AchievementService.RemoveIcon w id).1.events = w.events ∧
      (AchievementService.RemoveIcon w id).1.logs = w.logs := by
  have h2 := dbFirst_found achievementModel w {} id r hf hfind
  have h1 := dbFirst_fst achievementModel w {} id
  have hr : achievementModel.loaded ({} : Query).preloads r = r := by
    cases r
    simp only at hicon
    subst hicon
    rfl
  rw [hr] at h2
  rcases hx : dbFirst achievementModel w {} id with ⟨w1, res⟩
  rw [hx] at h1 h2
  simp only at h1 h2
  subst h2
  unfold AchievementService.RemoveIcon
  simp only [hx, hicon]
  rw [h1]
  exact ⟨trivial, enter_calls _ _, enter_rows _ _, enter_files _ _, enter_events _ _,
    enter_logs _ _⟩

/-- C28 at a concrete input: record 2 of a table of three records without icons. -/
theorem removeIcon_without_icon_witness :
    (AchievementService.RemoveIcon (sampleWorld 3) 2).2 = .ok (sampleRow 2) ∧
      (AchievementService.RemoveIcon (sampleWorld 3) 2).1.calls =
        [Call.dbFirst "achievements" {} 2] :=
  have h := removeIcon_without_icon (sampleWorld 3) 2 (sampleRow 2) rfl (by decide) rfl
  ⟨h.1, h.2.1⟩

/-! ## Events of failed calls, and the storage calls of an icon upload -/

/-- C22, as stated, fails: when the insert succeeds and the read-back of the created record
fails, `Create` returns an error although the create event has been emitted. -/
theorem create_error_after_event_counterexample :
    (AchievementService.Create insertThenFailWorld sampleCreate).2 =
        .error "failed to get achievement: connection lost" ∧
      insertThenFailWorld.events = [] ∧
      (AchievementService.Create insertThenFailWorld sampleCreate).1.events.map
        (fun ev => (ev.1, ev.2.Id, ev.2.Name)) = [("achievements.create", 2, "Marathon")] := by
  decide

/-- C22, amended. An Update or Delete call that returns an error has emitted no event. A Create
call that returns an error has emitted no event when the insert failed; when the insert
succeeded and the read-back of the created record failed, it has emitted the create event
once, before the read-back. -/
theorem error_emits_no_event_unless_created (w w1 : World Achievement) (id : Nat)
    (creq : CreateAchievementRequest) (ureq : UpdateAchievementRequest) (e : String) :
    (AchievementService.Update w id ureq = (w1, .error e) → w1.events = w.events) ∧
      (AchievementService.Delete w id = (w1, .error e) → w1.events = w.events) ∧
      (AchievementService.Create w creq = (w1, .error e) →
        (w1.events = w.events ∧
            ∃ wa err,
              dbCreate achievementModel w
                { Name := creq.Name, Description := creq.Description,
                  Category := creq.Category, DifficultyLevel := creq.DifficultyLevel,
                  IsHidden := creq.IsHidden, IsActive := creq.IsActive } = (wa, .error err)) ∨
          ∃ wa p,
            dbCreate achievementModel w
                { Name := creq.Name, Description := creq.Description,
                  Category := creq.Category, DifficultyLevel := creq.DifficultyLevel,
                  IsHidden := creq.IsHidden, IsActive := creq.IsActive } = (wa, .ok p) ∧
              AchievementService.GetById (wa.emit "achievements.create" p) p.Id =
                (w1, .error e) ∧
              w1.events = w.events ++ [("achievements.create", p)]) := by
  refine ⟨?_, ?_, ?_⟩
  · intro h
    exact (Update_effect w w1 id ureq _ h).2.2 e rfl
  · intro h
    exact (Delete_effect w w1 id _ h).2.2 e rfl
  · intro h
    rcases hx : dbCreate achievementModel w
        { Name := creq.Name, Description := creq.Description, Category := creq.Category,
          DifficultyLevel := creq.DifficultyLevel, IsHidden := creq.IsHidden,
          IsActive := creq.IsActive } with ⟨wa, ra⟩
    obtain ⟨_, he⟩ := dbCreate_frame achievementModel w wa _ ra hx
    simp only [AchievementService.Create, hx] at h
    cases ra with
    | error err =>
      simp only [Prod.mk.injEq] at h
      obtain ⟨hw, _⟩ := h
      subst hw
      exact Or.inl ⟨he, wa, err, rfl⟩
    | ok row =>
      simp only at h
      obtain ⟨hge, _, _⟩ := GetById_effect _ w1 row.Id _ h
      refine Or.inr ⟨wa, row, rfl, h, ?_⟩
      rw [hge]
      simp only [World.emit, he]
      rfl

theorem storageAttach_calls {α : Type} (w : World α) (model : String) (id : Nat)
    (field : String) (file : FileHeader) :
    (storageAttach w model id field file).1.calls =
      w.calls ++ [Call.storageAttach model id field file] := by
  unfold storageAttach
  have h1 := enter_calls w (.storageAttach model id field file)
  rcases hx : w.enter (.storageAttach model id field file) with ⟨f, w1⟩
  rw [hx] at h1
  cases f <;> exact h1

theorem dbAssociationReplace_calls (w : World Achievement) (id : Nat) (a : Attachment) :
    (dbAssociationReplace w id a).1.calls =
      w.calls ++ [Call.dbAssociationReplace "achievements" id "Icon" a] := by
  unfold dbAssociationReplace
  have h1 := enter_calls w (.dbAssociationReplace "achievements" id "Icon" a)
  rcases hx : w.enter (.dbAssociationReplace "achievements" id "Icon" a) with ⟨f, w1⟩
  rw [hx] at h1
  cases f <;> exact h1

/-- A record found under a key has that key. -/
theorem dbFirst_ok_id (w w1 : World Achievement) (q : Query) (id : Nat) (item : Achievement)
    (h : dbFirst achievementModel w q id = (w1, .ok item)) : item.Id = id := by
  unfold dbFirst at h
  rcases hx : w.enter (.dbFirst achievementModel.table q id) with ⟨f, wa⟩
  simp only [hx] at h
  cases f with
  | some e => simp only [Prod.mk.injEq, reduceCtorEq, and_false] at h
  | none =>
    simp only at h
    split at h
    · simp only [Prod.mk.injEq, reduceCtorEq, and_false] at h
    · rename_i r hfind
      simp only [Prod.mk.injEq, Except.ok.injEq] at h
      have hid := List.find?_some hfind
      simp only [decide_eq_true_eq] at hid
      rw [← h.2, ← hid]
      simp only [achievementModel]
      split <;> rfl

/-- The calls of a successful `AchievementService.UploadIcon`: the lookup, one `Storage.Attach`,
the replacement of the association and the read-back. -/
theorem UploadIcon_ok_calls (w w1 : World Achievement) (id : Nat) (file : FileHeader)
    (item : Achievement) (h : AchievementService.UploadIcon w id file = (w1, .ok item)) :
    ∃ a, w1.calls =
      w.calls ++ [Call.dbFirst "achievements" {} id, Call.storageAttach "achievement" id "icon" file,
        Call.dbAssociationReplace "achievements" id "Icon" a,
        Call.dbFirst "achievements" {} id] := by
  have hc1 := dbFirst_calls achievementModel w {} id
  rcases hx : dbFirst achievementModel w {} id with ⟨wa, ra⟩
  rw [hx] at hc1
  simp only [AchievementService.UploadIcon, hx] at h
  cases ra with
  | error e => simp only [World.logError, Prod.mk.injEq, reduceCtorEq, and_false] at h
  | ok found =>
    have hicon := dbFirst_icon_none w wa id found hx
    have hid := dbFirst_ok_id w wa {} id found hx
    simp only [hicon] at h
    have hc2 := storageAttach_calls wa "achievement" found.Id "icon" file
    rcases hy : storageAttach wa "achievement" found.Id "icon" file with ⟨wb, rb⟩
    rw [hy] at hc2
    simp only [hy] at h
    cases rb with
    | error e => simp only [World.logError, Prod.mk.injEq, reduceCtorEq, and_false] at h
    | ok att =>
      simp only at h
      have hc3 := dbAssociationReplace_calls wb found.Id att
      rcases hz : dbAssociationReplace wb found.Id att with ⟨wc, rc⟩
      rw [hz] at hc3
      simp only [hz] at h
      cases rc with
      | error e => simp only [World.logError, Prod.mk.injEq, reduceCtorEq, and_false] at h
      | ok u =>
        simp only at h
        obtain ⟨_, _, _, _, hc4, _⟩ := GetById_ok wc w1 id item h
        refine ⟨att, ?_⟩
        rw [hc4, hc3, hc2, hc1, hid]
        simp only [achievementModel, List.append_assoc, List.cons_append, List.nil_append]

/-- C27: every icon upload answered with status 200 has invoked the storage Attach operation
twice for the uploaded file, once in the controller and once in the service. For record 1 of a
one-record table the file is stored twice, and the record references the second copy. -/
theorem uploadIcon_attaches_twice :
    (∀ (w : World Achievement) (idParam : String) (file : Option FileHeader),
        (AchievementController.UploadIcon w idParam file).2.status = 200 →
          ∃ f id, file = some f ∧ ParseUint idParam 32 = .ok id ∧
            (AchievementController.UploadIcon w idParam file).1.attachCalls =
              w.attachCalls ++
                [Call.storageAttach "achievement" id "icon" f,
                  Call.storageAttach "achievement" id "icon" f]) ∧
      (AchievementController.UploadIcon (sampleWorld 1) "1" (some sampleFile)).2.status = 200 ∧
      (AchievementController.UploadIcon (sampleWorld 1) "1" (some sampleFile)).1.attachCalls =
        [Call.storageAttach "achievement" 1 "icon" sampleFile,
          Call.storageAttach "achievement" 1 "icon" sampleFile] ∧
      (AchievementController.UploadIcon (sampleWorld 1) "1" (some sampleFile)).1.files =
        [{ Id := 1, ModelType := "achievement", ModelId := 1, Field := "icon",
            Filename := "medal.png" },
          { Id := 2, ModelType := "achievement", ModelId := 1, Field := "icon",
            Filename := "medal.png" }] ∧
      (AchievementController.UploadIcon (sampleWorld 1) "1" (some sampleFile)).1.rows.map
          (fun r => r.Icon.map fun a => a.Id) = [some 2] := by
  refine ⟨?_, by decide, by decide, by decide, by decide⟩
  intro w idParam file hst
  cases hp : ParseUint idParam 32 with
  | error e =>
    simp [AchievementController.UploadIcon, hp, StatusBadRequest] at hst
  | ok id =>
    cases file with
    | none => simp [AchievementController.UploadIcon, hp, StatusBadRequest] at hst
    | some f =>
      rcases hg : AchievementService.GetById w id with ⟨w1, r1⟩
      cases r1 with
      | error e => simp [AchievementController.UploadIcon, hp, hg, StatusNotFound] at hst
      | ok item =>
        obtain ⟨_, _, _, _, hc1, _⟩ := GetById_ok w w1 id item hg
        have hid : item.Id = id := by
          unfold AchievementService.GetById at hg
          rcases hd : dbFirst achievementModel w (Achievement.Preload {}) id with ⟨wd, rd⟩
          simp only [hd] at hg
          cases rd with
          | error e => simp only [World.logError, Prod.mk.injEq, reduceCtorEq, and_false] at hg
          | ok found =>
            simp only [Prod.mk.injEq, Except.ok.injEq] at hg
            rw [← hg.2]
            exact dbFirst_ok_id w wd _ id found hd
        have hc2 := storageAttach_calls w1 "achievement" item.Id "icon" f
        rcases ha : storageAttach w1 "achievement" item.Id "icon" f with ⟨w2, r2⟩
        rw [ha] at hc2
        cases r2 with
        | error e =>
          simp [AchievementController.UploadIcon, hp, hg, ha, StatusInternalServerError] at hst
        | ok att =>
          simp only at hc2
          rcases hu : AchievementService.UploadIcon w2 id f with ⟨w3, r3⟩
          cases r3 with
          | error e =>
            simp [AchievementController.UploadIcon, hp, hg, ha, hu, StatusInternalServerError]
              at hst
          | ok updated =>
            obtain ⟨a, hc3⟩ := UploadIcon_ok_calls w2 w3 id f updated hu
            refine ⟨f, id, rfl, rfl, ?_⟩
            simp only [AchievementController.UploadIcon, hp, hg, ha, hu]
            simp only [World.attachCalls, hc3, hc2, hc1, hid, List.filter_append,
              List.filter_cons, List.filter_nil]
            simp

/-! ## The modules of the package -/

theorem registered_moduleCalls (m : Module) :
    (moduleCalls m).filterMap (fun c =>
        match c with
        | .RegisterModule n => some n
        | _ => none) = [m.name] := by
  rcases m with ⟨n, r, i, g, hr⟩
  cases r <;> cases i <;> cases g <;> cases hr <;> simp [moduleCalls]

theorem registered_flatten (ms : List Module) :
    (ms.map moduleCalls).flatten.filterMap (fun c =>
        match c with
        | .RegisterModule n => some n
        | _ => none) = ms.map fun m => m.name := by
  induction ms with
  | nil => simp
  | cons m ms ih =>
    rw [List.map_cons, List.flatten_cons, List.filterMap_append, ih, registered_moduleCalls]
    rfl

/-- C21, as stated, fails: `getModules` constructs thirteen modules, not fourteen, and the data
model has thirteen models. -/
theorem getModules_count_counterexample :
    getModules.length = 13 ∧ getModules.length ≠ 14 ∧ modelDecls.length = 13 := by
  decide

/-- C21, amended. The module initializer `getModules` constructs exactly thirteen modules, under
thirteen different names, one for each of the thirteen models: the names are the directories of
the thirteen controllers, and the module of a directory is built by the constructor
`New<Model>Module` of that directory; and `InitializeModules` hands exactly these thirteen
modules to `module.RegisterModule`, whatever the outcome of each registration, Init and
Migrate. -/
theorem getModules_one_per_model :
    getModules.length = 13 ∧
      (getModules.map fun e => e.1).Nodup ∧
      controllerDecls.length = 13 ∧
      modelDecls.length = 13 ∧
      (∀ c ∈ controllerDecls,
        (c.package, c.package ++ ".New" ++ c.model.name ++ "Module") ∈ getModules) ∧
      (∀ m ∈ modelDecls, m ∈ controllerDecls.map fun c => c.model) ∧
      (∀ moduleMap : List Module,
        (moduleMap.map fun m => m.name) = (getModules.map fun e => e.1) →
          (InitializeModules moduleMap).registered = getModules.map fun e => e.1) := by
  refine ⟨by decide, by decide, by decide, by decide, by decide, by decide, ?_⟩
  intro moduleMap hnames
  obtain ⟨_, h2⟩ := foldl_initializeModule moduleMap {}
  have hc : (InitializeModules moduleMap).calls = (moduleMap.map moduleCalls).flatten := by
    simpa [InitializeModules] using h2
  rw [InitState.registered, hc, registered_flatten, hnames]

/-! ## The page and limit that reach `GetAll` -/

/-- The outcome of the check of a `page` or `limit` query value: rejected, absent, or a positive
value of the 64-bit range. -/
theorem query_value_cases (s : String) :
    (if s ≠ "" then
        match Atoi s with
        | .ok n => if n > 0 then Except.ok (some n) else Except.error ()
        | .error _ => Except.error ()
      else (Except.ok none : Except Unit (Option Int))) = .error () ∨
      ∃ v : Option Int,
        (if s ≠ "" then
          match Atoi s with
          | .ok n => if n > 0 then Except.ok (some n) else Except.error ()
          | .error _ => Except.error ()
        else (Except.ok none : Except Unit (Option Int))) = .ok v ∧
          (s = "" → v = none) ∧
          ∀ n, v = some n → Atoi s = .ok n ∧ 1 ≤ n ∧ n ≤ maxInt64 := by
  by_cases hne : s = ""
  · refine Or.inr ⟨none, by simp [hne], fun _ => rfl, ?_⟩
    intro n hn
    cases hn
  · cases hA : Atoi s with
    | error e => exact Or.inl (by simp [hne])
    | ok n =>
      by_cases hpos : n > 0
      · refine Or.inr ⟨some n, by simp [hne, hpos], fun h => absurd h hne, ?_⟩
        intro k hk
        cases hk
        obtain ⟨_, _, _, h4⟩ := (Atoi_ok_iff s n).1 hA
        exact ⟨rfl, by omega, h4⟩
      · exact Or.inl (by simp [hne, hpos])

/-- Every request to the List handler is either answered 400 without a call of the service, or
handed to `GetAll` with a page and a limit that are absent or positive values of the 64-bit
range. -/
theorem List_cases (w : World Achievement) (p l : String) :
    ((AchievementController.List w p l).2.status = 400 ∧
        (AchievementController.List w p l).1 = w) ∨
      ∃ page limit : Option Int,
        (∀ n, page = some n → Atoi p = .ok n ∧ 1 ≤ n ∧ n ≤ maxInt64) ∧
          (∀ n, limit = some n → Atoi l = .ok n ∧ 1 ≤ n ∧ n ≤ maxInt64) ∧
          (p = "" → page = none) ∧ (l = "" → limit = none) ∧
          (AchievementController.List w p l).1 = (AchievementService.GetAll w page limit).1 ∧
          (∀ resp, (AchievementService.GetAll w page limit).2 = .ok resp →
            (AchievementController.List w p l).2 = ⟨200, .page resp⟩) ∧
          (∀ err, (AchievementService.GetAll w page limit).2 = .error err →
            (AchievementController.List w p l).2 =
              ⟨500, .ErrorResponse ("Failed to fetch items: " ++ err)⟩) := by
  unfold AchievementController.List
  rcases query_value_cases p with hp | ⟨page, hp, hp0, hp1⟩
  · simp only [hp]
    exact Or.inl ⟨rfl, trivial⟩
  · simp only [hp]
    rcases query_value_cases l with hl | ⟨limit, hl, hl0, hl1⟩
    · simp only [hl]
      exact Or.inl ⟨rfl, trivial⟩
    · simp only [hl]
      refine Or.inr ⟨page, limit, hp1, hl1, hp0, hl0, ?_⟩
      rcases hg : AchievementService.GetAll w page limit with ⟨w1, r⟩
      cases r with
      | error e =>
        refine ⟨rfl, ?_, ?_⟩
        · intro resp hr
          cases hr
        · intro err hr
          cases hr
          rfl
      | ok resp =>
        refine ⟨rfl, ?_, ?_⟩
        · intro r2 hr
          cases hr
          rfl
        · intro err hr
          cases hr

/-- The page and the limit used by `GetAll` are positive values of the 64-bit range when the
requested ones are absent or such values. -/
theorem used_of_accepted (v : Option Int) (d : Int) (hd1 : 1 ≤ d) (hd2 : d ≤ maxInt64)
    (h : ∀ n, v = some n → 1 ≤ n ∧ n ≤ maxInt64) : 1 ≤ v.getD d ∧ v.getD d ≤ maxInt64 := by
  cases v with
  | none => exact ⟨hd1, hd2⟩
  | some n => exact h n rfl

/-- The database calls of `GetAll`: the count and, when the count succeeds, the query with the
offset computed in 64-bit arithmetic. -/
theorem GetAll_calls (w : World Achievement) (page limit : Option Int) :
    ((AchievementService.GetAll w page limit).1.calls = w.calls ++ [Call.dbCount "achievements"] ∧
        ∃ e, (AchievementService.GetAll w page limit).2 = .error e) ∨
      (AchievementService.GetAll w page limit).1.calls =
        w.calls ++ [Call.dbCount "achievements",
          Call.dbFind "achievements"
            { offset := wrapInt64 ((pageUsed page - 1) * limitUsed limit),
              limit := some (limitUsed limit) }] := by
  unfold AchievementService.GetAll
  simp only [dbCount_eq, dbFind_eq]
  have hc := enter_calls w (.dbCount achievementModel.table)
  rcases hx : w.enter (.dbCount achievementModel.table) with ⟨f, w1⟩
  rw [hx] at hc
  simp only at hc
  cases f with
  | some e =>
    left
    simp only [World.logError]
    exact ⟨hc, _, rfl⟩
  | none =>
    right
    simp only
    cases page <;> cases limit <;>
    · simp only [pageUsed, limitUsed, Option.getD_none, Option.getD_some, Achievement.Preload,
        Query.Offset, Query.Limit]
      split <;>
      · rename_i heq
        simp only [Prod.mk.injEq] at heq
        simp only [World.logError]
        rw [← heq.1, enter_calls, hc]
        simp [achievementModel]

theorem float64OfNat_pos (n : Nat) (h0 : 1 ≤ n) (h1 : n < 2 ^ 63) : 0 < float64OfNat n := by
  by_cases h : n ≤ 2 ^ 53
  · rw [float64OfNat_exact n h]
    exact h0
  · have := (float64OfNat_large n (by omega) h1).1
    omega

theorem findOffsets_append_count {α : Type} (w : World α) (calls : List Call) (t : String)
    (h : w.calls = calls ++ [Call.dbCount t]) :
    w.findOffsets = calls.filterMap (fun c =>
      match c with
      | .dbFind _ q => some q.offset
      | _ => none) := by
  simp [World.findOffsets, h, List.filterMap_append]

theorem findOffsets_append_find {α : Type} (w : World α) (calls : List Call) (t : String)
    (q : Query) (h : w.calls = calls ++ [Call.dbCount t, Call.dbFind t q]) :
    w.findOffsets = calls.filterMap (fun c =>
      match c with
      | .dbFind _ q => some q.offset
      | _ => none) ++ [q.offset] := by
  simp [World.findOffsets, h, List.filterMap_append]

/-- C25. The page-count division is never by zero on any request path. Every request to the
List handler is either answered 400 without a call of the service, or reaches `GetAll` with a
limit that is absent (then the default 10 is used) or a validated positive query value; ListAll
reaches `GetAll` with no limit, so with the default 10. In both cases the limit used is at least
1, its `float64` conversion is positive, and it is the divisor of the page count and the
PageSize of the response. -/
theorem page_count_divisor_is_positive (w : World Achievement) (p l : String) :
    (((AchievementController.List w p l).2.status = 400 ∧
          (AchievementController.List w p l).1 = w) ∨
        ∃ page limit : Option Int,
          (∀ n, limit = some n → Atoi l = .ok n ∧ 1 ≤ n) ∧
            (l = "" → limitUsed limit = 10) ∧
            1 ≤ limitUsed limit ∧
            0 < float64OfNat (limitUsed limit).natAbs ∧
            (AchievementController.List w p l).1 = (AchievementService.GetAll w page limit).1 ∧
            (∀ err, (AchievementService.GetAll w page limit).2 = .error err →
              (AchievementController.List w p l).2 =
                ⟨500, .ErrorResponse ("Failed to fetch items: " ++ err)⟩) ∧
            ∀ resp, (AchievementService.GetAll w page limit).2 = .ok resp →
              (AchievementController.List w p l).2 = ⟨200, .page resp⟩ ∧
                resp.Pagination.PageSize = limitUsed limit ∧
                resp.Pagination.TotalPages =
                  if ceilDivFloat64 resp.Pagination.Total (limitUsed limit) = 0 then 1
                  else ceilDivFloat64 resp.Pagination.Total (limitUsed limit)) ∧
      limitUsed none = 10 ∧
      0 < float64OfNat (limitUsed none).natAbs ∧
      (AchievementController.ListAll w).1 = (AchievementService.GetAll w none none).1 ∧
      (∀ resp, (AchievementService.GetAll w none none).2 = .ok resp →
        (AchievementController.ListAll w).2 = ⟨200, .page resp⟩ ∧
          resp.Pagination.PageSize = 10 ∧
          resp.Pagination.TotalPages =
            if ceilDivFloat64 resp.Pagination.Total 10 = 0 then 1
            else ceilDivFloat64 resp.Pagination.Total 10) := by
  have hpag : ∀ (page limit : Option Int) resp,
      (AchievementService.GetAll w page limit).2 = .ok resp →
        resp.Pagination.PageSize = limitUsed limit ∧
          resp.Pagination.TotalPages =
            if ceilDivFloat64 resp.Pagination.Total (limitUsed limit) = 0 then 1
            else ceilDivFloat64 resp.Pagination.Total (limitUsed limit) := by
    intro page limit resp hr
    rcases hg : AchievementService.GetAll w page limit with ⟨w1, r⟩
    rw [hg] at hr
    simp only at hr
    subst hr
    obtain ⟨_, hp⟩ := achievement_GetAll_ok w w1 page limit resp hg
    rw [hp]
    exact ⟨rfl, rfl⟩
  refine ⟨?_, rfl, by decide, ?_, ?_⟩
  · rcases List_cases w p l with h400 | ⟨page, limit, _, hl1, _, hl0, hw, hok, herr⟩
    · exact Or.inl h400
    · have hused := used_of_accepted limit 10 (by decide) (by decide)
        (fun n hn => (hl1 n hn).2)
      refine Or.inr ⟨page, limit, fun n hn => ⟨(hl1 n hn).1, (hl1 n hn).2.1⟩, ?_, hused.1, ?_,
        hw, herr, fun resp hr => ⟨hok resp hr, hpag page limit resp hr⟩⟩
      · intro he
        rw [hl0 he]
        rfl
      · apply float64OfNat_pos
        · have := hused.1
          unfold limitUsed
          omega
        · have := hused.2
          have h1 := hused.1
          unfold maxInt64 at this
          unfold limitUsed
          omega
  · unfold AchievementController.ListAll
    rcases AchievementService.GetAll w none none with ⟨w1, r⟩
    cases r <;> rfl
  · intro resp hr
    refine ⟨?_, hpag none none resp hr⟩
    unfold AchievementController.ListAll
    rcases hg : AchievementService.GetAll w none none with ⟨w1, r⟩
    rw [hg] at hr
    simp only at hr
    subst hr
    rfl

/-- C26, as stated, fails: the List handler accepts page 2305843009213693953 and limit 4, and
the offset `GetAll` sends to the database is `-2^63`, while the product `(page - 1) * limit` is
`2^63`. -/
theorem offset_overflow_counterexample :
    (AchievementController.List (sampleWorld 1) "2305843009213693953" "4").2.status = 200 ∧
      (AchievementController.List (sampleWorld 1) "2305843009213693953" "4").1.findOffsets =
        [-9223372036854775808] ∧
      ((2305843009213693953 : Int) - 1) * 4 = 9223372036854775808 := by
  decide

/-- The check of a `page` or `limit` query value either rejects it, or yields the argument
`queryArg` of the value, which is absent or a positive value of the 64-bit range. -/
theorem query_value_arg (s : String) :
    (if s ≠ "" then
        match Atoi s with
        | .ok n => if n > 0 then Except.ok (some n) else Except.error ()
        | .error _ => Except.error ()
      else (Except.ok none : Except Unit (Option Int))) = .error () ∨
      ((if s ≠ "" then
          match Atoi s with
          | .ok n => if n > 0 then Except.ok (some n) else Except.error ()
          | .error _ => Except.error ()
        else (Except.ok none : Except Unit (Option Int))) = .ok (queryArg s) ∧
        (s = "" ∨ IsPositiveInt64Decimal s) ∧
        ∀ n, queryArg s = some n → 1 ≤ n ∧ n ≤ maxInt64) := by
  by_cases hne : s = ""
  · refine Or.inr ⟨by simp [hne, queryArg], Or.inl hne, ?_⟩
    intro n hn
    simp [queryArg, hne] at hn
  · cases hA : Atoi s with
    | error e => exact Or.inl (by simp [hne])
    | ok n =>
      by_cases hpos : n > 0
      · obtain ⟨_, h2, _, h4⟩ := (Atoi_ok_iff s n).1 hA
        have hacc : IsPositiveInt64Decimal s := (accepted_iff_Atoi s).2 ⟨n, hA, hpos⟩
        subst h2
        refine Or.inr ⟨by simp [hne, hpos, queryArg], Or.inr hacc, ?_⟩
        intro k hk
        simp only [queryArg, hne, if_false, Option.some.injEq] at hk
        rw [← hk]
        exact ⟨by omega, h4⟩
      · exact Or.inl (by simp [hne, hpos])

/-- A request the List handler does not reject reaches `GetAll` with the arguments of its own
`page` and `limit` values. -/
theorem List_accepted (w : World Achievement) (p l : String)
    (h : (AchievementController.List w p l).2.status ≠ 400) :
    (p = "" ∨ IsPositiveInt64Decimal p) ∧ (l = "" ∨ IsPositiveInt64Decimal l) ∧
      (∀ n, queryArg p = some n → 1 ≤ n ∧ n ≤ maxInt64) ∧
      (∀ n, queryArg l = some n → 1 ≤ n ∧ n ≤ maxInt64) ∧
      (AchievementController.List w p l).1 =
        (AchievementService.GetAll w (queryArg p) (queryArg l)).1 ∧
      (∀ resp, (AchievementService.GetAll w (queryArg p) (queryArg l)).2 = .ok resp →
        (AchievementController.List w p l).2 = ⟨200, .page resp⟩) ∧
      (∀ err, (AchievementService.GetAll w (queryArg p) (queryArg l)).2 = .error err →
        (AchievementController.List w p l).2 =
          ⟨500, .ErrorResponse ("Failed to fetch items: " ++ err)⟩) := by
  unfold AchievementController.List at h ⊢
  rcases query_value_arg p with hp | ⟨hp, hpa, hpb⟩
  · simp only [hp] at h
    exact absurd rfl h
  · simp only [hp] at h ⊢
    rcases query_value_arg l with hl | ⟨hl, hla, hlb⟩
    · simp only [hl] at h
      exact absurd rfl h
    · simp only [hl]
      refine ⟨hpa, hla, hpb, hlb, ?_⟩
      rcases hg : AchievementService.GetAll w (queryArg p) (queryArg l) with ⟨w1, r⟩
      cases r with
      | error e =>
        refine ⟨rfl, ?_, ?_⟩
        · intro resp hr
          cases hr
        · intro err hr
          cases hr
          rfl
      | ok resp =>
        refine ⟨rfl, ?_, ?_⟩
        · intro r2 hr
          cases hr
          rfl
        · intro err hr
          cases hr

theorem pageUsed_queryArg (p : String) : pageUsed (queryArg p) = requestedPage p := by
  unfold pageUsed queryArg requestedPage
  split <;> rfl

theorem limitUsed_queryArg (l : String) : limitUsed (queryArg l) = requestedLimit l := by
  unfold limitUsed queryArg requestedLimit
  split <;> rfl

/-- C26, amended. For every request that the List handler accepts, the page and the limit it
asks for (the values of the query parameters, positive values of the 64-bit int range; 1 for an
absent page, 10 for an absent limit) are the ones `GetAll` is called with, and the offset
`GetAll` sends to the database is `(page - 1) * limit` wrapped around to 64 bits. It is
non-negative and equals the mathematical product when the product is at most `2^63 - 1`, and it
differs from the product otherwise. The query is sent unless the count fails (the request is
then answered 500), so it is sent whenever the request is answered 200. -/
theorem offset_of_accepted_page (w : World Achievement) (p l : String)
    (h : (AchievementController.List w p l).2.status ≠ 400) :
    (p = "" ∨ IsPositiveInt64Decimal p) ∧ (l = "" ∨ IsPositiveInt64Decimal l) ∧
      1 ≤ requestedPage p ∧ requestedPage p ≤ maxInt64 ∧
      1 ≤ requestedLimit l ∧ requestedLimit l ≤ maxInt64 ∧
      (AchievementController.List w p l).1 =
        (AchievementService.GetAll w (queryArg p) (queryArg l)).1 ∧
      pageUsed (queryArg p) = requestedPage p ∧
      limitUsed (queryArg l) = requestedLimit l ∧
      (((AchievementController.List w p l).1.findOffsets = w.findOffsets ∧
          (AchievementController.List w p l).2.status = 500) ∨
        (AchievementController.List w p l).1.findOffsets =
          w.findOffsets ++ [wrapInt64 ((requestedPage p - 1) * requestedLimit l)]) ∧
      ((AchievementController.List w p l).2.status = 200 →
        (AchievementController.List w p l).1.findOffsets =
          w.findOffsets ++ [wrapInt64 ((requestedPage p - 1) * requestedLimit l)]) ∧
      ((requestedPage p - 1) * requestedLimit l ≤ maxInt64 →
        wrapInt64 ((requestedPage p - 1) * requestedLimit l) =
            (requestedPage p - 1) * requestedLimit l ∧
          0 ≤ wrapInt64 ((requestedPage p - 1) * requestedLimit l)) ∧
      (maxInt64 < (requestedPage p - 1) * requestedLimit l →
        wrapInt64 ((requestedPage p - 1) * requestedLimit l) ≠
          (requestedPage p - 1) * requestedLimit l) := by
  obtain ⟨hpa, hla, hp1, hl1, hw, hok, herr⟩ := List_accepted w p l h
  have hpu := used_of_accepted (queryArg p) 1 (by decide) (by decide) hp1
  have hlu := used_of_accepted (queryArg l) 10 (by decide) (by decide) hl1
  have hpe := pageUsed_queryArg p
  have hle := limitUsed_queryArg l
  have hpu1 : 1 ≤ requestedPage p := by
    rw [← hpe]
    exact hpu.1
  have hpu2 : requestedPage p ≤ maxInt64 := by
    rw [← hpe]
    exact hpu.2
  have hlu1 : 1 ≤ requestedLimit l := by
    rw [← hle]
    exact hlu.1
  have hlu2 : requestedLimit l ≤ maxInt64 := by
    rw [← hle]
    exact hlu.2
  have hprod : 0 ≤ (requestedPage p - 1) * requestedLimit l :=
    Int.mul_nonneg (by omega) (by omega)
  refine ⟨hpa, hla, hpu1, hpu2, hlu1, hlu2, hw, hpe, hle, ?_, ?_, ?_, ?_⟩
  · rw [hw]
    rcases GetAll_calls w (queryArg p) (queryArg l) with ⟨hc, e, he⟩ | hc
    · refine Or.inl ⟨findOffsets_append_count _ _ _ hc, ?_⟩
      rw [herr e he]
    · rw [hpe, hle] at hc
      exact Or.inr (findOffsets_append_find _ _ _ _ hc)
  · intro h200
    rw [hw]
    rcases GetAll_calls w (queryArg p) (queryArg l) with ⟨_, e, he⟩ | hc
    · rw [herr e he] at h200
      simp at h200
    · rw [hpe, hle] at hc
      exact findOffsets_append_find _ _ _ _ hc
  · intro hno
    rw [wrapInt64_of_range _ hprod hno]
    exact ⟨rfl, hprod⟩
  · intro hov
    have hw2 : wrapInt64 ((requestedPage p - 1) * requestedLimit l) ≤ maxInt64 := by
      unfold wrapInt64 maxInt64
      omega
    omega

/-- C26 (amended) at a concrete input: page 3 of size 4 over eleven rows is sent with offset 8. -/
theorem offset_of_accepted_page_witness :
    (AchievementController.List (sampleWorld 11) "3" "4").2.status ≠ 400 ∧
      requestedPage "3" = 3 ∧ requestedLimit "4" = 4 ∧
      (AchievementController.List (sampleWorld 11) "3" "4").1.findOffsets = [8] :=
  have h := offset_of_accepted_page (sampleWorld 11) "3" "4" (by decide)
  ⟨by decide, by decide, by decide,
    (h.2.2.2.2.2.2.2.2.2.2.1 (by decide)).trans (by decide)⟩

/-! ## The pages of a table, one after the other -/

/-- Consecutive slices of length `k` put together are an initial segment of the list. -/
theorem flatten_slices {α β : Type} (f : α → β) (xs : List α) (k T : Nat) :
    ((List.range T).map fun i => ((xs.drop (i * k)).take k).map f).flatten =
      (xs.take (T * k)).map f := by
  induction T with
  | zero => simp
  | succ T ih =>
    rw [List.range_succ, List.map_append, List.flatten_append, ih, List.map_singleton,
      List.flatten_singleton, ← List.map_append, Nat.succ_mul, List.take_add]

theorem length_flatten_le {β : Type} (g : Nat → List β) (k T : Nat)
    (h : ∀ i, (g i).length ≤ k) : ((List.range T).map g).flatten.length ≤ T * k := by
  induction T with
  | zero => simp
  | succ T ih =>
    rw [List.range_succ, List.map_append, List.flatten_append, List.length_append,
      List.map_singleton, List.flatten_singleton, Nat.succ_mul]
    have := h T
    omega

/-- A page never holds more rows than the limit. -/
theorem pageData_length_le (w : World Achievement) (p l : Int) (hl : 0 ≤ l) :
    (AchievementService.pageData w p l).length ≤ l.toNat := by
  unfold AchievementService.pageData
  rcases hg : AchievementService.GetAll w (some p) (some l) with ⟨w1, r⟩
  cases r with
  | error e => simp
  | ok resp =>
    obtain ⟨hd, _⟩ := achievement_GetAll_ok w w1 (some p) (some l) resp hg
    simp only
    rw [hd, List.length_map, List.length_map]
    unfold applyLimit
    simp only [limitUsed, Option.getD_some, hl, if_true]
    rw [List.length_take]
    omega

/-- The Data of an in-range page is the list response of each row of its slice. -/
theorem pageData_eq (w : World Achievement) (p l : Int) (hf : w.faults = []) (hp : 1 ≤ p)
    (hl : 1 ≤ l) (hno : (p - 1) * l ≤ maxInt64) :
    AchievementService.pageData w p l =
      (pageSlice (AchievementService.table w) p l).map
        fun r => Achievement.ToListResponse (some r) := by
  obtain ⟨w1, resp, hg⟩ := achievement_GetAll_succeeds w (some p) (some l) hf
  obtain ⟨hd, _⟩ := achievement_GetAll_ok w w1 (some p) (some l) resp hg
  unfold AchievementService.pageData
  rw [hg]
  simp only
  rw [hd]
  have := applyLimit_page (w.visible achievementModel) p l hp hl hno
  simp only [pageUsed, limitUsed, Option.getD_some]
  rw [this]
  unfold pageSlice AchievementService.table
  rw [List.map_take, List.map_drop]

/-- TotalPages as reported, for a table of at most `2^53` rows. -/
theorem reportedTotalPages_eq (w : World Achievement) (ln : Nat) (hf : w.faults = [])
    (hsize : (AchievementService.table w).length ≤ 2 ^ 53) (hl1 : 1 ≤ ln) (hl2 : ln < 2 ^ 63) :
    AchievementService.reportedTotalPages w (ln : Int) =
      if (AchievementService.table w).length = 0 then 1
      else ((((AchievementService.table w).length + ln - 1) / ln : Nat) : Int) := by
  obtain ⟨w1, resp, hg⟩ := achievement_GetAll_succeeds w (some 1) (some (ln : Int)) hf
  obtain ⟨_, hpag⟩ := achievement_GetAll_ok w w1 (some 1) (some (ln : Int)) resp hg
  have hlen : (AchievementService.table w).length = (w.visible achievementModel).length := by
    unfold AchievementService.table
    rw [List.length_map]
  rw [hlen] at hsize ⊢
  unfold AchievementService.reportedTotalPages
  rw [hg]
  simp only
  rw [hpag]
  simp only [limitUsed, Option.getD_some]
  rw [ceilDivFloat64_eq _ ln hsize hl1 hl2]
  generalize (w.visible achievementModel).length = n
  by_cases hn : n = 0
  · subst hn
    rw [Nat.zero_add, Nat.div_eq_of_lt (by omega)]
    simp
  · have hpos : 1 ≤ (n + ln - 1) / ln := by
      apply (Nat.le_div_iff_mul_le (by omega)).2
      omega
    have h1 : ¬ (((n + ln - 1) / ln : Nat) : Int) = 0 := by omega
    rw [if_neg h1, if_neg hn]

/-- The slice of page `i + 1`, with the positions as natural numbers. -/
theorem pageSlice_succ {α : Type} (rows : List α) (i ln : Nat) :
    pageSlice rows ((i : Int) + 1) (ln : Int) = (rows.drop (i * ln)).take ln := by
  unfold pageSlice
  have h : (((i : Int) + 1 - 1) * (ln : Int)).toNat = i * ln := by
    rw [add_sub_cancel_right, ← Nat.cast_mul, Int.toNat_natCast]
  rw [h, Int.toNat_natCast]

/-- C24, amended. Pages partition the table: for a table of at least one and at most `2^53`
rows in a stable query order, with no database call failing, and for every limit `l` from 1 to
`2^63 - 1`, the concatenation of the Data of `GetAll(p, l)` for p = 1 .. TotalPages equals the
list responses of all rows of the table in order, so each row appears exactly once; TotalPages
is at least 1 and is reported alike by every page; and page TotalPages is not empty. -/
theorem pages_partition_table (w : World Achievement) (l : Int) (hf : w.faults = [])
    (hne : AchievementService.table w ≠ [])
    (hsize : (AchievementService.table w).length ≤ 2 ^ 53) (hl : 1 ≤ l)
    (hl2 : l ≤ maxInt64) :
    AchievementService.allPages w l =
        (AchievementService.table w).map (fun r => Achievement.ToListResponse (some r)) ∧
      1 ≤ AchievementService.reportedTotalPages w l ∧
      AchievementService.pageData w (AchievementService.reportedTotalPages w l) l ≠ [] ∧
      ∀ p, ∃ w1 resp, AchievementService.GetAll w (some p) (some l) = (w1, .ok resp) ∧
        resp.Pagination.TotalPages = AchievementService.reportedTotalPages w l := by
  obtain ⟨ln, rfl⟩ : ∃ ln : Nat, l = (ln : Int) := ⟨l.toNat, by omega⟩
  have hln1 : 1 ≤ ln := by omega
  have hln2 : ln < 2 ^ 63 := by
    unfold maxInt64 at hl2
    omega
  have hn0 : (AchievementService.table w).length ≠ 0 := by
    intro h0
    exact hne (List.length_eq_zero.1 h0)
  have hT := reportedTotalPages_eq w ln hf hsize hln1 hln2
  rw [if_neg hn0] at hT
  have h1 : (AchievementService.table w).length + ln - 1 <
      ln * (((AchievementService.table w).length + ln - 1) / ln + 1) :=
    Nat.lt_mul_div_succ _ (by omega)
  have h2 : ((AchievementService.table w).length + ln - 1) / ln * ln ≤
      (AchievementService.table w).length + ln - 1 := Nat.div_mul_le_self _ _
  have hpos : 1 ≤ ((AchievementService.table w).length + ln - 1) / ln := by
    apply (Nat.le_div_iff_mul_le (by omega)).2
    omega
  generalize hTdef : ((AchievementService.table w).length + ln - 1) / ln = T at hT h1 h2 hpos
  generalize hndef : (AchievementService.table w).length = n at hsize hn0 h1 h2
  have hcover : n ≤ T * ln := by
    have : ln * (T + 1) = T * ln + ln := by ring
    omega
  have hin : ∀ i, i < T → i * ln < n := by
    intro i hi
    have h3 : (i + 1) * ln ≤ T * ln := Nat.mul_le_mul_right ln (by omega)
    have : (i + 1) * ln = i * ln + ln := by ring
    omega
  have hpage : ∀ i, i < T →
      AchievementService.pageData w ((i : Int) + 1) (ln : Int) =
        (((AchievementService.table w).drop (i * ln)).take ln).map
          fun r => Achievement.ToListResponse (some r) := by
    intro i hi
    rw [pageData_eq w ((i : Int) + 1) (ln : Int) hf (by omega) hl, pageSlice_succ]
    have hb := hin i hi
    have hprod : ((i : Int) + 1 - 1) * (ln : Int) = ((i * ln : Nat) : Int) := by
      rw [add_sub_cancel_right, Nat.cast_mul]
    rw [hprod]
    unfold maxInt64
    omega
  refine ⟨?_, ?_, ?_, ?_⟩
  · unfold AchievementService.allPages
    rw [hT, Int.toNat_natCast]
    have hmap : ((List.range T).map fun (i : Nat) =>
        AchievementService.pageData w ((i : Int) + 1) (ln : Int)) =
        (List.range T).map fun (i : Nat) =>
          (((AchievementService.table w).drop (i * ln)).take ln).map
            fun r => Achievement.ToListResponse (some r) := by
      apply List.map_congr_left
      intro i hi
      exact hpage i (List.mem_range.1 hi)
    rw [hmap, flatten_slices, List.take_of_length_le (by omega)]
  · rw [hT]
    omega
  · rw [hT]
    obtain ⟨i, rfl⟩ : ∃ i, T = i + 1 := ⟨T - 1, by omega⟩
    have hb := hin i (by omega)
    have hcast : (((i + 1 : Nat)) : Int) = (i : Int) + 1 := by push_cast; rfl
    rw [hcast, hpage i (by omega)]
    intro hnil
    have hlen := congrArg List.length hnil
    rw [List.length_map, List.length_take, List.length_drop, hndef] at hlen
    simp only [List.length_nil] at hlen
    omega
  · intro p
    obtain ⟨w1, resp, hg⟩ := achievement_GetAll_succeeds w (some p) (some (ln : Int)) hf
    obtain ⟨wa, respa, hga⟩ := achievement_GetAll_succeeds w (some 1) (some (ln : Int)) hf
    refine ⟨w1, resp, hg, ?_⟩
    obtain ⟨_, hp1⟩ := achievement_GetAll_ok w w1 (some p) (some (ln : Int)) resp hg
    obtain ⟨_, hp2⟩ := achievement_GetAll_ok w wa (some 1) (some (ln : Int)) respa hga
    unfold AchievementService.reportedTotalPages
    rw [hga]
    simp only
    rw [hp1, hp2]

/-- C24 (amended) at a concrete input: eleven rows in pages of four. -/
theorem pages_partition_table_witness :
    AchievementService.table (sampleWorld 11) ≠ [] ∧
      AchievementService.reportedTotalPages (sampleWorld 11) 4 = 3 ∧
      AchievementService.allPages (sampleWorld 11) 4 =
        (AchievementService.table (sampleWorld 11)).map
          (fun r => Achievement.ToListResponse (some r)) :=
  have h := pages_partition_table (sampleWorld 11) 4 rfl (by decide) (by decide) (by decide)
    (by decide)
  ⟨by decide, by decide, h.1⟩

/-- C24, as stated, fails: for a table of `2^53 + 1` rows and limit 1, `GetAll` reports `2^53`
pages, so the pages 1 .. TotalPages hold at most `2^53` rows together and do not cover the
table. -/
theorem pages_miss_rows_counterexample :
    AchievementService.reportedTotalPages (sampleWorld 9007199254740993) 1 =
        9007199254740992 ∧
      (AchievementService.table (sampleWorld 9007199254740993)).length = 9007199254740993 ∧
      (AchievementService.allPages (sampleWorld 9007199254740993) 1).length ≤
        9007199254740992 ∧
      AchievementService.allPages (sampleWorld 9007199254740993) 1 ≠
        (AchievementService.table (sampleWorld 9007199254740993)).map
          (fun r => Achievement.ToListResponse (some r)) := by
  have hT : AchievementService.reportedTotalPages (sampleWorld 9007199254740993) 1 =
      9007199254740992 := by
    obtain ⟨w1, resp, h⟩ :=
      achievement_GetAll_succeeds (sampleWorld 9007199254740993) (some 1) (some 1) rfl
    obtain ⟨_, hpag⟩ := achievement_GetAll_ok _ w1 (some 1) (some 1) resp h
    rw [sampleWorld_visible_length] at hpag
    have hceil : ceilDivFloat64 ((9007199254740993 : Nat) : Int) (limitUsed (some 1)) =
        9007199254740992 := by decide
    rw [hceil] at hpag
    unfold AchievementService.reportedTotalPages
    rw [h]
    simp only
    rw [hpag]
    rfl
  have hlen : (AchievementService.table (sampleWorld 9007199254740993)).length =
      9007199254740993 := by
    unfold AchievementService.table
    rw [List.length_map, sampleWorld_visible_length]
  have hle : (AchievementService.allPages (sampleWorld 9007199254740993) 1).length ≤
      9007199254740992 := by
    unfold AchievementService.allPages
    rw [hT]
    have h := length_flatten_le
      (fun (i : Nat) =>
        AchievementService.pageData (sampleWorld 9007199254740993) ((i : Int) + 1) 1)
      1 (9007199254740992 : Int).toNat
      (fun i => pageData_length_le (sampleWorld 9007199254740993) ((i : Int) + 1) 1 (by decide))
    have hn : (9007199254740992 : Int).toNat = 9007199254740992 := by decide
    rw [hn] at h ⊢
    rw [Nat.mul_one] at h
    exact h
  refine ⟨hT, hlen, hle, ?_⟩
  intro heq
  have := congrArg List.length heq
  rw [List.length_map, hlen] at this
  omega

end Gamification
